import Mathlib

/-!
# Intrusive reference counting (`src/inet/common/Ptr.h`)

A shallow embedding of `inet::intrusive_ptr<T>` and `inet::intrusive_ref_counter<T>`.

* A raw address `T *` is a natural number, `0` being the null address.
* The memory holds, for every address, the `intrusive_ref_counter` sub-object of the managed
  object stored there (its `unsigned int c`, a natural number kept below `2^32` by explicit
  reduction), and the number of times `delete` has been executed on that object.  An object is
  known by its address as a `T *`, where `intrusive_ptr<T>` is the class whose members are
  embedded: `m.obj a` is the counter that `intrusive_ptr_add_ref(p)` reaches from `T *p = a`.
* Every `intrusive_ptr` instance lives in a slot of a table; a reference (`intrusive_ptr &`,
  `this`: the parameters named `this`, `rhs`, `lhs`, `r`) is the index of the slot, so that
  aliasing (`p = p`, `p.swap(p)`) is the use of one index twice.  A constructor appends a slot,
  the destructor empties it.  The temporaries the assignment operators and `reset` build are
  instances like any other.
* The managed type `T` is a class deriving from `intrusive_ref_counter<T>` whose own destructor
  releases no further `intrusive_ptr`: `delete` only records the destruction of the object.
  The counter cell of a deleted object is still written by the model when the code writes it,
  so that dangling pointers can be stated; in C++ that is undefined behaviour, and the memory
  records in `ub` that it has happened.
* A conversion between pointer types (`static_cast<T *>` of a `U *`, and the implicit
  conversion `U * → T *` in the converting constructors) keeps the null address and maps any
  other address to the address of the same object as a `T *`, which is another number when the
  sub-object is not at offset 0 of the object (multiple inheritance).  The conversion is a
  parameter `conv` of the converting operations; the object of an `intrusive_ptr<U>` that
  holds `a` is then known as `static_cast conv a`.  `const_cast` changes the qualification
  only and leaves the address as it is; `dynamic_cast` is given the outcome of the run-time
  type check as a predicate on addresses.
-/

namespace inet

/-- The number of values of `unsigned int` (32 bits). -/
def UINT_MOD : Nat := 4294967296

/-- `class intrusive_ref_counter`: the counter cell `mutable unsigned int c`. -/
structure intrusive_ref_counter where
  c : Nat
deriving DecidableEq, Repr

/-- `class intrusive_ptr`: the raw address `T *p`. -/
structure intrusive_ptr where
  p : Nat
deriving DecidableEq, Repr

/-- The state of the program: the managed objects and the `intrusive_ptr` instances. -/
structure Memory where
  /-- the `intrusive_ref_counter` sub-object of the object at an address -/
  obj : Nat → intrusive_ref_counter
  /-- how many times `delete` has run on the object at an address -/
  deleted : Nat → Nat
  /-- the slots of the `intrusive_ptr` instances; `none` is a slot without a live instance -/
  ptrs : List (Option intrusive_ptr)
  /-- whether the counter of an object has been accessed after the `delete` of the object,
  which in C++ is undefined behaviour -/
  ub : Bool

/-- `intrusive_ref_counter() noexcept : c(0) { }` -/
def intrusive_ref_counter.ctor : intrusive_ref_counter := ⟨0⟩

/-- `intrusive_ref_counter(intrusive_ref_counter const&) noexcept : c(0) { }` -/
def intrusive_ref_counter.ctor_copy (_rhs : intrusive_ref_counter) : intrusive_ref_counter := ⟨0⟩

/-- `unsigned int use_count() const noexcept { return c; }` -/
def intrusive_ref_counter.use_count (self : intrusive_ref_counter) : Nat := self.c

/-- `intrusive_ref_counter& operator= (intrusive_ref_counter const&) noexcept { return *this; }` -/
def intrusive_ref_counter.assign (self _rhs : intrusive_ref_counter) : intrusive_ref_counter :=
  self

/-- A memory in which every address holds a newly constructed managed object and no
`intrusive_ptr` instance exists. -/
def Memory.fresh : Memory := ⟨fun _ => intrusive_ref_counter.ctor, fun _ => 0, [], false⟩

/-- The slot of an instance: `some x` for a live instance, `none` otherwise. -/
def Memory.inst (m : Memory) (r : Nat) : Option intrusive_ptr := m.ptrs.getD r none

/-- Whether the slot holds a live instance. -/
def Memory.live (m : Memory) (r : Nat) : Bool := (m.inst r).isSome

/-- Reading the member `p` of the instance `r` (`rhs.p`, `rhs.get()`). -/
def Memory.get (m : Memory) (r : Nat) : Nat :=
  match m.inst r with
  | some x => x.p
  | none => 0

/-- Writing the member `p` of the instance `r` (`p = ...`, `rhs.p = ...`). -/
def Memory.set (m : Memory) (r : Nat) (a : Nat) : Memory :=
  { m with ptrs := m.ptrs.set r (some ⟨a⟩) }

/-- The member initialiser `: p(a)` of a new instance, whose slot is `m.ptrs.length`. -/
def Memory.alloc (m : Memory) (a : Nat) : Memory :=
  { m with ptrs := m.ptrs ++ [some ⟨a⟩] }

/-- The end of the lifetime of the instance `r`. -/
def Memory.free (m : Memory) (r : Nat) : Memory :=
  { m with ptrs := m.ptrs.set r none }

/-- The number of live `intrusive_ptr` instances that hold the address `a`. -/
def Memory.holders (m : Memory) (a : Nat) : Nat := m.ptrs.count (some ⟨a⟩)

/-- `intrusive_ptr_add_ref`: `++(p->c);` on an `unsigned int`.  The access is recorded in `ub`
when the object at `p` has been deleted before. -/
def intrusive_ptr_add_ref (p : Nat) (m : Memory) : Memory :=
  { m with
    obj := Function.update m.obj p ⟨((m.obj p).c + 1) % UINT_MOD⟩
    ub := m.ub || decide (m.deleted p ≠ 0) }

/-- `intrusive_ptr_release`: `if (--(p->c) == 0) delete static_cast<const T*>(p);` on an
`unsigned int`.  The access is recorded in `ub` when the object at `p` has been deleted
before. -/
def intrusive_ptr_release (p : Nat) (m : Memory) : Memory :=
  let c := ((m.obj p).c + UINT_MOD - 1) % UINT_MOD
  { m with
    obj := Function.update m.obj p ⟨c⟩
    deleted := Function.update m.deleted p (if c = 0 then m.deleted p + 1 else m.deleted p)
    ub := m.ub || decide (m.deleted p ≠ 0) }

/-- `constexpr intrusive_ptr() noexcept : p(0) { }` -/
def intrusive_ptr.ctor (m : Memory) : Memory := m.alloc 0

/-- `intrusive_ptr(T *p, bool add_ref = true) : p(p)`
`{ if (p != 0 && add_ref) intrusive_ptr_add_ref(p); }` -/
def intrusive_ptr.ctor_raw (p : Nat) (add_ref : Bool) (m : Memory) : Memory :=
  let m1 := m.alloc p
  if p ≠ 0 ∧ add_ref = true then intrusive_ptr_add_ref p m1 else m1

/-- `static_cast<T *>(a)` for an address `a` of type `U *`, which is also the implicit
conversion `U * → T *` of an initialiser `p(rhs.get())` or `p(rhs.p)`: the null address stays
null, and any other address becomes `conv a`, the address of the same object as a `T *`.
`conv a` is not `a` when the sub-object is not at offset 0 of the object. -/
def static_cast (conv : Nat → Nat) (a : Nat) : Nat := if a = 0 then 0 else conv a

/-- `const_cast<T *>(a)`: only the qualification of the pointee changes, the address is the
same. -/
def const_cast (a : Nat) : Nat := a

/-- `template <class U> intrusive_ptr(intrusive_ptr<U> const & rhs) : p(rhs.get())`
`{ if (p != 0) intrusive_ptr_add_ref(p); }`, where the initialiser converts the `U *` that
`rhs.get()` returns to `T *`. -/
def intrusive_ptr.ctor_copy_conv (conv : Nat → Nat) (rhs : Nat) (m : Memory) : Memory :=
  let p := static_cast conv (m.get rhs)
  let m1 := m.alloc p
  if p ≠ 0 then intrusive_ptr_add_ref p m1 else m1

/-- `intrusive_ptr(intrusive_ptr const & rhs) : p(rhs.p)`
`{ if (p != 0) intrusive_ptr_add_ref(p); }` -/
def intrusive_ptr.ctor_copy (rhs : Nat) (m : Memory) : Memory :=
  let p := m.get rhs
  let m1 := m.alloc p
  if p ≠ 0 then intrusive_ptr_add_ref p m1 else m1

/-- `~intrusive_ptr() { if (p != 0) intrusive_ptr_release(p); }` -/
def intrusive_ptr.dtor (this : Nat) (m : Memory) : Memory :=
  let p := m.get this
  let m1 := if p ≠ 0 then intrusive_ptr_release p m else m
  m1.free this

/-- `void swap(intrusive_ptr & rhs) noexcept { T *tmp = p; p = rhs.p; rhs.p = tmp; }` -/
def intrusive_ptr.swap (this rhs : Nat) (m : Memory) : Memory :=
  let tmp := m.get this
  let m1 := m.set this (m.get rhs)
  m1.set rhs tmp

/-- `intrusive_ptr(intrusive_ptr && rhs) noexcept : p(rhs.p) { rhs.p = 0; }` -/
def intrusive_ptr.ctor_move (rhs : Nat) (m : Memory) : Memory :=
  let m1 := m.alloc (m.get rhs)
  m1.set rhs 0

/-- `template <class U> intrusive_ptr(intrusive_ptr<U> && rhs) : p(rhs.p) { rhs.p = 0; }`,
where the initialiser converts the `U *` in `rhs.p` to `T *`. -/
def intrusive_ptr.ctor_move_conv (conv : Nat → Nat) (rhs : Nat) (m : Memory) : Memory :=
  let m1 := m.alloc (static_cast conv (m.get rhs))
  m1.set rhs 0

/-- `template <class U> intrusive_ptr & operator=(intrusive_ptr<U> const & rhs)`
`{ intrusive_ptr(rhs).swap(*this); return *this; }` -/
def intrusive_ptr.assign_copy_conv (conv : Nat → Nat) (this rhs : Nat) (m : Memory) :
    Memory :=
  let t := m.ptrs.length
  let m1 := intrusive_ptr.ctor_copy_conv conv rhs m
  let m2 := intrusive_ptr.swap t this m1
  intrusive_ptr.dtor t m2

/-- `intrusive_ptr & operator=(intrusive_ptr && rhs) noexcept`
`{ intrusive_ptr(static_cast<intrusive_ptr &&>(rhs)).swap(*this); return *this; }` -/
def intrusive_ptr.assign_move (this rhs : Nat) (m : Memory) : Memory :=
  let t := m.ptrs.length
  let m1 := intrusive_ptr.ctor_move rhs m
  let m2 := intrusive_ptr.swap t this m1
  intrusive_ptr.dtor t m2

/-- `template <class U> intrusive_ptr & operator=(intrusive_ptr<U> && rhs) noexcept`
`{ intrusive_ptr(static_cast<intrusive_ptr<U> &&>(rhs)).swap(*this); return *this; }` -/
def intrusive_ptr.assign_move_conv (conv : Nat → Nat) (this rhs : Nat) (m : Memory) :
    Memory :=
  let t := m.ptrs.length
  let m1 := intrusive_ptr.ctor_move_conv conv rhs m
  let m2 := intrusive_ptr.swap t this m1
  intrusive_ptr.dtor t m2

/-- `intrusive_ptr & operator=(intrusive_ptr const & rhs)`
`{ intrusive_ptr(rhs).swap(*this); return *this; }` -/
def intrusive_ptr.assign_copy (this rhs : Nat) (m : Memory) : Memory :=
  let t := m.ptrs.length
  let m1 := intrusive_ptr.ctor_copy rhs m
  let m2 := intrusive_ptr.swap t this m1
  intrusive_ptr.dtor t m2

/-- `intrusive_ptr & operator=(T *rhs) { intrusive_ptr(rhs).swap(*this); return *this; }` -/
def intrusive_ptr.assign_raw (this : Nat) (rhs : Nat) (m : Memory) : Memory :=
  let t := m.ptrs.length
  let m1 := intrusive_ptr.ctor_raw rhs true m
  let m2 := intrusive_ptr.swap t this m1
  intrusive_ptr.dtor t m2

/-- `void reset() { intrusive_ptr().swap(*this); }` -/
def intrusive_ptr.reset (this : Nat) (m : Memory) : Memory :=
  let t := m.ptrs.length
  let m1 := intrusive_ptr.ctor m
  let m2 := intrusive_ptr.swap t this m1
  intrusive_ptr.dtor t m2

/-- `void reset(T *rhs) { intrusive_ptr(rhs).swap(*this); }` -/
def intrusive_ptr.reset_raw (this : Nat) (rhs : Nat) (m : Memory) : Memory :=
  let t := m.ptrs.length
  let m1 := intrusive_ptr.ctor_raw rhs true m
  let m2 := intrusive_ptr.swap t this m1
  intrusive_ptr.dtor t m2

/-- `void reset(T *rhs, bool add_ref) { intrusive_ptr(rhs, add_ref).swap(*this); }` -/
def intrusive_ptr.reset_raw_flag (this : Nat) (rhs : Nat) (add_ref : Bool) (m : Memory) :
    Memory :=
  let t := m.ptrs.length
  let m1 := intrusive_ptr.ctor_raw rhs add_ref m
  let m2 := intrusive_ptr.swap t this m1
  intrusive_ptr.dtor t m2

/-- `T *get() const noexcept { return p; }` -/
def intrusive_ptr.get (this : Nat) (m : Memory) : Nat := m.get this

/-- `T *detach() noexcept { T *ret = p; p = 0; return ret; }`: the returned address and the
memory afterwards. -/
def intrusive_ptr.detach (this : Nat) (m : Memory) : Nat × Memory :=
  let ret := m.get this
  (ret, m.set this 0)

/-- `explicit operator bool() const noexcept { return p != 0; }` -/
def intrusive_ptr.toBool (this : Nat) (m : Memory) : Bool := decide (m.get this ≠ 0)

/-- `unsigned int use_count() const noexcept { return p->use_count(); }` -/
def intrusive_ptr.use_count (this : Nat) (m : Memory) : Nat := (m.obj (m.get this)).use_count

/-- The free function `swap(lhs, rhs)`: `lhs.swap(rhs);` -/
def swap (lhs rhs : Nat) (m : Memory) : Memory := intrusive_ptr.swap lhs rhs m

/-- `operator<(intrusive_ptr<T> const & a, intrusive_ptr<T> const & b)`:
`return std::less<T *>()(a.get(), b.get());`, the order of the addresses. -/
def operator_lt (a b : Nat) (m : Memory) : Bool :=
  decide (intrusive_ptr.get a m < intrusive_ptr.get b m)

/-- `get_pointer(p)`: `return p.get();` -/
def get_pointer (p : Nat) (m : Memory) : Nat := intrusive_ptr.get p m

/-- `dynamic_cast<T *>(a)`: the same address when `a` is not null and the object there passes
the run-time type check `isT`, the null address otherwise. -/
def dynamic_cast (isT : Nat → Bool) (a : Nat) : Nat :=
  if a ≠ 0 ∧ isT a = true then a else 0

/-- `static_pointer_cast`: `return static_cast<T *>(p.get());`, the returned `intrusive_ptr<T>`
being built by `intrusive_ptr(T *p, bool add_ref = true)` from the converted address. -/
def static_pointer_cast (conv : Nat → Nat) (p : Nat) (m : Memory) : Memory :=
  intrusive_ptr.ctor_raw (static_cast conv (intrusive_ptr.get p m)) true m

/-- `const_pointer_cast`: `return const_cast<T *>(p.get());` -/
def const_pointer_cast (p : Nat) (m : Memory) : Memory :=
  intrusive_ptr.ctor_raw (const_cast (intrusive_ptr.get p m)) true m

/-- `dynamic_pointer_cast`: `return dynamic_cast<T *>(p.get());` -/
def dynamic_pointer_cast (isT : Nat → Bool) (p : Nat) (m : Memory) : Memory :=
  intrusive_ptr.ctor_raw (dynamic_cast isT (intrusive_ptr.get p m)) true m

/-- `intrusive_ptr<T> shared_from_this() { return intrusive_ptr<T>(static_cast<T *>(this)); }`
called on the object at the address `this`.  The object is known by its address as a `T *`,
so `this` is given as that address and the cast has nothing to adjust. -/
def intrusive_ref_counter.shared_from_this (this : Nat) (m : Memory) : Memory :=
  intrusive_ptr.ctor_raw (static_cast (fun a => a) this) true m

/-- The statement `p = intrusive_ptr(rhs, add_ref);`, which the spec names as what
`reset(rhs, add_ref)` is equivalent to ("assignment from a freshly constructed Smart Pointer"):
the fresh pointer is constructed, `operator=(intrusive_ptr &&)` assigns it to `*this`, and at
the end of the statement the fresh pointer is destroyed. -/
def assign_from_fresh_raw (this rhs : Nat) (add_ref : Bool) (m : Memory) : Memory :=
  let f := m.ptrs.length
  let m1 := intrusive_ptr.ctor_raw rhs add_ref m
  let m2 := intrusive_ptr.assign_move this f m1
  intrusive_ptr.dtor f m2

/-- The statement `p = intrusive_ptr();`, which the spec names as what `reset()` is equivalent
to. -/
def assign_from_fresh (this : Nat) (m : Memory) : Memory :=
  let f := m.ptrs.length
  let m1 := intrusive_ptr.ctor m
  let m2 := intrusive_ptr.assign_move this f m1
  intrusive_ptr.dtor f m2

/-- Two states have the same pointer and heap state: every object has the same counter and has
been deleted as often, the same accesses to deleted objects happened, and every instance holds
the same address (or is gone in both). -/
def Memory.same_state (m m' : Memory) : Prop :=
  m.obj = m'.obj ∧ m.deleted = m'.deleted ∧ m.ub = m'.ub ∧ ∀ r, m.inst r = m'.inst r

/-- A managed object constructed at `dst` as a copy of the object at `src`: the copy
constructor of the managed type copy-constructs its `intrusive_ref_counter` base. -/
def Memory.copy_construct_object (m : Memory) (dst src : Nat) : Memory :=
  { m with obj := Function.update m.obj dst (intrusive_ref_counter.ctor_copy (m.obj src)) }

/-- The object at `src` assigned by value to the object at `dst`: the assignment of the managed
type assigns its `intrusive_ref_counter` base. -/
def Memory.assign_object (m : Memory) (dst src : Nat) : Memory :=
  { m with
    obj := Function.update m.obj dst (intrusive_ref_counter.assign (m.obj dst) (m.obj src)) }

/-- The operations a program applies to `intrusive_ptr` instances.  A constructor, a cast and
`shared_from_this` create a new instance, in the slot `m.ptrs.length`; `conv` selects the
converting overload (`intrusive_ptr<U>` argument); the raw-address constructor, assignment and
`reset` are those with `add_ref = true`.  A program is followed object by object: every
instance is recorded with the address of its object as a `T *`, whatever its own pointer type,
so that the conversions of a program have nothing to adjust. -/
inductive Op where
  | ctor
  | ctor_raw (a : Nat)
  | ctor_copy (conv : Bool) (rhs : Nat)
  | ctor_move (conv : Bool) (rhs : Nat)
  | assign_copy (conv : Bool) (this rhs : Nat)
  | assign_move (conv : Bool) (this rhs : Nat)
  | assign_raw (this : Nat) (a : Nat)
  | reset (this : Nat)
  | reset_raw (this : Nat) (a : Nat)
  | swap (this rhs : Nat)
  | static_pointer_cast (p : Nat)
  | const_pointer_cast (p : Nat)
  | dynamic_pointer_cast (p : Nat)
  | shared_from_this (a : Nat)
  | dtor (this : Nat)
deriving DecidableEq, Repr

/-- One operation of a program.  An operation that names an instance which is not live (not yet
constructed, or already destroyed) is not a step of any program and leaves the memory as it is. -/
def step (isT : Nat → Bool) (op : Op) (m : Memory) : Memory :=
  match op with
  | .ctor => intrusive_ptr.ctor m
  | .ctor_raw a => intrusive_ptr.ctor_raw a true m
  | .ctor_copy conv rhs =>
    if m.live rhs then
      (if conv then intrusive_ptr.ctor_copy_conv (fun a => a) rhs m
       else intrusive_ptr.ctor_copy rhs m)
    else m
  | .ctor_move conv rhs =>
    if m.live rhs then
      (if conv then intrusive_ptr.ctor_move_conv (fun a => a) rhs m
       else intrusive_ptr.ctor_move rhs m)
    else m
  | .assign_copy conv this rhs =>
    if m.live this ∧ m.live rhs then
      (if conv then intrusive_ptr.assign_copy_conv (fun a => a) this rhs m
       else intrusive_ptr.assign_copy this rhs m)
    else m
  | .assign_move conv this rhs =>
    if m.live this ∧ m.live rhs then
      (if conv then intrusive_ptr.assign_move_conv (fun a => a) this rhs m
       else intrusive_ptr.assign_move this rhs m)
    else m
  | .assign_raw this a => if m.live this then intrusive_ptr.assign_raw this a m else m
  | .reset this => if m.live this then intrusive_ptr.reset this m else m
  | .reset_raw this a => if m.live this then intrusive_ptr.reset_raw this a m else m
  | .swap this rhs => if m.live this ∧ m.live rhs then intrusive_ptr.swap this rhs m else m
  | .static_pointer_cast p => if m.live p then static_pointer_cast (fun a => a) p m else m
  | .const_pointer_cast p => if m.live p then const_pointer_cast p m else m
  | .dynamic_pointer_cast p => if m.live p then dynamic_pointer_cast isT p m else m
  | .shared_from_this a => intrusive_ref_counter.shared_from_this a m
  | .dtor this => if m.live this then intrusive_ptr.dtor this m else m

/-- A program: its operations one after the other. -/
def run (isT : Nat → Bool) (ops : List Op) (m : Memory) : Memory :=
  ops.foldl (fun s op => step isT op s) m

/-- The memory in which 2^32 - 1 instances have been built by `intrusive_ptr(X)`, one after the
other, from the raw address 1 of a fresh object. -/
@[irreducible] def Memory.saturated : Memory :=
  run (fun _ => true) (List.replicate 4294967295 (Op.ctor_raw 1)) Memory.fresh

/-- The operations that are one constructor call, one `swap` or one destructor call.  The
others, the assignments and the `reset`s, are a constructor, a `swap` and a destructor one
after the other. -/
def Op.prim : Op → Bool
  | .assign_copy _ _ _ => false
  | .assign_move _ _ _ => false
  | .assign_raw _ _ => false
  | .reset _ => false
  | .reset_raw _ _ => false
  | _ => true

/-- The operations that are given the raw address `X`: each of them wraps the object at `X`
in an `intrusive_ptr` once more. -/
def Op.wraps (X : Nat) : Op → Bool
  | .ctor_raw a => decide (a = X)
  | .assign_raw _ a => decide (a = X)
  | .reset_raw _ a => decide (a = X)
  | .shared_from_this a => decide (a = X)
  | _ => false

/-- The object at `a` as an operation sees it, through its count, the number of its
destructions and the number of instances that hold it: nothing has changed. -/
def Same (a : Nat) (m m' : Memory) : Prop :=
  m.ptrs.length ≤ m'.ptrs.length ∧ (m'.obj a).c = (m.obj a).c ∧
    m'.deleted a = m.deleted a ∧ m'.holders a = m.holders a ∧ (m.ub = true → m'.ub = true)

/-- What a constructor does to the object at `a`: nothing, or one more holder with
`intrusive_ptr_add_ref`. -/
def Up (a : Nat) (m m' : Memory) : Prop :=
  Same a m m' ∨
  (m.ptrs.length ≤ m'.ptrs.length ∧
    (m'.obj a).c = ((m.obj a).c + 1) % UINT_MOD ∧
    m'.deleted a = m.deleted a ∧ m'.holders a = m.holders a + 1 ∧
    (m.ub = true ∨ m.deleted a ≠ 0 → m'.ub = true))

/-- What a destructor does to the object at `a`: nothing, or one holder less with
`intrusive_ptr_release`. -/
def Down (a : Nat) (m m' : Memory) : Prop :=
  Same a m m' ∨
  (m.ptrs.length ≤ m'.ptrs.length ∧ m.holders a = m'.holders a + 1 ∧
    (m'.obj a).c = ((m.obj a).c + UINT_MOD - 1) % UINT_MOD ∧
    m'.deleted a = m.deleted a + (if (m'.obj a).c = 0 then 1 else 0) ∧
    (m.ub = true ∨ m.deleted a ≠ 0 → m'.ub = true))

/-- What one operation does to the object at `a`: what a constructor does, then what a
destructor does. -/
def OpEff (a : Nat) (m m' : Memory) : Prop :=
  ∃ m1, Up a m m1 ∧ Down a m1 m'


/-! ## The table of instances -/

theorem count_set_add (l : List (Option intrusive_ptr)) (i : Nat) (y v z : Option intrusive_ptr)
    (h : l[i]? = some y) :
    (l.set i v).count z + (if y = z then 1 else 0) = l.count z + (if v = z then 1 else 0) := by
  induction l generalizing i with
  | nil => simp at h
  | cons x l ih =>
    cases i with
    | zero =>
      simp at h
      subst h
      simp only [List.set_cons_zero, List.count_cons, beq_iff_eq]
      omega
    | succ i =>
      simp at h
      have := ih i h
      simp only [List.set_cons_succ, List.count_cons]
      omega

theorem inst_eq_some {m : Memory} {r : Nat} {x : intrusive_ptr} (h : m.inst r = some x) :
    m.ptrs[r]? = some (some x) := by
  unfold Memory.inst at h
  rw [List.getD_eq_getElem?_getD] at h
  cases hr : m.ptrs[r]? with
  | none => simp [hr] at h
  | some y => simp [hr] at h; simp [h]

theorem live_iff {m : Memory} {r : Nat} : m.live r = true ↔ m.inst r = some ⟨m.get r⟩ := by
  unfold Memory.live Memory.get
  cases h : m.inst r <;> simp

theorem live_lt {m : Memory} {r : Nat} (h : m.live r = true) : r < m.ptrs.length := by
  have := inst_eq_some (live_iff.1 h)
  rcases Nat.lt_or_ge r m.ptrs.length with h1 | h1
  · exact h1
  · rw [List.getElem?_eq_none h1] at this
    simp at this


theorem UINT_MOD_eq : UINT_MOD = 4294967296 := rfl

@[simp] theorem alloc_obj (m : Memory) (p : Nat) : (m.alloc p).obj = m.obj := rfl
@[simp] theorem alloc_deleted (m : Memory) (p : Nat) : (m.alloc p).deleted = m.deleted := rfl
@[simp] theorem alloc_length (m : Memory) (p : Nat) :
    (m.alloc p).ptrs.length = m.ptrs.length + 1 := by simp [Memory.alloc]
@[simp] theorem set_obj (m : Memory) (r : Nat) (p : Nat) : (m.set r p).obj = m.obj := rfl
@[simp] theorem set_deleted (m : Memory) (r : Nat) (p : Nat) :
    (m.set r p).deleted = m.deleted := rfl
@[simp] theorem set_length (m : Memory) (r : Nat) (p : Nat) :
    (m.set r p).ptrs.length = m.ptrs.length := by simp [Memory.set]
@[simp] theorem free_obj (m : Memory) (r : Nat) : (m.free r).obj = m.obj := rfl
@[simp] theorem free_deleted (m : Memory) (r : Nat) : (m.free r).deleted = m.deleted := rfl
@[simp] theorem free_length (m : Memory) (r : Nat) :
    (m.free r).ptrs.length = m.ptrs.length := by simp [Memory.free]
@[simp] theorem alloc_ub (m : Memory) (p : Nat) : (m.alloc p).ub = m.ub := rfl
@[simp] theorem set_ub (m : Memory) (r : Nat) (p : Nat) : (m.set r p).ub = m.ub := rfl
@[simp] theorem free_ub (m : Memory) (r : Nat) : (m.free r).ub = m.ub := rfl
@[simp] theorem add_ref_ub (p : Nat) (m : Memory) :
    (intrusive_ptr_add_ref p m).ub = (m.ub || decide (m.deleted p ≠ 0)) := rfl
@[simp] theorem release_ub (p : Nat) (m : Memory) :
    (intrusive_ptr_release p m).ub = (m.ub || decide (m.deleted p ≠ 0)) := rfl
@[simp] theorem add_ref_ptrs (p : Nat) (m : Memory) :
    (intrusive_ptr_add_ref p m).ptrs = m.ptrs := rfl
@[simp] theorem add_ref_deleted (p : Nat) (m : Memory) :
    (intrusive_ptr_add_ref p m).deleted = m.deleted := rfl
@[simp] theorem release_ptrs (p : Nat) (m : Memory) :
    (intrusive_ptr_release p m).ptrs = m.ptrs := rfl

theorem add_ref_obj (p : Nat) (m : Memory) (a : Nat) :
    ((intrusive_ptr_add_ref p m).obj a).c
      = if a = p then ((m.obj p).c + 1) % UINT_MOD else (m.obj a).c := by
  unfold intrusive_ptr_add_ref
  by_cases h : a = p
  · subst h; simp
  · simp [Function.update_noteq h, h]

theorem release_obj (p : Nat) (m : Memory) (a : Nat) :
    ((intrusive_ptr_release p m).obj a).c
      = if a = p then ((m.obj p).c + UINT_MOD - 1) % UINT_MOD else (m.obj a).c := by
  simp only [intrusive_ptr_release]
  by_cases h : a = p
  · subst h; simp
  · simp [Function.update_noteq h, h]

theorem release_deleted (p : Nat) (m : Memory) (a : Nat) :
    (intrusive_ptr_release p m).deleted a
      = if a = p ∧ ((m.obj p).c + UINT_MOD - 1) % UINT_MOD = 0 then m.deleted a + 1
        else m.deleted a := by
  simp only [intrusive_ptr_release]
  by_cases h : a = p
  · subst h; simp
  · simp [Function.update_noteq h, h]

@[simp] theorem add_ref_inst (p : Nat) (m : Memory) (r : Nat) :
    (intrusive_ptr_add_ref p m).inst r = m.inst r := rfl
@[simp] theorem release_inst (p : Nat) (m : Memory) (r : Nat) :
    (intrusive_ptr_release p m).inst r = m.inst r := rfl
@[simp] theorem add_ref_holders (p : Nat) (m : Memory) (a : Nat) :
    (intrusive_ptr_add_ref p m).holders a = m.holders a := rfl
@[simp] theorem release_holders (p : Nat) (m : Memory) (a : Nat) :
    (intrusive_ptr_release p m).holders a = m.holders a := rfl

theorem inst_alloc (m : Memory) (p : Nat) (r : Nat) :
    (m.alloc p).inst r = if r = m.ptrs.length then some ⟨p⟩ else m.inst r := by
  unfold Memory.inst Memory.alloc
  simp only [List.getD_eq_getElem?_getD, List.getElem?_append]
  by_cases h1 : r < m.ptrs.length
  · simp [h1, Nat.ne_of_lt h1]
  · by_cases h2 : r = m.ptrs.length
    · subst h2; simp
    · have h3 : m.ptrs.length ≤ r := Nat.le_of_not_lt h1
      have h4 : r - m.ptrs.length ≠ 0 := fun h => h2 (Nat.le_antisymm (Nat.sub_eq_zero_iff_le.1 h) h3)
      simp [h1, h2, List.getElem?_eq_none h3]
      cases h5 : r - m.ptrs.length with
      | zero => exact absurd h5 h4
      | succ k => simp

theorem inst_set (m : Memory) (r : Nat) (v : Nat) (q : Nat) :
    (m.set r v).inst q = if q = r ∧ r < m.ptrs.length then some ⟨v⟩ else m.inst q := by
  unfold Memory.inst Memory.set
  simp only [List.getD_eq_getElem?_getD, List.getElem?_set]
  by_cases h1 : r = q
  · subst h1
    by_cases h2 : r < m.ptrs.length
    · simp [h2]
    · simp [h2, List.getElem?_eq_none (Nat.le_of_not_lt h2)]
  · have h2 : ¬ q = r := fun h => h1 h.symm
    simp [h1, h2]

theorem inst_free (m : Memory) (r : Nat) (q : Nat) :
    (m.free r).inst q = if q = r then none else m.inst q := by
  unfold Memory.inst Memory.free
  simp only [List.getD_eq_getElem?_getD, List.getElem?_set]
  by_cases h1 : r = q
  · subst h1
    by_cases h2 : r < m.ptrs.length <;> simp [h2]
  · have h2 : ¬ q = r := fun h => h1 h.symm
    simp [h1, h2]

theorem holders_alloc (m : Memory) (p a : Nat) :
    (m.alloc p).holders a = m.holders a + if p = a then 1 else 0 := by
  unfold Memory.holders Memory.alloc
  simp [List.count_append, List.count_cons]

theorem holders_set (m : Memory) (r : Nat) (v a : Nat) (h : m.live r = true) :
    (m.set r v).holders a + (if m.get r = a then 1 else 0)
      = m.holders a + if v = a then 1 else 0 := by
  have h1 := inst_eq_some (live_iff.1 h)
  have h2 := count_set_add m.ptrs r _ (some ⟨v⟩) (some ⟨a⟩) h1
  unfold Memory.holders Memory.set
  simp only [Option.some.injEq, intrusive_ptr.mk.injEq] at h2
  exact h2

theorem holders_free (m : Memory) (r : Nat) (a : Nat) (h : m.live r = true) :
    (m.free r).holders a + (if m.get r = a then 1 else 0) = m.holders a := by
  have h1 := inst_eq_some (live_iff.1 h)
  have h2 := count_set_add m.ptrs r _ none (some ⟨a⟩) h1
  unfold Memory.holders Memory.free
  simp only [Option.some.injEq, intrusive_ptr.mk.injEq] at h2
  simpa using h2

theorem holders_pos (m : Memory) (r : Nat) (a : Nat) (h : m.live r = true)
    (ha : m.get r = a) : 1 ≤ m.holders a := by
  have h1 := inst_eq_some (live_iff.1 h)
  unfold Memory.holders
  rw [ha] at h1
  exact List.count_pos_iff.2 (List.getElem?_mem h1)

theorem holders_le_length (m : Memory) (a : Nat) : m.holders a ≤ m.ptrs.length :=
  List.count_le_length _ _


theorem get_alloc (m : Memory) (p : Nat) (r : Nat) :
    (m.alloc p).get r = if r = m.ptrs.length then p else m.get r := by
  unfold Memory.get
  rw [inst_alloc]
  split_ifs <;> rfl

theorem live_alloc (m : Memory) (p : Nat) (r : Nat) :
    (m.alloc p).live r = (decide (r = m.ptrs.length) || m.live r) := by
  unfold Memory.live
  rw [inst_alloc]
  split_ifs with h <;> simp [h]

theorem get_set (m : Memory) (r : Nat) (v : Nat) (q : Nat) :
    (m.set r v).get q = if q = r ∧ r < m.ptrs.length then v else m.get q := by
  unfold Memory.get
  rw [inst_set]
  split_ifs <;> rfl

theorem live_set (m : Memory) (r : Nat) (v : Nat) (q : Nat) (h : m.live r = true) :
    (m.set r v).live q = m.live q := by
  unfold Memory.live
  rw [inst_set]
  split_ifs with h1
  · rw [h1.1]; unfold Memory.live at h; simp [h]
  · rfl

theorem get_free (m : Memory) (r q : Nat) :
    (m.free r).get q = if q = r then 0 else m.get q := by
  unfold Memory.get
  rw [inst_free]
  split_ifs <;> rfl

theorem live_free (m : Memory) (r q : Nat) :
    (m.free r).live q = (!decide (q = r) && m.live q) := by
  unfold Memory.live
  rw [inst_free]
  split_ifs with h <;> simp [h]

@[simp] theorem add_ref_get (p : Nat) (m : Memory) (r : Nat) :
    (intrusive_ptr_add_ref p m).get r = m.get r := rfl
@[simp] theorem add_ref_live (p : Nat) (m : Memory) (r : Nat) :
    (intrusive_ptr_add_ref p m).live r = m.live r := rfl
@[simp] theorem release_get (p : Nat) (m : Memory) (r : Nat) :
    (intrusive_ptr_release p m).get r = m.get r := rfl
@[simp] theorem release_live (p : Nat) (m : Memory) (r : Nat) :
    (intrusive_ptr_release p m).live r = m.live r := rfl
@[simp] theorem add_ref_length (p : Nat) (m : Memory) :
    (intrusive_ptr_add_ref p m).ptrs.length = m.ptrs.length := rfl
@[simp] theorem release_length (p : Nat) (m : Memory) :
    (intrusive_ptr_release p m).ptrs.length = m.ptrs.length := rfl

/-! ## The constructors, `swap` and the destructor, one by one -/

theorem same_refl (a : Nat) (m : Memory) : Same a m m :=
  ⟨Nat.le_refl _, rfl, rfl, rfl, id⟩

theorem same_trans {a : Nat} {m m1 m2 : Memory} (h1 : Same a m m1) (h2 : Same a m1 m2) :
    Same a m m2 :=
  ⟨Nat.le_trans h1.1 h2.1, h2.2.1.trans h1.2.1, h2.2.2.1.trans h1.2.2.1,
    h2.2.2.2.1.trans h1.2.2.2.1, fun h => h2.2.2.2.2 (h1.2.2.2.2 h)⟩

theorem up_same_right {a : Nat} {m m1 m2 : Memory} (h1 : Up a m m1)
    (h2 : Same a m1 m2) : Up a m m2 := by
  rcases h1 with h1 | ⟨h3, h5, h6, h7, h8⟩
  · exact Or.inl (same_trans h1 h2)
  · exact Or.inr ⟨Nat.le_trans h3 h2.1, h2.2.1.trans h5, h2.2.2.1.trans h6,
      h2.2.2.2.1.trans h7, fun h => h2.2.2.2.2 (h8 h)⟩

theorem opEff_of_up {a : Nat} {m m' : Memory} (h : Up a m m') :
    OpEff a m m' := ⟨m', h, Or.inl (same_refl a m')⟩

theorem opEff_of_same {a : Nat} {m m' : Memory} (h : Same a m m') :
    OpEff a m m' := ⟨m', Or.inl h, Or.inl (same_refl a m')⟩

theorem opEff_of_down {a : Nat} {m m' : Memory} (h : Down a m m') :
    OpEff a m m' := ⟨m, Or.inl (same_refl a m), h⟩

theorem opEff_refl (a : Nat) (m : Memory) : OpEff a m m :=
  opEff_of_same (same_refl a m)

theorem alloc_eff (p a : Nat) (m : Memory) (ha : a ≠ 0) :
    Up a m (if p ≠ 0 then intrusive_ptr_add_ref p (m.alloc p) else m.alloc p) := by
  by_cases h0 : p = 0
  · subst h0
    have h1 : ¬ (0 : Nat) = a := fun h => ha h.symm
    refine Or.inl ⟨by simp, ?_⟩
    simp [holders_alloc, h1]
  · rw [if_pos h0]
    by_cases h1 : p = a
    · subst h1
      refine Or.inr ⟨by simp, ?_, ?_, ?_, ?_⟩
      · rw [add_ref_obj]; simp
      · simp
      · simp [holders_alloc]
      · rintro (h | h) <;> simp [h]
    · have h2 : ¬ a = p := fun h => h1 h.symm
      refine Or.inl ⟨by simp, ?_, ?_, ?_, ?_⟩
      · rw [add_ref_obj]; simp [h2]
      · simp
      · simp [holders_alloc, h1]
      · intro h; simp [h]

/-- The raw-address constructor with `add_ref = true`. -/
theorem ctor_raw_eff (p a : Nat) (m : Memory) (ha : a ≠ 0) :
    Up a m (intrusive_ptr.ctor_raw p true m) := by
  have h := alloc_eff p a m ha
  unfold intrusive_ptr.ctor_raw
  simpa using h

theorem ctor_raw_live (p : Nat) (f : Bool) (m : Memory) (r : Nat) :
    (intrusive_ptr.ctor_raw p f m).live r = (decide (r = m.ptrs.length) || m.live r) := by
  unfold intrusive_ptr.ctor_raw
  simp only []
  split_ifs <;> simp [live_alloc]

theorem ctor_raw_length (p : Nat) (f : Bool) (m : Memory) :
    (intrusive_ptr.ctor_raw p f m).ptrs.length = m.ptrs.length + 1 := by
  unfold intrusive_ptr.ctor_raw
  simp only []
  split_ifs <;> simp

theorem ctor_raw_get (p : Nat) (f : Bool) (m : Memory) (r : Nat) :
    (intrusive_ptr.ctor_raw p f m).get r = if r = m.ptrs.length then p else m.get r := by
  unfold intrusive_ptr.ctor_raw
  simp only []
  split_ifs <;> simp_all [get_alloc]

theorem ctor_live (m : Memory) (r : Nat) :
    (intrusive_ptr.ctor m).live r = (decide (r = m.ptrs.length) || m.live r) := by
  unfold intrusive_ptr.ctor
  simp [live_alloc]

theorem ctor_get (m : Memory) (r : Nat) :
    (intrusive_ptr.ctor m).get r = if r = m.ptrs.length then 0 else m.get r := by
  unfold intrusive_ptr.ctor
  simp [get_alloc]

theorem ctor_eff (a : Nat) (m : Memory) (ha : a ≠ 0) :
    Same a m (intrusive_ptr.ctor m) := by
  have h1 : ¬ (0 : Nat) = a := fun h => ha h.symm
  unfold intrusive_ptr.ctor
  refine ⟨by simp, ?_⟩
  simp [holders_alloc, h1]

/-- A conversion that adjusts nothing. -/
theorem static_cast_id (a : Nat) : static_cast (fun a => a) a = a := by
  unfold static_cast
  split_ifs with h
  · exact h.symm
  · rfl

/-- The converting copy constructor is the same-type one when the conversion does not adjust
the address held. -/
theorem ctor_copy_conv_same (conv : Nat → Nat) (rhs : Nat) (m : Memory)
    (h : static_cast conv (m.get rhs) = m.get rhs) :
    intrusive_ptr.ctor_copy_conv conv rhs m = intrusive_ptr.ctor_copy rhs m := by
  unfold intrusive_ptr.ctor_copy_conv intrusive_ptr.ctor_copy
  rw [h]

theorem ctor_move_conv_same (conv : Nat → Nat) (rhs : Nat) (m : Memory)
    (h : static_cast conv (m.get rhs) = m.get rhs) :
    intrusive_ptr.ctor_move_conv conv rhs m = intrusive_ptr.ctor_move rhs m := by
  unfold intrusive_ptr.ctor_move_conv intrusive_ptr.ctor_move
  rw [h]

theorem assign_copy_conv_same (conv : Nat → Nat) (this rhs : Nat) (m : Memory)
    (h : static_cast conv (m.get rhs) = m.get rhs) :
    intrusive_ptr.assign_copy_conv conv this rhs m = intrusive_ptr.assign_copy this rhs m := by
  unfold intrusive_ptr.assign_copy_conv intrusive_ptr.assign_copy
  rw [ctor_copy_conv_same conv rhs m h]

theorem assign_move_conv_same (conv : Nat → Nat) (this rhs : Nat) (m : Memory)
    (h : static_cast conv (m.get rhs) = m.get rhs) :
    intrusive_ptr.assign_move_conv conv this rhs m = intrusive_ptr.assign_move this rhs m := by
  unfold intrusive_ptr.assign_move_conv intrusive_ptr.assign_move
  rw [ctor_move_conv_same conv rhs m h]

theorem ctor_copy_conv_eq :
    intrusive_ptr.ctor_copy_conv (fun a => a) = intrusive_ptr.ctor_copy := by
  funext rhs m
  exact ctor_copy_conv_same _ rhs m (static_cast_id _)

theorem ctor_move_conv_eq :
    intrusive_ptr.ctor_move_conv (fun a => a) = intrusive_ptr.ctor_move := by
  funext rhs m
  exact ctor_move_conv_same _ rhs m (static_cast_id _)

theorem assign_copy_conv_eq :
    intrusive_ptr.assign_copy_conv (fun a => a) = intrusive_ptr.assign_copy := by
  funext this rhs m
  exact assign_copy_conv_same _ this rhs m (static_cast_id _)

theorem assign_move_conv_eq :
    intrusive_ptr.assign_move_conv (fun a => a) = intrusive_ptr.assign_move := by
  funext this rhs m
  exact assign_move_conv_same _ this rhs m (static_cast_id _)

theorem static_pointer_cast_id (p : Nat) (m : Memory) :
    static_pointer_cast (fun a => a) p m = intrusive_ptr.ctor_raw (m.get p) true m := by
  unfold static_pointer_cast intrusive_ptr.get
  rw [static_cast_id]

theorem shared_from_this_eq (this : Nat) (m : Memory) :
    intrusive_ref_counter.shared_from_this this m = intrusive_ptr.ctor_raw this true m := by
  unfold intrusive_ref_counter.shared_from_this
  rw [static_cast_id]

theorem ctor_copy_eff (rhs : Nat) (a : Nat) (m : Memory) (ha : a ≠ 0) :
    Up a m (intrusive_ptr.ctor_copy rhs m) := by
  unfold intrusive_ptr.ctor_copy
  exact alloc_eff (m.get rhs) a m ha

theorem ctor_copy_live (rhs : Nat) (m : Memory) (r : Nat) :
    (intrusive_ptr.ctor_copy rhs m).live r = (decide (r = m.ptrs.length) || m.live r) := by
  unfold intrusive_ptr.ctor_copy
  simp only []
  split_ifs <;> simp [live_alloc]

theorem ctor_copy_get (rhs : Nat) (m : Memory) (r : Nat) :
    (intrusive_ptr.ctor_copy rhs m).get r
      = if r = m.ptrs.length then m.get rhs else m.get r := by
  unfold intrusive_ptr.ctor_copy
  simp only []
  split_ifs <;> simp_all [get_alloc]

theorem ctor_move_eff (rhs : Nat) (a : Nat) (m : Memory) (ha : a ≠ 0)
    (hl : m.live rhs = true) : Same a m (intrusive_ptr.ctor_move rhs m) := by
  simp only [intrusive_ptr.ctor_move]
  have h1 : ¬ (0 : Nat) = a := fun h => ha h.symm
  have hl1 : (m.alloc (m.get rhs)).live rhs = true := by simp [live_alloc, hl]
  have h2 := holders_set (m.alloc (m.get rhs)) rhs 0 a hl1
  have h3 : (m.alloc (m.get rhs)).get rhs = m.get rhs := by
    rw [get_alloc]; split_ifs <;> rfl
  rw [h3, holders_alloc] at h2
  refine ⟨by simp, by simp, by simp, ?_, by simp⟩
  simp only [h1, if_false] at h2
  omega

theorem ctor_move_live (rhs : Nat) (m : Memory) (r : Nat) (hl : m.live rhs = true) :
    (intrusive_ptr.ctor_move rhs m).live r = (decide (r = m.ptrs.length) || m.live r) := by
  simp only [intrusive_ptr.ctor_move]
  have hl1 : (m.alloc (m.get rhs)).live rhs = true := by simp [live_alloc, hl]
  rw [live_set _ _ _ _ hl1, live_alloc]

theorem ctor_move_get (rhs : Nat) (m : Memory) (r : Nat) (hl : m.live rhs = true) :
    (intrusive_ptr.ctor_move rhs m).get r
      = if r = m.ptrs.length then m.get rhs else if r = rhs then 0 else m.get r := by
  have h1 := live_lt hl
  simp only [intrusive_ptr.ctor_move, get_set, get_alloc, alloc_length]
  by_cases h2 : r = rhs
  · subst h2
    have : r < m.ptrs.length + 1 := by omega
    have h3 : r ≠ m.ptrs.length := by omega
    simp [this, h3]
  · simp [h2]

theorem swap_eff (x y : Nat) (a : Nat) (m : Memory)
    (hx : m.live x = true) (hy : m.live y = true) :
    Same a m (intrusive_ptr.swap x y m) := by
  simp only [intrusive_ptr.swap]
  have h1 := holders_set m x (m.get y) a hx
  have hy1 : (m.set x (m.get y)).live y = true := by rw [live_set _ _ _ _ hx]; exact hy
  have h2 := holders_set (m.set x (m.get y)) y (m.get x) a hy1
  have h3 : (m.set x (m.get y)).get y = m.get y := by
    rw [get_set]; split_ifs <;> rfl
  rw [h3] at h2
  refine ⟨by simp, by simp, by simp, ?_, by simp⟩
  omega

theorem swap_live (x y : Nat) (m : Memory) (r : Nat)
    (hx : m.live x = true) (hy : m.live y = true) :
    (intrusive_ptr.swap x y m).live r = m.live r := by
  simp only [intrusive_ptr.swap]
  have hy1 : (m.set x (m.get y)).live y = true := by rw [live_set _ _ _ _ hx]; exact hy
  rw [live_set _ _ _ _ hy1, live_set _ _ _ _ hx]

theorem swap_get (x y : Nat) (m : Memory) (r : Nat)
    (hx : m.live x = true) (hy : m.live y = true) :
    (intrusive_ptr.swap x y m).get r
      = if r = y then m.get x else if r = x then m.get y else m.get r := by
  have h1 := live_lt hx
  have h2 := live_lt hy
  simp only [intrusive_ptr.swap, get_set, set_length]
  by_cases h3 : r = y
  · simp [h3, h2]
  · by_cases h4 : r = x
    · subst h4; simp [h3, h1, h2]
    · simp [h3, h4]

theorem dtor_null (x : Nat) (m : Memory) (h0 : m.get x = 0) :
    intrusive_ptr.dtor x m = m.free x := by
  simp only [intrusive_ptr.dtor, h0, ne_eq, not_true_eq_false, if_false]

theorem dtor_owning (x : Nat) (m : Memory) (h0 : m.get x ≠ 0) :
    intrusive_ptr.dtor x m = (intrusive_ptr_release (m.get x) m).free x := by
  simp only [intrusive_ptr.dtor, h0, ne_eq, not_false_eq_true, if_true]

theorem dtor_eff (x : Nat) (a : Nat) (m : Memory) (ha : a ≠ 0)
    (hx : m.live x = true) : Down a m (intrusive_ptr.dtor x m) := by
  by_cases h0 : m.get x = 0
  · rw [dtor_null x m h0]
    have h1 := holders_free m x a hx
    have h2 : ¬ m.get x = a := fun h => ha (h ▸ h0)
    simp only [h2, if_false] at h1
    exact Or.inl ⟨by simp, by simp, by simp, h1, by simp⟩
  · rw [dtor_owning x m h0]
    have h1 := holders_free (intrusive_ptr_release (m.get x) m) x a hx
    simp only [release_get, release_holders] at h1
    by_cases h2 : m.get x = a
    · subst h2
      refine Or.inr ⟨by simp, ?_, ?_, ?_, ?_⟩
      · simp only [if_true] at h1
        exact h1.symm
      · simp only [free_obj]
        rw [release_obj]; simp
      · simp only [free_obj, free_deleted, release_obj, release_deleted, true_and, if_true]
        split_ifs <;> rfl
      · rintro (h | h) <;> simp [h]
    · have h3 : ¬ a = m.get x := fun h => h2 h.symm
      refine Or.inl ⟨by simp, ?_, ?_, ?_, ?_⟩
      · simp only [free_obj]
        rw [release_obj]; simp [h3]
      · simp only [free_deleted]
        rw [release_deleted]; simp [h3]
      · simp only [h2, if_false] at h1
        exact h1
      · intro h; simp [h]

theorem dtor_live (x : Nat) (m : Memory) (r : Nat) :
    (intrusive_ptr.dtor x m).live r = (!decide (r = x) && m.live r) := by
  unfold intrusive_ptr.dtor
  simp only []
  rw [live_free]
  split_ifs <;> rfl

theorem dtor_get (x : Nat) (m : Memory) (r : Nat) :
    (intrusive_ptr.dtor x m).get r = if r = x then 0 else m.get r := by
  unfold intrusive_ptr.dtor
  simp only []
  rw [get_free]
  split_ifs <;> rfl


/-! ## The operations of a program -/

/-- The scheme of every assignment and `reset`: build a temporary, swap it with `*this`,
destroy it. -/
theorem assign_opEff (mk : Memory → Memory) (this a : Nat) (m : Memory)
    (ha : a ≠ 0) (hmk : Up a m (mk m))
    (hlive : ∀ r, (mk m).live r = (decide (r = m.ptrs.length) || m.live r))
    (hthis : m.live this = true) :
    OpEff a m
      (intrusive_ptr.dtor m.ptrs.length (intrusive_ptr.swap m.ptrs.length this (mk m))) := by
  have ht : (mk m).live m.ptrs.length = true := by rw [hlive]; simp
  have hthis1 : (mk m).live this = true := by rw [hlive]; simp [hthis]
  have hs := swap_eff m.ptrs.length this a (mk m) ht hthis1
  have ht2 : (intrusive_ptr.swap m.ptrs.length this (mk m)).live m.ptrs.length = true := by
    rw [swap_live _ _ _ _ ht hthis1]; exact ht
  exact ⟨_, up_same_right hmk hs, dtor_eff _ a _ ha ht2⟩

theorem step_opEff (isT : Nat → Bool) (op : Op) (m : Memory) (a : Nat) (ha : a ≠ 0) :
    OpEff a m (step isT op m) := by
  cases op with
  | ctor => exact opEff_of_same (ctor_eff a m ha)
  | ctor_raw p => exact opEff_of_up (ctor_raw_eff p a m ha)
  | ctor_copy conv rhs =>
    simp only [step, ctor_copy_conv_eq, ite_self]
    split_ifs with h
    · exact opEff_of_up (ctor_copy_eff rhs a m ha)
    · exact opEff_refl a m
  | ctor_move conv rhs =>
    simp only [step, ctor_move_conv_eq, ite_self]
    split_ifs with h
    · exact opEff_of_same (ctor_move_eff rhs a m ha h)
    · exact opEff_refl a m
  | assign_copy conv this rhs =>
    simp only [step, assign_copy_conv_eq, ite_self]
    split_ifs with h
    · exact assign_opEff (intrusive_ptr.ctor_copy rhs) this a m ha
        (ctor_copy_eff rhs a m ha) (ctor_copy_live rhs m) h.1
    · exact opEff_refl a m
  | assign_move conv this rhs =>
    simp only [step, assign_move_conv_eq, ite_self]
    split_ifs with h
    · exact assign_opEff (intrusive_ptr.ctor_move rhs) this a m ha
        (Or.inl (ctor_move_eff rhs a m ha h.2)) (fun r => ctor_move_live rhs m r h.2) h.1
    · exact opEff_refl a m
  | assign_raw this p =>
    simp only [step]
    split_ifs with h
    · exact assign_opEff (intrusive_ptr.ctor_raw p true) this a m ha
        (ctor_raw_eff p a m ha) (ctor_raw_live p true m) h
    · exact opEff_refl a m
  | reset this =>
    simp only [step]
    split_ifs with h
    · exact assign_opEff intrusive_ptr.ctor this a m ha
        (Or.inl (ctor_eff a m ha)) (ctor_live m) h
    · exact opEff_refl a m
  | reset_raw this p =>
    simp only [step]
    split_ifs with h
    · exact assign_opEff (intrusive_ptr.ctor_raw p true) this a m ha
        (ctor_raw_eff p a m ha) (ctor_raw_live p true m) h
    · exact opEff_refl a m
  | swap this rhs =>
    simp only [step]
    split_ifs with h
    · exact opEff_of_same (swap_eff this rhs a m h.1 h.2)
    · exact opEff_refl a m
  | static_pointer_cast p =>
    simp only [step]
    split_ifs with h
    · exact opEff_of_up (ctor_raw_eff _ a m ha)
    · exact opEff_refl a m
  | const_pointer_cast p =>
    simp only [step]
    split_ifs with h
    · exact opEff_of_up (ctor_raw_eff _ a m ha)
    · exact opEff_refl a m
  | dynamic_pointer_cast p =>
    simp only [step]
    split_ifs with h
    · exact opEff_of_up (ctor_raw_eff _ a m ha)
    · exact opEff_refl a m
  | shared_from_this p => exact opEff_of_up (ctor_raw_eff _ a m ha)
  | dtor this =>
    simp only [step]
    split_ifs with h
    · exact opEff_of_down (dtor_eff this a m ha h)
    · exact opEff_refl a m

theorem run_nil (isT : Nat → Bool) (m : Memory) : run isT [] m = m := rfl

theorem run_cons (isT : Nat → Bool) (op : Op) (ops : List Op) (m : Memory) :
    run isT (op :: ops) m = run isT ops (step isT op m) := rfl

theorem run_append (isT : Nat → Bool) (ops ops' : List Op) (m : Memory) :
    run isT (ops ++ ops') m = run isT ops' (run isT ops m) := by
  simp [run, List.foldl_append]


/-! ## Invariants of a program -/

theorem up_count {a : Nat} {m m' : Memory} (h : Up a m m')
    (hi : m.deleted a = 0 → (m.obj a).c = m.holders a % UINT_MOD)
    (hd : m'.deleted a = 0) : (m'.obj a).c = m'.holders a % UINT_MOD := by
  rcases h with ⟨_, h2, h3, h4, _⟩ | ⟨_, h2, h3, h4, _⟩
  · rw [h2, h4]; exact hi (h3 ▸ hd)
  · have := hi (h3 ▸ hd)
    rw [h2, h4]
    simp only [UINT_MOD_eq] at *
    omega

theorem down_count {a : Nat} {m m' : Memory} (h : Down a m m')
    (hi : m.deleted a = 0 → (m.obj a).c = m.holders a % UINT_MOD)
    (hd : m'.deleted a = 0) : (m'.obj a).c = m'.holders a % UINT_MOD := by
  rcases h with ⟨_, h2, h3, h4, _⟩ | ⟨_, h4, h2, h3, _⟩
  · rw [h2, h4]; exact hi (h3 ▸ hd)
  · have h5 : m.deleted a = 0 := by omega
    have := hi h5
    rw [h2]
    simp only [UINT_MOD_eq] at *
    omega

theorem opEff_count {a : Nat} {m m' : Memory} (h : OpEff a m m')
    (hi : m.deleted a = 0 → (m.obj a).c = m.holders a % UINT_MOD)
    (hd : m'.deleted a = 0) : (m'.obj a).c = m'.holders a % UINT_MOD := by
  obtain ⟨m1, h1, h2⟩ := h
  exact down_count h2 (up_count h1 hi) hd

theorem run_count (isT : Nat → Bool) (a : Nat) (ha : a ≠ 0) (ops : List Op) (m : Memory)
    (hi : m.deleted a = 0 → (m.obj a).c = m.holders a % UINT_MOD)
    (hd : (run isT ops m).deleted a = 0) :
    ((run isT ops m).obj a).c = (run isT ops m).holders a % UINT_MOD := by
  induction ops generalizing m with
  | nil => exact hi hd
  | cons op ops ih =>
    rw [run_cons] at hd ⊢
    exact ih (step isT op m)
      (opEff_count (step_opEff isT op m a ha) hi) hd

theorem fresh_count (a : Nat) :
    Memory.fresh.deleted a = 0 → (Memory.fresh.obj a).c = Memory.fresh.holders a % UINT_MOD := by
  intro _
  rfl

theorem ctor_raw_deleted (p : Nat) (f : Bool) (m : Memory) :
    (intrusive_ptr.ctor_raw p f m).deleted = m.deleted := by
  unfold intrusive_ptr.ctor_raw
  simp only []
  split_ifs <;> rfl

theorem ctor_raw_holders (p : Nat) (f : Bool) (m : Memory) (a : Nat) :
    (intrusive_ptr.ctor_raw p f m).holders a = m.holders a + if p = a then 1 else 0 := by
  unfold intrusive_ptr.ctor_raw
  simp only []
  split_ifs <;> simp_all [holders_alloc]

theorem ctor_raw_ptrs (p : Nat) (f : Bool) (m : Memory) :
    (intrusive_ptr.ctor_raw p f m).ptrs = m.ptrs ++ [some ⟨p⟩] := by
  unfold intrusive_ptr.ctor_raw
  simp only []
  split_ifs <;> rfl

theorem ctor_raw_ub (p : Nat) (m : Memory) (h1 : m.ub = false) (h2 : m.deleted p = 0) :
    (intrusive_ptr.ctor_raw p true m).ub = false := by
  unfold intrusive_ptr.ctor_raw
  simp only []
  split_ifs <;> simp [h1, h2]

theorem run_replicate_ctor_raw (isT : Nat → Bool) (p n : Nat) (m : Memory) :
    (run isT (List.replicate n (Op.ctor_raw p)) m).deleted p = m.deleted p ∧
    (run isT (List.replicate n (Op.ctor_raw p)) m).holders p = m.holders p + n ∧
    (run isT (List.replicate n (Op.ctor_raw p)) m).ptrs
      = m.ptrs ++ List.replicate n (some ⟨p⟩) ∧
    (m.ub = false → m.deleted p = 0 →
      (run isT (List.replicate n (Op.ctor_raw p)) m).ub = false) := by
  induction n generalizing m with
  | zero => exact ⟨rfl, rfl, by simp [run], fun h _ => h⟩
  | succ n ih =>
    rw [List.replicate_succ, run_cons]
    obtain ⟨h1, h2, h3, h4⟩ := ih (step isT (Op.ctor_raw p) m)
    rw [h1, h2, h3]
    simp only [step, ctor_raw_deleted, ctor_raw_holders, ctor_raw_ptrs, if_true, true_and,
      List.append_assoc, List.singleton_append]
    refine ⟨by omega, by rw [List.replicate_succ], ?_⟩
    intro hu hd
    exact h4 (ctor_raw_ub p m hu hd) (by rw [show step isT (Op.ctor_raw p) m
      = intrusive_ptr.ctor_raw p true m from rfl, ctor_raw_deleted]; exact hd)

/-- 2^32 - 1 holders of the object at 1: its count is 2^32 - 1, it is not destroyed, and the
first instance holds it. -/
theorem saturated_facts :
    Memory.saturated.deleted 1 = 0 ∧ (Memory.saturated.obj 1).use_count = 4294967295 ∧
    Memory.saturated.holders 1 = 4294967295 ∧ Memory.saturated.ub = false ∧
    Memory.saturated.live 0 = true ∧ Memory.saturated.get 0 = 1 ∧
    Memory.saturated.ptrs.length = 4294967295 := by
  rw [Memory.saturated]
  obtain ⟨h1, h2, h3, h4⟩ :=
    run_replicate_ctor_raw (fun _ => true) 1 4294967295 Memory.fresh
  have h5 := run_count (fun _ => true) 1 (by decide) _ Memory.fresh (fresh_count 1) h1
  have h6 : (List.replicate 4294967295 (some (intrusive_ptr.mk 1)))[0]?
      = some (some (intrusive_ptr.mk 1)) := by
    rw [List.getElem?_replicate]
    exact if_pos (by decide)
  have hf : Memory.fresh.ptrs = [] := rfl
  rw [hf, List.nil_append] at h3
  have h7 : (run (fun _ => true) (List.replicate 4294967295 (Op.ctor_raw 1))
      Memory.fresh).inst 0 = some ⟨1⟩ := by
    unfold Memory.inst
    rw [h3, List.getD_eq_getElem?_getD, h6]
    rfl
  have hh : Memory.fresh.holders 1 = 0 := rfl
  have hd : Memory.fresh.deleted 1 = 0 := rfl
  rw [hh, Nat.zero_add] at h2
  rw [hd] at h1
  refine ⟨h1, ?_, h2, h4 rfl rfl, ?_, ?_, ?_⟩
  · rw [intrusive_ref_counter.use_count, h5, h2, UINT_MOD_eq]
  · rw [Memory.live, h7]; rfl
  · rw [Memory.get, h7]
  · rw [h3, List.length_replicate]

/-- C1, as stated, fails: 2^32 instances built by `intrusive_ptr(X)` from the raw address of
one fresh object leave its `use_count` at 0, while 2^32 live instances hold it and it is not
destroyed. -/
theorem C1_counterexample :
    (run (fun _ => true) (List.replicate 4294967296 (Op.ctor_raw 1)) Memory.fresh).deleted 1
      = 0 ∧
    ((run (fun _ => true) (List.replicate 4294967296 (Op.ctor_raw 1))
      Memory.fresh).obj 1).use_count = 0 ∧
    (run (fun _ => true) (List.replicate 4294967296 (Op.ctor_raw 1)) Memory.fresh).holders 1
      = 4294967296 ∧
    ((run (fun _ => true) (List.replicate 4294967296 (Op.ctor_raw 1))
      Memory.fresh).obj 1).use_count
      ≠ (run (fun _ => true) (List.replicate 4294967296 (Op.ctor_raw 1))
          Memory.fresh).holders 1 := by
  obtain ⟨h1, h2, _⟩ := run_replicate_ctor_raw (fun _ => true) 1 4294967296 Memory.fresh
  have hh : Memory.fresh.holders 1 = 0 := rfl
  have hd : Memory.fresh.deleted 1 = 0 := rfl
  rw [hh, Nat.zero_add] at h2
  rw [hd] at h1
  have h4 := run_count (fun _ => true) 1 (Nat.succ_ne_zero 0) _ Memory.fresh (fresh_count 1) h1
  have h5 : ((run (fun _ => true) (List.replicate 4294967296 (Op.ctor_raw 1))
      Memory.fresh).obj 1).use_count = 0 := by
    rw [intrusive_ref_counter.use_count, h4, h2, UINT_MOD_eq]
  refine ⟨h1, h5, h2, ?_⟩
  rw [h5, h2]
  exact (Nat.succ_ne_zero 4294967295).symm

/-- C1 (amended): from fresh objects and no pointers, after every finite sequence of
constructions, assignments, resets, swaps, casts, `shared_from_this` and destructions, the
`use_count` of an object that is not destroyed equals the number of live `intrusive_ptr`
instances that hold its address modulo 2^32, hence that number itself as long as fewer than
2^32 instances hold it. -/
theorem C1_use_count_eq_holders_mod (isT : Nat → Bool) (ops : List Op) (a : Nat) (ha : a ≠ 0)
    (hd : (run isT ops Memory.fresh).deleted a = 0) :
    ((run isT ops Memory.fresh).obj a).use_count
        = (run isT ops Memory.fresh).holders a % UINT_MOD ∧
    ((run isT ops Memory.fresh).holders a < UINT_MOD →
      ((run isT ops Memory.fresh).obj a).use_count = (run isT ops Memory.fresh).holders a) := by
  have h := run_count isT a ha ops Memory.fresh (fresh_count a) hd
  refine ⟨h, fun hlt => ?_⟩
  show ((run isT ops Memory.fresh).obj a).c = _
  rw [h]
  exact Nat.mod_eq_of_lt hlt

theorem C1_use_count_eq_holders_mod_witness :
    ((run (fun _ => true) [Op.ctor_raw 1, Op.ctor_copy false 0, Op.reset 0]
        Memory.fresh).obj 1).use_count
      = (run (fun _ => true) [Op.ctor_raw 1, Op.ctor_copy false 0, Op.reset 0]
          Memory.fresh).holders 1 % UINT_MOD ∧
    ((run (fun _ => true) [Op.ctor_raw 1, Op.ctor_copy false 0, Op.reset 0]
        Memory.fresh).holders 1 < UINT_MOD →
      ((run (fun _ => true) [Op.ctor_raw 1, Op.ctor_copy false 0, Op.reset 0]
        Memory.fresh).obj 1).use_count
      = (run (fun _ => true) [Op.ctor_raw 1, Op.ctor_copy false 0, Op.reset 0]
          Memory.fresh).holders 1) :=
  C1_use_count_eq_holders_mod (fun _ => true)
    [Op.ctor_raw 1, Op.ctor_copy false 0, Op.reset 0] 1 (by decide) (by decide)


theorem up_lt {a : Nat} {m m' : Memory} (h : Up a m m')
    (hc : (m.obj a).c < UINT_MOD) : (m'.obj a).c < UINT_MOD := by
  rcases h with ⟨_, h2, _⟩ | ⟨_, h2, _⟩
  · rw [h2]; exact hc
  · rw [h2]; exact Nat.mod_lt _ (by decide)

theorem down_lt {a : Nat} {m m' : Memory} (h : Down a m m')
    (hc : (m.obj a).c < UINT_MOD) : (m'.obj a).c < UINT_MOD := by
  rcases h with ⟨_, h2, _⟩ | ⟨_, _, h2, _⟩
  · rw [h2]; exact hc
  · rw [h2]; exact Nat.mod_lt _ (by decide)

theorem run_lt (isT : Nat → Bool) (a : Nat) (ha : a ≠ 0) (ops : List Op) (m : Memory)
    (hc : (m.obj a).c < UINT_MOD) : ((run isT ops m).obj a).c < UINT_MOD := by
  induction ops generalizing m with
  | nil => exact hc
  | cons op ops ih =>
    rw [run_cons]
    obtain ⟨m1, h1, h2⟩ := step_opEff isT op m a ha
    exact ih _ (down_lt h2 (up_lt h1 hc))

theorem wrapped_once (X : Nat) (hX : X ≠ 0) :
    (intrusive_ptr.ctor_raw X true Memory.fresh).deleted X = 0 ∧
    ((intrusive_ptr.ctor_raw X true Memory.fresh).obj X).c = 1 ∧
    (intrusive_ptr.ctor_raw X true Memory.fresh).holders X = 1 := by
  refine ⟨?_, ?_, ?_⟩
  · rw [ctor_raw_deleted]; rfl
  · simp only [intrusive_ptr.ctor_raw, hX, ne_eq, not_false_eq_true, and_self, if_true]
    rw [add_ref_obj]
    simp only [if_true, alloc_obj]
    rfl
  · rw [ctor_raw_holders]; simp; rfl


theorem step_prim_eff (isT : Nat → Bool) (op : Op) (m : Memory) (a : Nat) (ha : a ≠ 0)
    (hp : op.prim = true) : Up a m (step isT op m) ∨ Down a m (step isT op m) := by
  cases op with
  | ctor => exact Or.inl (Or.inl (ctor_eff a m ha))
  | ctor_raw p => exact Or.inl (ctor_raw_eff p a m ha)
  | ctor_copy conv rhs =>
    simp only [step, ctor_copy_conv_eq, ite_self]
    split_ifs with h
    · exact Or.inl (ctor_copy_eff rhs a m ha)
    · exact Or.inl (Or.inl (same_refl a m))
  | ctor_move conv rhs =>
    simp only [step, ctor_move_conv_eq, ite_self]
    split_ifs with h
    · exact Or.inl (Or.inl (ctor_move_eff rhs a m ha h))
    · exact Or.inl (Or.inl (same_refl a m))
  | assign_copy conv this rhs => simp [Op.prim] at hp
  | assign_move conv this rhs => simp [Op.prim] at hp
  | assign_raw this p => simp [Op.prim] at hp
  | reset this => simp [Op.prim] at hp
  | reset_raw this p => simp [Op.prim] at hp
  | swap this rhs =>
    simp only [step]
    split_ifs with h
    · exact Or.inl (Or.inl (swap_eff this rhs a m h.1 h.2))
    · exact Or.inl (Or.inl (same_refl a m))
  | static_pointer_cast p => exact Or.inl (by
      simp only [step]; split_ifs
      · exact ctor_raw_eff _ a m ha
      · exact Or.inl (same_refl a m))
  | const_pointer_cast p => exact Or.inl (by
      simp only [step]; split_ifs
      · exact ctor_raw_eff _ a m ha
      · exact Or.inl (same_refl a m))
  | dynamic_pointer_cast p => exact Or.inl (by
      simp only [step]; split_ifs
      · exact ctor_raw_eff _ a m ha
      · exact Or.inl (same_refl a m))
  | shared_from_this p => exact Or.inl (ctor_raw_eff _ a m ha)
  | dtor this =>
    simp only [step]
    split_ifs with h
    · exact Or.inr (dtor_eff this a m ha h)
    · exact Or.inl (Or.inl (same_refl a m))

/-- One constructor call, `swap` or destructor call destroys the object exactly when it takes
its count from 1 to 0. -/
theorem prim_step_deleted (isT : Nat → Bool) (op : Op) (m : Memory) (a : Nat) (ha : a ≠ 0)
    (hp : op.prim = true) (hc : (m.obj a).c < UINT_MOD) :
    (step isT op m).deleted a
      = m.deleted a + if (m.obj a).c = 1 ∧ ((step isT op m).obj a).c = 0 then 1 else 0 := by
  rcases step_prim_eff isT op m a ha hp with h | h
  · rcases h with ⟨_, h2, h3, _⟩ | ⟨_, h2, h3, _⟩
    · rw [h3, h2]
      split_ifs <;> omega
    · rw [h3, h2]
      simp only [UINT_MOD_eq] at *
      split_ifs <;> omega
  · rcases h with ⟨_, h2, h3, _⟩ | ⟨_, _, h2, h3, _⟩
    · rw [h3, h2]
      split_ifs <;> omega
    · rw [h3]
      simp only [UINT_MOD_eq] at *
      split_ifs <;> omega

theorem step_assign_copy (isT : Nat → Bool) (conv : Bool) (this rhs : Nat) (m : Memory)
    (h1 : m.live this = true) (h2 : m.live rhs = true) :
    step isT (.assign_copy conv this rhs) m
      = run isT [.ctor_copy conv rhs, .swap m.ptrs.length this, .dtor m.ptrs.length] m := by
  have ht : (intrusive_ptr.ctor_copy rhs m).live m.ptrs.length = true := by
    rw [ctor_copy_live]; simp
  have hthis : (intrusive_ptr.ctor_copy rhs m).live this = true := by
    rw [ctor_copy_live]; simp [h1]
  have ht2 : (intrusive_ptr.swap m.ptrs.length this (intrusive_ptr.ctor_copy rhs m)).live
      m.ptrs.length = true := by
    rw [swap_live _ _ _ _ ht hthis]; exact ht
  simp only [run, List.foldl, step, ctor_copy_conv_eq, assign_copy_conv_eq, ite_self, h1, h2,
    ht, hthis, ht2, and_self, if_true]
  rfl

theorem step_assign_move (isT : Nat → Bool) (conv : Bool) (this rhs : Nat) (m : Memory)
    (h1 : m.live this = true) (h2 : m.live rhs = true) :
    step isT (.assign_move conv this rhs) m
      = run isT [.ctor_move conv rhs, .swap m.ptrs.length this, .dtor m.ptrs.length] m := by
  have ht : (intrusive_ptr.ctor_move rhs m).live m.ptrs.length = true := by
    rw [ctor_move_live _ _ _ h2]; simp
  have hthis : (intrusive_ptr.ctor_move rhs m).live this = true := by
    rw [ctor_move_live _ _ _ h2]; simp [h1]
  have ht2 : (intrusive_ptr.swap m.ptrs.length this (intrusive_ptr.ctor_move rhs m)).live
      m.ptrs.length = true := by
    rw [swap_live _ _ _ _ ht hthis]; exact ht
  simp only [run, List.foldl, step, ctor_move_conv_eq, assign_move_conv_eq, ite_self, h1, h2,
    ht, hthis, ht2, and_self, if_true]
  rfl

theorem step_reset (isT : Nat → Bool) (this : Nat) (m : Memory) (h1 : m.live this = true) :
    step isT (.reset this) m
      = run isT [.ctor, .swap m.ptrs.length this, .dtor m.ptrs.length] m := by
  have ht : (intrusive_ptr.ctor m).live m.ptrs.length = true := by
    rw [ctor_live]; simp
  have hthis : (intrusive_ptr.ctor m).live this = true := by
    rw [ctor_live]; simp [h1]
  have ht2 : (intrusive_ptr.swap m.ptrs.length this (intrusive_ptr.ctor m)).live
      m.ptrs.length = true := by
    rw [swap_live _ _ _ _ ht hthis]; exact ht
  simp only [run, List.foldl, step, h1, ht, hthis, ht2, and_self, if_true]
  rfl


/-! ## Single operations -/

theorem ctor_raw_null (f : Bool) (m : Memory) : intrusive_ptr.ctor_raw 0 f m = m.alloc 0 := by
  simp [intrusive_ptr.ctor_raw]

theorem ctor_raw_adopt (p : Nat) (m : Memory) : intrusive_ptr.ctor_raw p false m = m.alloc p := by
  simp [intrusive_ptr.ctor_raw]

theorem ctor_raw_add_ref (p : Nat) (m : Memory) (hp : p ≠ 0) :
    intrusive_ptr.ctor_raw p true m = intrusive_ptr_add_ref p (m.alloc p) := by
  simp [intrusive_ptr.ctor_raw, hp]

theorem ctor_copy_null (rhs : Nat) (m : Memory) (h : m.get rhs = 0) :
    intrusive_ptr.ctor_copy rhs m = m.alloc 0 := by
  simp [intrusive_ptr.ctor_copy, h]

theorem ctor_copy_owning (rhs : Nat) (m : Memory) (h : m.get rhs ≠ 0) :
    intrusive_ptr.ctor_copy rhs m = intrusive_ptr_add_ref (m.get rhs) (m.alloc (m.get rhs)) := by
  simp [intrusive_ptr.ctor_copy, h]

theorem add_ref_obj_ne (p : Nat) (m : Memory) (b : Nat) (h : b ≠ p) :
    (intrusive_ptr_add_ref p m).obj b = m.obj b := by
  simp [intrusive_ptr_add_ref, Function.update_noteq h]

theorem add_ref_count (p : Nat) (m : Memory) :
    ((intrusive_ptr_add_ref p m).obj p).use_count = ((m.obj p).use_count + 1) % UINT_MOD := by
  simp [intrusive_ptr_add_ref, intrusive_ref_counter.use_count]

theorem release_obj_ne (p : Nat) (m : Memory) (b : Nat) (h : b ≠ p) :
    (intrusive_ptr_release p m).obj b = m.obj b := by
  simp [intrusive_ptr_release, Function.update_noteq h]

theorem release_count (p : Nat) (m : Memory) :
    ((intrusive_ptr_release p m).obj p).use_count
      = ((m.obj p).use_count + UINT_MOD - 1) % UINT_MOD := by
  simp [intrusive_ptr_release, intrusive_ref_counter.use_count]

/-- C3, as stated, fails: with 2^32 - 1 holders the object at 1 has count 2^32 - 1 and is not
destroyed, and one more `intrusive_ptr(X)` leaves its count at 0, not at 2^32. -/
theorem C3_counterexample :
    Memory.saturated.deleted 1 = 0 ∧ (Memory.saturated.obj 1).use_count = 4294967295 ∧
    ((intrusive_ptr.ctor_raw 1 true Memory.saturated).obj 1).use_count = 0 ∧
    ((intrusive_ptr.ctor_raw 1 true Memory.saturated).obj 1).use_count
      ≠ (Memory.saturated.obj 1).use_count + 1 := by
  obtain ⟨h1, h2, _⟩ := saturated_facts
  have h3 : ((intrusive_ptr.ctor_raw 1 true Memory.saturated).obj 1).use_count = 0 := by
    rw [ctor_raw_add_ref 1 Memory.saturated (Nat.succ_ne_zero 0), add_ref_count, alloc_obj, h2,
      UINT_MOD_eq]
  refine ⟨h1, h2, h3, ?_⟩
  rw [h3, h2]
  exact (Nat.succ_ne_zero 4294967295).symm

/-- C3 (amended): a new `intrusive_ref_counter` has `use_count` 0.  For a non-null address `a`,
`intrusive_ptr(a, add_ref)` is a new instance holding `a`; with `add_ref = true` the count of
the object becomes `(c + 1) mod 2^32`, which is `c + 1` unless `c = 2^32 - 1` (so 1 for a
fresh object), no other object changes, and with `add_ref = false` no count changes.  For the
null address, and for the default constructor, the new instance is empty and no count changes.
No constructor destroys an object. -/
theorem C3_construct_from_raw (m : Memory) (a : Nat) (ha : a ≠ 0) :
    intrusive_ref_counter.ctor.use_count = 0 ∧
    ((intrusive_ptr.ctor_raw a true m).live m.ptrs.length = true ∧
      (intrusive_ptr.ctor_raw a true m).get m.ptrs.length = a ∧
      ((intrusive_ptr.ctor_raw a true m).obj a).use_count
        = ((m.obj a).use_count + 1) % UINT_MOD ∧
      ((m.obj a).use_count + 1 < UINT_MOD →
        ((intrusive_ptr.ctor_raw a true m).obj a).use_count = (m.obj a).use_count + 1) ∧
      (∀ b, b ≠ a → (intrusive_ptr.ctor_raw a true m).obj b = m.obj b) ∧
      (intrusive_ptr.ctor_raw a true m).deleted = m.deleted ∧
      ((intrusive_ptr.ctor_raw a true Memory.fresh).obj a).use_count = 1) ∧
    ((intrusive_ptr.ctor_raw a false m).live m.ptrs.length = true ∧
      (intrusive_ptr.ctor_raw a false m).get m.ptrs.length = a ∧
      (intrusive_ptr.ctor_raw a false m).obj = m.obj ∧
      (intrusive_ptr.ctor_raw a false m).deleted = m.deleted) ∧
    (∀ f, (intrusive_ptr.ctor_raw 0 f m).live m.ptrs.length = true ∧
      (intrusive_ptr.ctor_raw 0 f m).get m.ptrs.length = 0 ∧
      (intrusive_ptr.ctor_raw 0 f m).obj = m.obj ∧
      (intrusive_ptr.ctor_raw 0 f m).deleted = m.deleted) ∧
    ((intrusive_ptr.ctor m).live m.ptrs.length = true ∧
      (intrusive_ptr.ctor m).get m.ptrs.length = 0 ∧
      (intrusive_ptr.ctor m).obj = m.obj ∧
      (intrusive_ptr.ctor m).deleted = m.deleted) ∧
    (∀ f r, r < m.ptrs.length → (intrusive_ptr.ctor_raw a f m).inst r = m.inst r) := by
  have hc : ((intrusive_ptr.ctor_raw a true m).obj a).use_count
      = ((m.obj a).use_count + 1) % UINT_MOD := by
    rw [ctor_raw_add_ref a m ha, add_ref_count]; rfl
  refine ⟨rfl, ⟨?_, ?_, hc, ?_, ?_, ctor_raw_deleted a true m, ?_⟩, ⟨?_, ?_, ?_, ?_⟩, ?_,
    ⟨?_, ?_, rfl, rfl⟩, ?_⟩
  · rw [ctor_raw_live]; simp
  · rw [ctor_raw_get]; simp
  · intro h; rw [hc]; exact Nat.mod_eq_of_lt h
  · intro b hb
    rw [ctor_raw_add_ref a m ha, add_ref_obj_ne a _ b hb]; rfl
  · rw [ctor_raw_add_ref a _ ha, add_ref_count]; rfl
  · rw [ctor_raw_live]; simp
  · rw [ctor_raw_get]; simp
  · rw [ctor_raw_adopt]; rfl
  · rw [ctor_raw_adopt]; rfl
  · intro f
    refine ⟨?_, ?_, ?_, ?_⟩
    · rw [ctor_raw_live]; simp
    · rw [ctor_raw_get]; simp
    · rw [ctor_raw_null]; rfl
    · rw [ctor_raw_null]; rfl
  · rw [ctor_live]; simp
  · rw [ctor_get]; simp
  · intro f r hr
    unfold Memory.inst
    rw [ctor_raw_ptrs]
    simp [List.getElem?_append_left hr]

theorem C3_construct_from_raw_witness :
    ((intrusive_ptr.ctor_raw 5 true Memory.fresh).obj 5).use_count = 1 ∧
    (intrusive_ptr.ctor_raw 5 true Memory.fresh).get 0 = 5 ∧
    (intrusive_ptr.ctor_raw 5 false Memory.fresh).obj = Memory.fresh.obj :=
  have h := C3_construct_from_raw Memory.fresh 5 (by decide)
  ⟨h.2.1.2.2.2.2.2.2, h.2.1.2.1, h.2.2.1.2.2.1⟩


theorem ctor_copy_ptrs (rhs : Nat) (m : Memory) :
    (intrusive_ptr.ctor_copy rhs m).ptrs = m.ptrs ++ [some ⟨m.get rhs⟩] := by
  unfold intrusive_ptr.ctor_copy
  simp only []
  split_ifs <;> rfl

theorem ctor_copy_deleted (rhs : Nat) (m : Memory) :
    (intrusive_ptr.ctor_copy rhs m).deleted = m.deleted := by
  unfold intrusive_ptr.ctor_copy
  simp only []
  split_ifs <;> rfl

theorem ctor_copy_eq_ctor_raw (rhs : Nat) (m : Memory) :
    intrusive_ptr.ctor_copy rhs m = intrusive_ptr.ctor_raw (m.get rhs) true m := by
  simp [intrusive_ptr.ctor_copy, intrusive_ptr.ctor_raw]

/-- What `intrusive_ptr(p)` (with `add_ref = true`) does, for any address `p`. -/
theorem ctor_raw_spec (p : Nat) (m : Memory) :
    (intrusive_ptr.ctor_raw p true m).live m.ptrs.length = true ∧
    (intrusive_ptr.ctor_raw p true m).get m.ptrs.length = p ∧
    (∀ r, r < m.ptrs.length → (intrusive_ptr.ctor_raw p true m).inst r = m.inst r) ∧
    (p ≠ 0 →
      ((intrusive_ptr.ctor_raw p true m).obj p).use_count
        = ((m.obj p).use_count + 1) % UINT_MOD ∧
      ((m.obj p).use_count + 1 < UINT_MOD →
        ((intrusive_ptr.ctor_raw p true m).obj p).use_count = (m.obj p).use_count + 1) ∧
      ∀ b, b ≠ p → (intrusive_ptr.ctor_raw p true m).obj b = m.obj b) ∧
    (p = 0 → (intrusive_ptr.ctor_raw p true m).obj = m.obj) ∧
    (intrusive_ptr.ctor_raw p true m).deleted = m.deleted := by
  refine ⟨?_, ?_, ?_, ?_, ?_, ctor_raw_deleted p true m⟩
  · rw [ctor_raw_live]; simp
  · rw [ctor_raw_get]; simp
  · intro r hr
    unfold Memory.inst
    rw [ctor_raw_ptrs]
    simp [List.getElem?_append_left hr]
  · intro hp
    have hc : ((intrusive_ptr.ctor_raw p true m).obj p).use_count
        = ((m.obj p).use_count + 1) % UINT_MOD := by
      rw [ctor_raw_add_ref p m hp, add_ref_count]; rfl
    refine ⟨hc, fun h => ?_, fun b hb => ?_⟩
    · rw [hc]; exact Nat.mod_eq_of_lt h
    · rw [ctor_raw_add_ref p m hp, add_ref_obj_ne p _ b hb]; rfl
  · intro hp
    subst hp
    rw [ctor_raw_null]; rfl

theorem inst_get_live {m m' : Memory} {r : Nat} (h : m'.inst r = m.inst r) :
    m'.get r = m.get r ∧ m'.live r = m.live r := by
  unfold Memory.get Memory.live
  rw [h]
  exact ⟨rfl, rfl⟩

theorem ctor_copy_conv_eq_ctor_raw (conv : Nat → Nat) (rhs : Nat) (m : Memory) :
    intrusive_ptr.ctor_copy_conv conv rhs m
      = intrusive_ptr.ctor_raw (static_cast conv (m.get rhs)) true m := by
  simp [intrusive_ptr.ctor_copy_conv, intrusive_ptr.ctor_raw]

theorem static_cast_ne (conv : Nat → Nat) (a : Nat) (h : a ≠ 0) : static_cast conv a = conv a := by
  unfold static_cast
  rw [if_neg h]

/-- What a new instance built by `intrusive_ptr(v)` from an address `v` computed from the
live instance `p` does: `p` is as it was. -/
theorem ctor_raw_from (v : Nat) (m : Memory) (p : Nat) (hp : m.live p = true) :
    (intrusive_ptr.ctor_raw v true m).live m.ptrs.length = true ∧
    (intrusive_ptr.ctor_raw v true m).get m.ptrs.length = v ∧
    (intrusive_ptr.ctor_raw v true m).live p = true ∧
    (intrusive_ptr.ctor_raw v true m).get p = m.get p ∧
    (v ≠ 0 →
      ((intrusive_ptr.ctor_raw v true m).obj v).use_count
        = ((m.obj v).use_count + 1) % UINT_MOD ∧
      ((m.obj v).use_count + 1 < UINT_MOD →
        ((intrusive_ptr.ctor_raw v true m).obj v).use_count = (m.obj v).use_count + 1) ∧
      ∀ b, b ≠ v → (intrusive_ptr.ctor_raw v true m).obj b = m.obj b) ∧
    (v = 0 → (intrusive_ptr.ctor_raw v true m).obj = m.obj) ∧
    (intrusive_ptr.ctor_raw v true m).deleted = m.deleted := by
  obtain ⟨h1, h2, h3, h4, h5, h6⟩ := ctor_raw_spec v m
  have h7 := inst_get_live (h3 p (live_lt hp))
  exact ⟨h1, h2, h7.2.trans hp, h7.1, h4, h5, h6⟩

/-- C4, as stated, fails, in two ways.  With 2^32 - 1 holders of the object at 1, a copy of the
first of them leaves the count at 0, not one higher than 2^32 - 1.  And a converting copy does
not hold the address of its source when the conversion `U * → T *` adjusts the pointer: from
an `intrusive_ptr<U>` that holds 448, where the `T` sub-object lies 16 bytes into the object,
the copy holds 464. -/
theorem C4_counterexample :
    Memory.saturated.live 0 = true ∧ Memory.saturated.get 0 = 1 ∧
    Memory.saturated.deleted 1 = 0 ∧ (Memory.saturated.obj 1).use_count = 4294967295 ∧
    ((intrusive_ptr.ctor_copy 0 Memory.saturated).obj 1).use_count = 0 ∧
    ((intrusive_ptr.ctor_copy 0 Memory.saturated).obj 1).use_count
      ≠ (Memory.saturated.obj 1).use_count + 1 ∧
    (intrusive_ptr.ctor_raw 448 false Memory.fresh).live 0 = true ∧
    (intrusive_ptr.ctor_raw 448 false Memory.fresh).get 0 = 448 ∧
    (intrusive_ptr.ctor_copy_conv (fun a => a + 16) 0
      (intrusive_ptr.ctor_raw 448 false Memory.fresh)).get 1 = 464 ∧
    (intrusive_ptr.ctor_copy_conv (fun a => a + 16) 0
      (intrusive_ptr.ctor_raw 448 false Memory.fresh)).get 1
      ≠ (intrusive_ptr.ctor_raw 448 false Memory.fresh).get 0 := by
  obtain ⟨h1, h2, _, _, h5, h6, _⟩ := saturated_facts
  have h3 : ((intrusive_ptr.ctor_copy 0 Memory.saturated).obj 1).use_count = 0 := by
    rw [ctor_copy_eq_ctor_raw, h6, ctor_raw_add_ref 1 Memory.saturated (Nat.succ_ne_zero 0),
      add_ref_count, alloc_obj, h2, UINT_MOD_eq]
  refine ⟨h5, h6, h1, h2, h3, ?_, by decide, by decide, by decide, by decide⟩
  rw [h3, h2]
  exact (Nat.succ_ne_zero 4294967295).symm

/-- C4 (amended): the copy of a pointer `src` is a new instance, and `src` still holds its
address.  The same-type copy holds the address `src` holds; the converting copy holds that
address converted to its own pointer type, `static_cast conv (m.get src)`, which is the same
address exactly when the conversion adjusts nothing (it is then the same-type copy).  If `src`
is not empty the count of its object (the object that the copy holds, known in the converting
case by the converted address) becomes `(c + 1) mod 2^32`, which is `c + 1` unless
`c = 2^32 - 1`, and the count of every other object is unchanged; if `src` is empty the copy
is empty and no count changes.  Nothing is destroyed. -/
theorem C4_copy_construct (m : Memory) (src : Nat) (conv : Nat → Nat)
    (hsrc : m.live src = true) :
    ((intrusive_ptr.ctor_copy src m).live m.ptrs.length = true ∧
      (intrusive_ptr.ctor_copy src m).get m.ptrs.length = m.get src ∧
      (intrusive_ptr.ctor_copy src m).live src = true ∧
      (intrusive_ptr.ctor_copy src m).get src = m.get src ∧
      (m.get src ≠ 0 →
        ((intrusive_ptr.ctor_copy src m).obj (m.get src)).use_count
          = ((m.obj (m.get src)).use_count + 1) % UINT_MOD ∧
        ((m.obj (m.get src)).use_count + 1 < UINT_MOD →
          ((intrusive_ptr.ctor_copy src m).obj (m.get src)).use_count
            = (m.obj (m.get src)).use_count + 1) ∧
        ∀ b, b ≠ m.get src → (intrusive_ptr.ctor_copy src m).obj b = m.obj b) ∧
      (m.get src = 0 → (intrusive_ptr.ctor_copy src m).obj = m.obj) ∧
      (intrusive_ptr.ctor_copy src m).deleted = m.deleted) ∧
    ((intrusive_ptr.ctor_copy_conv conv src m).live m.ptrs.length = true ∧
      (intrusive_ptr.ctor_copy_conv conv src m).get m.ptrs.length
        = static_cast conv (m.get src) ∧
      (intrusive_ptr.ctor_copy_conv conv src m).live src = true ∧
      (intrusive_ptr.ctor_copy_conv conv src m).get src = m.get src ∧
      (m.get src ≠ 0 → conv (m.get src) ≠ 0 →
        (intrusive_ptr.ctor_copy_conv conv src m).get m.ptrs.length = conv (m.get src) ∧
        ((intrusive_ptr.ctor_copy_conv conv src m).obj (conv (m.get src))).use_count
          = ((m.obj (conv (m.get src))).use_count + 1) % UINT_MOD ∧
        ((m.obj (conv (m.get src))).use_count + 1 < UINT_MOD →
          ((intrusive_ptr.ctor_copy_conv conv src m).obj (conv (m.get src))).use_count
            = (m.obj (conv (m.get src))).use_count + 1) ∧
        ∀ b, b ≠ conv (m.get src) →
          (intrusive_ptr.ctor_copy_conv conv src m).obj b = m.obj b) ∧
      (m.get src = 0 →
        (intrusive_ptr.ctor_copy_conv conv src m).get m.ptrs.length = 0 ∧
        (intrusive_ptr.ctor_copy_conv conv src m).obj = m.obj) ∧
      (intrusive_ptr.ctor_copy_conv conv src m).deleted = m.deleted ∧
      ((intrusive_ptr.ctor_copy_conv conv src m).get m.ptrs.length = m.get src →
        intrusive_ptr.ctor_copy_conv conv src m = intrusive_ptr.ctor_copy src m)) := by
  constructor
  · rw [ctor_copy_eq_ctor_raw]
    exact ctor_raw_from (m.get src) m src hsrc
  · obtain ⟨h1, h2, h3, h4, h5, h6, h7⟩ :=
      ctor_raw_from (static_cast conv (m.get src)) m src hsrc
    rw [← ctor_copy_conv_eq_ctor_raw] at h1 h2 h3 h4 h5 h6 h7
    refine ⟨h1, h2, h3, h4, ?_, ?_, h7, ?_⟩
    · intro h0 hc
      have hs := static_cast_ne conv (m.get src) h0
      rw [hs] at h2 h5
      exact ⟨h2, h5 hc⟩
    · intro h0
      have hs : static_cast conv (m.get src) = 0 := by rw [h0]; rfl
      exact ⟨h2.trans hs, h6 hs⟩
    · intro h
      exact ctor_copy_conv_same conv src m (h2.symm.trans h)

theorem C4_copy_construct_witness :
    (intrusive_ptr.ctor_copy 0 (intrusive_ptr.ctor_raw 7 true Memory.fresh)).get 1 = 7 ∧
    (intrusive_ptr.ctor_copy 0 (intrusive_ptr.ctor_raw 7 true Memory.fresh)).get 0 = 7 ∧
    (intrusive_ptr.ctor_copy_conv (fun a => a + 16) 0
      (intrusive_ptr.ctor_raw 448 false Memory.fresh)).get 1 = 464 ∧
    ((intrusive_ptr.ctor_copy_conv (fun a => a + 16) 0
      (intrusive_ptr.ctor_raw 448 false Memory.fresh)).obj 464).use_count = 1 :=
  have h := C4_copy_construct (intrusive_ptr.ctor_raw 7 true Memory.fresh) 0 (fun a => a + 16)
    (by decide)
  have k := C4_copy_construct (intrusive_ptr.ctor_raw 448 false Memory.fresh) 0
    (fun a => a + 16) (by decide)
  ⟨h.1.2.1, h.1.2.2.2.1, (k.2.2.2.2.2.1 (by decide) (by decide)).1,
    (k.2.2.2.2.2.1 (by decide) (by decide)).2.2.1 (by decide)⟩

/-- C7, as stated, fails, in two ways.  With 2^32 - 1 holders of the object at 1,
`const_pointer_cast` and `static_pointer_cast` of the first of them leave the count at 0, not
one higher than 2^32 - 1.  And `static_pointer_cast` does not hold the address of its source
when `static_cast` adjusts the pointer: from a pointer that holds 464, the address of a
sub-object 16 bytes into its object, the cast to the type of the whole object holds 448. -/
theorem C7_counterexample :
    Memory.saturated.live 0 = true ∧ Memory.saturated.get 0 = 1 ∧
    Memory.saturated.deleted 1 = 0 ∧ (Memory.saturated.obj 1).use_count = 4294967295 ∧
    ((static_pointer_cast (fun a => a) 0 Memory.saturated).obj 1).use_count = 0 ∧
    ((const_pointer_cast 0 Memory.saturated).obj 1).use_count = 0 ∧
    (intrusive_ptr.ctor_raw 464 false Memory.fresh).live 0 = true ∧
    (intrusive_ptr.ctor_raw 464 false Memory.fresh).get 0 = 464 ∧
    (static_pointer_cast (fun a => a - 16) 0
      (intrusive_ptr.ctor_raw 464 false Memory.fresh)).get 1 = 448 ∧
    (static_pointer_cast (fun a => a - 16) 0
      (intrusive_ptr.ctor_raw 464 false Memory.fresh)).get 1
      ≠ (intrusive_ptr.ctor_raw 464 false Memory.fresh).get 0 := by
  obtain ⟨h1, h2, _, _, h5, h6, _⟩ := saturated_facts
  have h3 : ((intrusive_ptr.ctor_raw 1 true Memory.saturated).obj 1).use_count = 0 := by
    rw [ctor_raw_add_ref 1 Memory.saturated (Nat.succ_ne_zero 0), add_ref_count, alloc_obj, h2,
      UINT_MOD_eq]
  refine ⟨h5, h6, h1, h2, ?_, ?_, by decide, by decide, by decide, by decide⟩
  · rw [static_pointer_cast_id, h6]; exact h3
  · rw [const_pointer_cast, intrusive_ptr.get, h6, const_cast]; exact h3

/-- C7 (amended): `const_pointer_cast` and `static_pointer_cast` of a pointer `p` give a new
instance and leave `p` as it is.  The result of `const_pointer_cast` holds the address `p`
holds; the result of `static_pointer_cast` holds that address converted by `static_cast`,
`static_cast conv (m.get p)`, which is the same address exactly when the cast adjusts nothing
(the two casts then do the same).  If `p` is not empty the count of its object (the object
that the result holds, known after `static_cast` by the converted address) becomes
`(c + 1) mod 2^32`, which is `c + 1` unless `c = 2^32 - 1`, and no other count changes; if `p`
is empty the result is empty and no count changes.  Nothing is destroyed. -/
theorem C7_static_const_pointer_cast (m : Memory) (p : Nat) (conv : Nat → Nat)
    (hp : m.live p = true) :
    ((const_pointer_cast p m).live m.ptrs.length = true ∧
      (const_pointer_cast p m).get m.ptrs.length = m.get p ∧
      (const_pointer_cast p m).live p = true ∧
      (const_pointer_cast p m).get p = m.get p ∧
      (m.get p ≠ 0 →
        ((const_pointer_cast p m).obj (m.get p)).use_count
          = ((m.obj (m.get p)).use_count + 1) % UINT_MOD ∧
        ((m.obj (m.get p)).use_count + 1 < UINT_MOD →
          ((const_pointer_cast p m).obj (m.get p)).use_count
            = (m.obj (m.get p)).use_count + 1) ∧
        ∀ b, b ≠ m.get p → (const_pointer_cast p m).obj b = m.obj b) ∧
      (m.get p = 0 → (const_pointer_cast p m).obj = m.obj) ∧
      (const_pointer_cast p m).deleted = m.deleted) ∧
    ((static_pointer_cast conv p m).live m.ptrs.length = true ∧
      (static_pointer_cast conv p m).get m.ptrs.length = static_cast conv (m.get p) ∧
      (static_pointer_cast conv p m).live p = true ∧
      (static_pointer_cast conv p m).get p = m.get p ∧
      (m.get p ≠ 0 → conv (m.get p) ≠ 0 →
        (static_pointer_cast conv p m).get m.ptrs.length = conv (m.get p) ∧
        ((static_pointer_cast conv p m).obj (conv (m.get p))).use_count
          = ((m.obj (conv (m.get p))).use_count + 1) % UINT_MOD ∧
        ((m.obj (conv (m.get p))).use_count + 1 < UINT_MOD →
          ((static_pointer_cast conv p m).obj (conv (m.get p))).use_count
            = (m.obj (conv (m.get p))).use_count + 1) ∧
        ∀ b, b ≠ conv (m.get p) → (static_pointer_cast conv p m).obj b = m.obj b) ∧
      (m.get p = 0 →
        (static_pointer_cast conv p m).get m.ptrs.length = 0 ∧
        (static_pointer_cast conv p m).obj = m.obj) ∧
      (static_pointer_cast conv p m).deleted = m.deleted ∧
      ((static_pointer_cast conv p m).get m.ptrs.length = m.get p →
        static_pointer_cast conv p m = const_pointer_cast p m)) := by
  have hc : const_pointer_cast p m = intrusive_ptr.ctor_raw (m.get p) true m := rfl
  have hs : static_pointer_cast conv p m
      = intrusive_ptr.ctor_raw (static_cast conv (m.get p)) true m := rfl
  constructor
  · rw [hc]
    exact ctor_raw_from (m.get p) m p hp
  · obtain ⟨h1, h2, h3, h4, h5, h6, h7⟩ := ctor_raw_from (static_cast conv (m.get p)) m p hp
    rw [← hs] at h1 h2 h3 h4 h5 h6 h7
    refine ⟨h1, h2, h3, h4, ?_, ?_, h7, ?_⟩
    · intro h0 hcv
      have hn := static_cast_ne conv (m.get p) h0
      rw [hn] at h2 h5
      exact ⟨h2, h5 hcv⟩
    · intro h0
      have hn : static_cast conv (m.get p) = 0 := by rw [h0]; rfl
      exact ⟨h2.trans hn, h6 hn⟩
    · intro h
      rw [hs, hc, h2.symm.trans h]

theorem C7_static_const_pointer_cast_witness :
    (const_pointer_cast 0 (intrusive_ptr.ctor_raw 7 true Memory.fresh)).get 1 = 7 ∧
    (static_pointer_cast (fun a => a - 16) 0
      (intrusive_ptr.ctor_raw 464 false Memory.fresh)).get 1 = 448 ∧
    ((static_pointer_cast (fun a => a - 16) 0
      (intrusive_ptr.ctor_raw 464 false Memory.fresh)).obj 448).use_count = 1 :=
  have h := C7_static_const_pointer_cast (intrusive_ptr.ctor_raw 7 true Memory.fresh) 0
    (fun a => a - 16) (by decide)
  have k := C7_static_const_pointer_cast (intrusive_ptr.ctor_raw 464 false Memory.fresh) 0
    (fun a => a - 16) (by decide)
  ⟨h.1.2.1, (k.2.2.2.2.2.1 (by decide) (by decide)).1,
    (k.2.2.2.2.2.1 (by decide) (by decide)).2.2.1 (by decide)⟩

/-- C8, as stated, fails: with 2^32 - 1 holders of the object at 1, a `dynamic_pointer_cast`
of the first of them whose type check succeeds leaves the count at 0, not one higher than
2^32 - 1. -/
theorem C8_counterexample :
    Memory.saturated.live 0 = true ∧ Memory.saturated.get 0 = 1 ∧
    Memory.saturated.deleted 1 = 0 ∧ (Memory.saturated.obj 1).use_count = 4294967295 ∧
    (dynamic_pointer_cast (fun _ => true) 0 Memory.saturated).get Memory.saturated.ptrs.length
      = 1 ∧
    ((dynamic_pointer_cast (fun _ => true) 0 Memory.saturated).obj 1).use_count = 0 := by
  obtain ⟨h1, h2, _, _, h5, h6, _⟩ := saturated_facts
  have h3 : ((intrusive_ptr.ctor_raw 1 true Memory.saturated).obj 1).use_count = 0 := by
    rw [ctor_raw_add_ref 1 Memory.saturated (Nat.succ_ne_zero 0), add_ref_count, alloc_obj, h2,
      UINT_MOD_eq]
  have h4 : dynamic_cast (fun _ => true) 1 = 1 := rfl
  refine ⟨h5, h6, h1, h2, ?_, ?_⟩
  · rw [dynamic_pointer_cast, intrusive_ptr.get, h6, h4, ctor_raw_get, if_pos rfl]
  · rw [dynamic_pointer_cast, intrusive_ptr.get, h6, h4]; exact h3

/-- C8 (amended): when the object of `p` fails the run-time type check, or `p` is empty,
`dynamic_pointer_cast` gives an empty pointer, `p` still holds its address and no count has
changed; when the check succeeds the result holds the same address and the count of the object
becomes `(c + 1) mod 2^32`, which is `c + 1` unless `c = 2^32 - 1`, no other count
changing.  Nothing is destroyed. -/
theorem C8_dynamic_pointer_cast (isT : Nat → Bool) (m : Memory) (p : Nat)
    (hp : m.live p = true) :
    (dynamic_pointer_cast isT p m).live m.ptrs.length = true ∧
    (dynamic_pointer_cast isT p m).live p = true ∧
    (dynamic_pointer_cast isT p m).get p = m.get p ∧
    (dynamic_pointer_cast isT p m).deleted = m.deleted ∧
    (m.get p = 0 ∨ isT (m.get p) = false →
      (dynamic_pointer_cast isT p m).get m.ptrs.length = 0 ∧
      (dynamic_pointer_cast isT p m).obj = m.obj) ∧
    (m.get p ≠ 0 ∧ isT (m.get p) = true →
      (dynamic_pointer_cast isT p m).get m.ptrs.length = m.get p ∧
      ((dynamic_pointer_cast isT p m).obj (m.get p)).use_count
        = ((m.obj (m.get p)).use_count + 1) % UINT_MOD ∧
      ((m.obj (m.get p)).use_count + 1 < UINT_MOD →
        ((dynamic_pointer_cast isT p m).obj (m.get p)).use_count
          = (m.obj (m.get p)).use_count + 1) ∧
      ∀ b, b ≠ m.get p → (dynamic_pointer_cast isT p m).obj b = m.obj b) := by
  show (intrusive_ptr.ctor_raw (dynamic_cast isT (m.get p)) true m).live m.ptrs.length = true ∧ _
  obtain ⟨h1, h2, h3, h4, h5, h6⟩ := ctor_raw_spec (dynamic_cast isT (m.get p)) m
  have h7 := inst_get_live (h3 p (live_lt hp))
  refine ⟨h1, h7.2.trans hp, h7.1, h6, ?_, ?_⟩
  · intro hf
    have h8 : dynamic_cast isT (m.get p) = 0 := by
      unfold dynamic_cast
      rcases hf with hf | hf
      · simp [hf]
      · simp [hf]
    exact ⟨h2.trans h8, h5 h8⟩
  · intro hs
    have h8 : dynamic_cast isT (m.get p) = m.get p := by
      unfold dynamic_cast
      simp [hs.1, hs.2]
    have h9 : dynamic_pointer_cast isT p m = intrusive_ptr.ctor_raw (m.get p) true m := by
      rw [dynamic_pointer_cast, intrusive_ptr.get, h8]
    rw [h9]
    exact ⟨(ctor_raw_spec (m.get p) m).2.1, (ctor_raw_spec (m.get p) m).2.2.2.1 hs.1⟩

theorem C8_dynamic_pointer_cast_witness :
    (dynamic_pointer_cast (fun _ => false) 0 (intrusive_ptr.ctor_raw 7 true Memory.fresh)).get 1
      = 0 ∧
    (dynamic_pointer_cast (fun _ => false) 0 (intrusive_ptr.ctor_raw 7 true Memory.fresh)).get 0
      = 7 ∧
    (dynamic_pointer_cast (fun _ => false) 0 (intrusive_ptr.ctor_raw 7 true Memory.fresh)).obj
      = (intrusive_ptr.ctor_raw 7 true Memory.fresh).obj :=
  have h := C8_dynamic_pointer_cast (fun _ => false)
    (intrusive_ptr.ctor_raw 7 true Memory.fresh) 0 (by decide)
  ⟨(h.2.2.2.2.1 (Or.inr rfl)).1, h.2.2.1, (h.2.2.2.2.1 (Or.inr rfl)).2⟩


theorem ctor_move_obj (rhs : Nat) (m : Memory) : (intrusive_ptr.ctor_move rhs m).obj = m.obj := rfl

theorem ctor_move_deleted (rhs : Nat) (m : Memory) :
    (intrusive_ptr.ctor_move rhs m).deleted = m.deleted := rfl

theorem ctor_move_length (rhs : Nat) (m : Memory) :
    (intrusive_ptr.ctor_move rhs m).ptrs.length = m.ptrs.length + 1 := by
  simp [intrusive_ptr.ctor_move]

theorem ctor_copy_length (rhs : Nat) (m : Memory) :
    (intrusive_ptr.ctor_copy rhs m).ptrs.length = m.ptrs.length + 1 := by
  rw [ctor_copy_ptrs]; simp

theorem swap_obj (x y : Nat) (m : Memory) : (intrusive_ptr.swap x y m).obj = m.obj := rfl

theorem swap_deleted (x y : Nat) (m : Memory) :
    (intrusive_ptr.swap x y m).deleted = m.deleted := rfl

/-- The destructor of an instance that holds the null address only ends the instance. -/
theorem dtor_empty (x : Nat) (m : Memory) (h : m.get x = 0) :
    (intrusive_ptr.dtor x m).obj = m.obj ∧ (intrusive_ptr.dtor x m).deleted = m.deleted := by
  rw [dtor_null x m h]
  exact ⟨rfl, rfl⟩

/-- An assignment to an instance that holds the null address releases nothing: the objects
are as the constructor of the temporary leaves them. -/
theorem assign_to_empty (mk : Memory → Memory) (this : Nat) (m : Memory)
    (hlive : ∀ r, (mk m).live r = (decide (r = m.ptrs.length) || m.live r))
    (hthis : m.live this = true) (hget : (mk m).get this = 0) :
    (intrusive_ptr.dtor m.ptrs.length (intrusive_ptr.swap m.ptrs.length this (mk m))).obj
      = (mk m).obj ∧
    (intrusive_ptr.dtor m.ptrs.length (intrusive_ptr.swap m.ptrs.length this (mk m))).deleted
      = (mk m).deleted := by
  have ht : (mk m).live m.ptrs.length = true := by rw [hlive]; simp
  have hthis1 : (mk m).live this = true := by rw [hlive]; simp [hthis]
  have hne : m.ptrs.length ≠ this := Nat.ne_of_gt (live_lt hthis)
  have hg : (intrusive_ptr.swap m.ptrs.length this (mk m)).get m.ptrs.length = 0 := by
    rw [swap_get _ _ _ _ ht hthis1, if_neg hne, if_pos rfl, hget]
  exact dtor_empty _ _ hg

theorem ctor_move_conv_live (conv : Nat → Nat) (rhs : Nat) (m : Memory) (r : Nat)
    (hl : m.live rhs = true) :
    (intrusive_ptr.ctor_move_conv conv rhs m).live r
      = (decide (r = m.ptrs.length) || m.live r) := by
  simp only [intrusive_ptr.ctor_move_conv]
  have hl1 : (m.alloc (static_cast conv (m.get rhs))).live rhs = true := by
    simp [live_alloc, hl]
  rw [live_set _ _ _ _ hl1, live_alloc]

theorem ctor_move_conv_get (conv : Nat → Nat) (rhs : Nat) (m : Memory) (r : Nat)
    (hl : m.live rhs = true) :
    (intrusive_ptr.ctor_move_conv conv rhs m).get r
      = if r = m.ptrs.length then static_cast conv (m.get rhs)
        else if r = rhs then 0 else m.get r := by
  have h1 := live_lt hl
  simp only [intrusive_ptr.ctor_move_conv, get_set, get_alloc, alloc_length]
  by_cases h2 : r = rhs
  · subst h2
    have : r < m.ptrs.length + 1 := by omega
    have h3 : r ≠ m.ptrs.length := by omega
    simp [this, h3]
  · simp [h2]

/-- C5, as stated, fails: a converting move does not give `dst` the address `src` held when
the conversion `U * → T *` adjusts the pointer.  From an `intrusive_ptr<U>` that holds 448,
where the `T` sub-object lies 16 bytes into the object, `dst` holds 464. -/
theorem C5_counterexample :
    (intrusive_ptr.ctor_raw 448 false Memory.fresh).live 0 = true ∧
    (intrusive_ptr.ctor_raw 448 false Memory.fresh).get 0 = 448 ∧
    (intrusive_ptr.ctor_move_conv (fun a => a + 16) 0
      (intrusive_ptr.ctor_raw 448 false Memory.fresh)).get 1 = 464 ∧
    (intrusive_ptr.ctor_move_conv (fun a => a + 16) 0
      (intrusive_ptr.ctor_raw 448 false Memory.fresh)).get 0 = 0 ∧
    (intrusive_ptr.ctor_move_conv (fun a => a + 16) 0
      (intrusive_ptr.ctor_raw 448 false Memory.fresh)).get 1
      ≠ (intrusive_ptr.ctor_raw 448 false Memory.fresh).get 0 := by
  decide

/-- C5 (amended): after `dst` is move-constructed from `src`, `src` is empty and no count has
changed.  After the same-type move `dst` holds the address `src` held; after the converting
move it holds that address converted to its own pointer type, `static_cast conv (m.get src)`,
which is the same address exactly when the conversion adjusts nothing (the move is then the
same-type one).  Destroying `src` afterwards changes no count, and reassigning `src` releases
nothing: whatever constructor `mk` builds the temporary of the assignment, the objects are as
that constructor alone leaves them.  So for the assignments of this class (from a raw address,
by copy, by move, `reset()`) the count of the original object is not changed by a reassignment
of `src`, except by the reference the new value of `src` itself takes when it is that very
object. -/
theorem C5_move_construct (m : Memory) (src : Nat) (conv : Nat → Nat)
    (hsrc : m.live src = true) :
    ((intrusive_ptr.ctor_move src m).live m.ptrs.length = true ∧
      (intrusive_ptr.ctor_move src m).get m.ptrs.length = m.get src ∧
      (intrusive_ptr.ctor_move src m).live src = true ∧
      (intrusive_ptr.ctor_move src m).get src = 0 ∧
      (intrusive_ptr.ctor_move src m).obj = m.obj ∧
      (intrusive_ptr.ctor_move src m).deleted = m.deleted) ∧
    ((intrusive_ptr.ctor_move_conv conv src m).live m.ptrs.length = true ∧
      (intrusive_ptr.ctor_move_conv conv src m).get m.ptrs.length
        = static_cast conv (m.get src) ∧
      (m.get src ≠ 0 →
        (intrusive_ptr.ctor_move_conv conv src m).get m.ptrs.length = conv (m.get src)) ∧
      (m.get src = 0 → (intrusive_ptr.ctor_move_conv conv src m).get m.ptrs.length = 0) ∧
      (intrusive_ptr.ctor_move_conv conv src m).live src = true ∧
      (intrusive_ptr.ctor_move_conv conv src m).get src = 0 ∧
      (intrusive_ptr.ctor_move_conv conv src m).obj = m.obj ∧
      (intrusive_ptr.ctor_move_conv conv src m).deleted = m.deleted ∧
      ((intrusive_ptr.ctor_move_conv conv src m).get m.ptrs.length = m.get src →
        intrusive_ptr.ctor_move_conv conv src m = intrusive_ptr.ctor_move src m)) ∧
    ((intrusive_ptr.dtor src (intrusive_ptr.ctor_move src m)).obj = m.obj ∧
      (intrusive_ptr.dtor src (intrusive_ptr.ctor_move src m)).deleted = m.deleted ∧
      (intrusive_ptr.dtor src (intrusive_ptr.ctor_move_conv conv src m)).obj = m.obj ∧
      (intrusive_ptr.dtor src (intrusive_ptr.ctor_move_conv conv src m)).deleted
        = m.deleted) ∧
    (∀ (m' : Memory) (mk : Memory → Memory),
      m' = intrusive_ptr.ctor_move src m ∨ m' = intrusive_ptr.ctor_move_conv conv src m →
      (∀ r, (mk m').live r = (decide (r = m'.ptrs.length) || m'.live r)) →
      (mk m').get src = 0 →
      (intrusive_ptr.dtor m'.ptrs.length
        (intrusive_ptr.swap m'.ptrs.length src (mk m'))).obj = (mk m').obj ∧
      (intrusive_ptr.dtor m'.ptrs.length
        (intrusive_ptr.swap m'.ptrs.length src (mk m'))).deleted = (mk m').deleted) ∧
    ((intrusive_ptr.reset src (intrusive_ptr.ctor_move src m)).obj = m.obj ∧
      (intrusive_ptr.reset src (intrusive_ptr.ctor_move src m)).deleted = m.deleted) ∧
    (∀ b, (intrusive_ptr.assign_raw src b (intrusive_ptr.ctor_move src m)).obj
        = (intrusive_ptr.ctor_raw b true (intrusive_ptr.ctor_move src m)).obj ∧
      (intrusive_ptr.assign_raw src b (intrusive_ptr.ctor_move src m)).deleted = m.deleted ∧
      (b ≠ m.get src →
        (intrusive_ptr.assign_raw src b (intrusive_ptr.ctor_move src m)).obj (m.get src)
          = m.obj (m.get src))) ∧
    (∀ r, (intrusive_ptr.ctor_move src m).live r = true →
      (intrusive_ptr.assign_copy src r (intrusive_ptr.ctor_move src m)).obj
        = (intrusive_ptr.ctor_copy r (intrusive_ptr.ctor_move src m)).obj ∧
      (intrusive_ptr.assign_copy src r (intrusive_ptr.ctor_move src m)).deleted = m.deleted ∧
      ((intrusive_ptr.ctor_move src m).get r ≠ m.get src →
        (intrusive_ptr.assign_copy src r (intrusive_ptr.ctor_move src m)).obj (m.get src)
          = m.obj (m.get src)) ∧
      (intrusive_ptr.assign_move src r (intrusive_ptr.ctor_move src m)).obj = m.obj ∧
      (intrusive_ptr.assign_move src r (intrusive_ptr.ctor_move src m)).deleted
        = m.deleted) := by
  have hl := fun r => ctor_move_live src m r hsrc
  have hg := fun r => ctor_move_get src m r hsrc
  have hlc := fun r => ctor_move_conv_live conv src m r hsrc
  have hgc := fun r => ctor_move_conv_get conv src m r hsrc
  have hne : src ≠ m.ptrs.length := Nat.ne_of_lt (live_lt hsrc)
  have hs1 : (intrusive_ptr.ctor_move src m).live src = true := by rw [hl]; simp [hsrc]
  have hs0 : (intrusive_ptr.ctor_move src m).get src = 0 := by
    rw [hg, if_neg hne, if_pos rfl]
  have hc1 : (intrusive_ptr.ctor_move_conv conv src m).live src = true := by
    rw [hlc]; simp [hsrc]
  have hc0 : (intrusive_ptr.ctor_move_conv conv src m).get src = 0 := by
    rw [hgc, if_neg hne, if_pos rfl]
  have hcL : (intrusive_ptr.ctor_move_conv conv src m).get m.ptrs.length
      = static_cast conv (m.get src) := by
    rw [hgc, if_pos rfl]
  refine ⟨⟨?_, ?_, hs1, hs0, rfl, rfl⟩,
    ⟨?_, hcL, ?_, ?_, hc1, hc0, rfl, rfl, ?_⟩,
    ⟨(dtor_empty _ _ hs0).1, (dtor_empty _ _ hs0).2, (dtor_empty _ _ hc0).1,
      (dtor_empty _ _ hc0).2⟩, ?_, ?_, ?_, ?_⟩
  · rw [hl]; simp
  · rw [hg, if_pos rfl]
  · rw [hlc]; simp
  · intro h0
    rw [hcL, static_cast_ne conv _ h0]
  · intro h0
    rw [hcL, h0]; rfl
  · intro h
    exact ctor_move_conv_same conv src m (hcL.symm.trans h)
  · intro m' mk hm' hlive hget
    have hsrc' : m'.live src = true := by
      rcases hm' with h | h
      · rw [h]; exact hs1
      · rw [h]; exact hc1
    exact assign_to_empty mk src m' hlive hsrc' hget
  · exact assign_to_empty intrusive_ptr.ctor src _ (ctor_live _) hs1
      (by rw [ctor_get, if_neg (Nat.ne_of_lt (live_lt hs1))]; exact hs0)
  · intro b
    have h := assign_to_empty (intrusive_ptr.ctor_raw b true) src _ (ctor_raw_live b true _) hs1
      (by rw [ctor_raw_get, if_neg (Nat.ne_of_lt (live_lt hs1))]; exact hs0)
    refine ⟨h.1, h.2.trans (ctor_raw_deleted b true _), fun hb => ?_⟩
    have h2 : (intrusive_ptr.assign_raw src b (intrusive_ptr.ctor_move src m)).obj
        = (intrusive_ptr.ctor_raw b true (intrusive_ptr.ctor_move src m)).obj := h.1
    rw [h2]
    by_cases hb0 : b = 0
    · rw [hb0, ctor_raw_null]; rfl
    · rw [ctor_raw_add_ref b _ hb0, add_ref_obj_ne b _ _ (Ne.symm hb)]; rfl
  · intro r hr
    have h := assign_to_empty (intrusive_ptr.ctor_copy r) src _ (ctor_copy_live r _) hs1
      (by rw [ctor_copy_get, if_neg (Nat.ne_of_lt (live_lt hs1))]; exact hs0)
    have h3 := assign_to_empty (intrusive_ptr.ctor_move r) src _
      (fun q => ctor_move_live r _ q hr) hs1
      (by
        rw [ctor_move_get r _ src hr, if_neg (Nat.ne_of_lt (live_lt hs1))]
        split_ifs
        · rfl
        · exact hs0)
    refine ⟨h.1, h.2.trans (ctor_copy_deleted r _), fun hb => ?_, h3.1, h3.2⟩
    have h2 : (intrusive_ptr.assign_copy src r (intrusive_ptr.ctor_move src m)).obj
        = (intrusive_ptr.ctor_copy r (intrusive_ptr.ctor_move src m)).obj := h.1
    rw [h2]
    by_cases hb0 : (intrusive_ptr.ctor_move src m).get r = 0
    · rw [ctor_copy_null r _ hb0]; rfl
    · rw [ctor_copy_owning r _ hb0, add_ref_obj_ne _ _ _ (Ne.symm hb)]; rfl

theorem C5_move_construct_witness :
    (intrusive_ptr.ctor_move 0 (intrusive_ptr.ctor_raw 7 true Memory.fresh)).get 1 = 7 ∧
    (intrusive_ptr.ctor_move 0 (intrusive_ptr.ctor_raw 7 true Memory.fresh)).get 0 = 0 ∧
    (intrusive_ptr.ctor_move 0 (intrusive_ptr.ctor_raw 7 true Memory.fresh)).obj
      = (intrusive_ptr.ctor_raw 7 true Memory.fresh).obj ∧
    (intrusive_ptr.ctor_move_conv (fun a => a + 16) 0
      (intrusive_ptr.ctor_raw 448 false Memory.fresh)).get 1 = 464 ∧
    (intrusive_ptr.ctor_move_conv (fun a => a + 16) 0
      (intrusive_ptr.ctor_raw 448 false Memory.fresh)).get 0 = 0 :=
  have h := C5_move_construct (intrusive_ptr.ctor_raw 7 true Memory.fresh) 0 (fun a => a + 16)
    (by decide)
  have k := C5_move_construct (intrusive_ptr.ctor_raw 448 false Memory.fresh) 0
    (fun a => a + 16) (by decide)
  ⟨h.1.2.1, h.1.2.2.2.1, h.1.2.2.2.2.1, k.2.1.2.2.1 (by decide), k.2.1.2.2.2.2.2.1⟩


/-- C6, as stated, fails: with 2^32 - 1 holders of the object at 1 (count `n = 2^32 - 1`), the
self-assignment `p = p` of the first of them starts with the copy of `p` into the temporary,
whose `intrusive_ptr_add_ref` takes the count to 0. -/
theorem C6_counterexample :
    Memory.saturated.live 0 = true ∧ Memory.saturated.get 0 = 1 ∧
    (Memory.saturated.obj 1).use_count = 4294967295 ∧
    intrusive_ptr.assign_copy 0 0 Memory.saturated
      = intrusive_ptr.dtor Memory.saturated.ptrs.length
          (intrusive_ptr.swap Memory.saturated.ptrs.length 0
            (intrusive_ptr.ctor_copy 0 Memory.saturated)) ∧
    ((intrusive_ptr.ctor_copy 0 Memory.saturated).obj 1).use_count = 0 := by
  obtain ⟨_, h2, _, _, h5, h6, _⟩ := saturated_facts
  refine ⟨h5, h6, h2, ?_, ?_⟩
  · rw [intrusive_ptr.assign_copy]
  · rw [ctor_copy_eq_ctor_raw, h6, ctor_raw_add_ref 1 Memory.saturated (Nat.succ_ne_zero 0),
      add_ref_count, alloc_obj, h2, UINT_MOD_eq]

/-- C6 (amended): let `p` hold the object at `a`, whose count is `n >= 1`, and let `q` hold it
too (`q` may be `p`).  The copy assignment `q = p` (the same-type overload, and the converting
one whose conversion leaves `a` as it is, which is the same function) is the copy of `p` into a
temporary, then `swap`, then the destruction of the temporary; afterwards both still hold `a`,
the count is `n` again and nothing is destroyed.  The count is `(n + 1) mod 2^32` after the
`add_ref` and after the `swap`: unless `n = 2^32 - 1`, it is 0 at no step. -/
theorem C6_copy_assign_alias (m : Memory) (p q a : Nat) (ha : a ≠ 0)
    (hp : m.live p = true) (hq : m.live q = true) (hpa : m.get p = a) (hqa : m.get q = a)
    (hn : 1 ≤ (m.obj a).use_count) (hlt : (m.obj a).use_count < UINT_MOD) :
    intrusive_ptr.assign_copy q p m
      = intrusive_ptr.dtor m.ptrs.length
          (intrusive_ptr.swap m.ptrs.length q (intrusive_ptr.ctor_copy p m)) ∧
    (∀ conv : Nat → Nat, static_cast conv a = a →
      intrusive_ptr.assign_copy_conv conv q p m = intrusive_ptr.assign_copy q p m) ∧
    (intrusive_ptr.assign_copy q p m).live p = true ∧
    (intrusive_ptr.assign_copy q p m).get p = a ∧
    (intrusive_ptr.assign_copy q p m).live q = true ∧
    (intrusive_ptr.assign_copy q p m).get q = a ∧
    ((intrusive_ptr.assign_copy q p m).obj a).use_count = (m.obj a).use_count ∧
    (intrusive_ptr.assign_copy q p m).deleted = m.deleted ∧
    ((intrusive_ptr.ctor_copy p m).obj a).use_count = ((m.obj a).use_count + 1) % UINT_MOD ∧
    ((intrusive_ptr.swap m.ptrs.length q (intrusive_ptr.ctor_copy p m)).obj a).use_count
      = ((m.obj a).use_count + 1) % UINT_MOD ∧
    ((m.obj a).use_count + 1 < UINT_MOD →
      ((intrusive_ptr.ctor_copy p m).obj a).use_count ≠ 0 ∧
      ((intrusive_ptr.swap m.ptrs.length q (intrusive_ptr.ctor_copy p m)).obj a).use_count
        ≠ 0 ∧
      ((intrusive_ptr.assign_copy q p m).obj a).use_count ≠ 0) := by
  have hpa0 : m.get p ≠ 0 := by rw [hpa]; exact ha
  have h1c : ((intrusive_ptr.ctor_copy p m).obj a).use_count
      = ((m.obj a).use_count + 1) % UINT_MOD := by
    rw [ctor_copy_owning p m hpa0, hpa, add_ref_count]; rfl
  have ht : (intrusive_ptr.ctor_copy p m).live m.ptrs.length = true := by
    rw [ctor_copy_live]; simp
  have hq1 : (intrusive_ptr.ctor_copy p m).live q = true := by
    rw [ctor_copy_live]; simp [hq]
  have hqlt := live_lt hq
  have hplt := live_lt hp
  have hg2 := fun r => swap_get m.ptrs.length q (intrusive_ptr.ctor_copy p m) r ht hq1
  have hl2 := fun r => swap_live m.ptrs.length q (intrusive_ptr.ctor_copy p m) r ht hq1
  have hgt : (intrusive_ptr.swap m.ptrs.length q (intrusive_ptr.ctor_copy p m)).get
      m.ptrs.length = a := by
    rw [hg2, if_neg (Nat.ne_of_gt hqlt), if_pos rfl, ctor_copy_get, if_neg (Nat.ne_of_lt hqlt),
      hqa]
  have hgt0 : (intrusive_ptr.swap m.ptrs.length q (intrusive_ptr.ctor_copy p m)).get
      m.ptrs.length ≠ 0 := by rw [hgt]; exact ha
  have hfin : intrusive_ptr.assign_copy q p m
      = (intrusive_ptr_release a
          (intrusive_ptr.swap m.ptrs.length q (intrusive_ptr.ctor_copy p m))).free
          m.ptrs.length := by
    rw [intrusive_ptr.assign_copy, dtor_owning _ _ hgt0, hgt]
  have hc3 : ((intrusive_ptr.assign_copy q p m).obj a).use_count = (m.obj a).use_count := by
    rw [hfin, free_obj, release_count, swap_obj, h1c]
    simp only [UINT_MOD_eq] at *
    omega
  have hgp : (intrusive_ptr.assign_copy q p m).get p = a := by
    rw [intrusive_ptr.assign_copy, dtor_get, if_neg (Nat.ne_of_lt hplt), hg2]
    split_ifs with h1 h2
    · rw [ctor_copy_get, if_pos rfl, hpa]
    · exact absurd h2 (Nat.ne_of_lt hplt)
    · rw [ctor_copy_get, if_neg (Nat.ne_of_lt hplt), hpa]
  have hgq : (intrusive_ptr.assign_copy q p m).get q = a := by
    rw [intrusive_ptr.assign_copy, dtor_get, if_neg (Nat.ne_of_lt hqlt), hg2, if_pos rfl,
      ctor_copy_get, if_pos rfl, hpa]
  have hlp : (intrusive_ptr.assign_copy q p m).live p = true := by
    rw [intrusive_ptr.assign_copy, dtor_live, hl2, ctor_copy_live]
    simp [hp, Nat.ne_of_lt hplt]
  have hlq : (intrusive_ptr.assign_copy q p m).live q = true := by
    rw [intrusive_ptr.assign_copy, dtor_live, hl2, ctor_copy_live]
    simp [hq, Nat.ne_of_lt hqlt]
  have hdel : (intrusive_ptr.assign_copy q p m).deleted = m.deleted := by
    funext b
    rw [hfin, free_deleted, release_deleted, swap_deleted, ctor_copy_deleted, swap_obj]
    have h1c' : ((intrusive_ptr.ctor_copy p m).obj a).c = ((m.obj a).c + 1) % UINT_MOD := h1c
    have hn' : 1 ≤ (m.obj a).c := hn
    have hlt' : (m.obj a).c < UINT_MOD := hlt
    rw [if_neg]
    rintro ⟨_, h0⟩
    rw [h1c'] at h0
    simp only [UINT_MOD_eq] at *
    omega
  refine ⟨by rw [intrusive_ptr.assign_copy],
    fun conv hcv => assign_copy_conv_same conv q p m (by rw [hpa]; exact hcv),
    hlp, hgp, hlq, hgq, hc3, hdel, h1c, h1c, ?_⟩
  intro h
  have h1 : ((m.obj a).use_count + 1) % UINT_MOD = (m.obj a).use_count + 1 :=
    Nat.mod_eq_of_lt h
  refine ⟨?_, ?_, ?_⟩
  · rw [h1c, h1]; exact Nat.succ_ne_zero _
  · rw [swap_obj, h1c, h1]; exact Nat.succ_ne_zero _
  · rw [hc3]; exact Nat.ne_of_gt hn

theorem C6_copy_assign_alias_witness :
    ((intrusive_ptr.assign_copy 0 0 (intrusive_ptr.ctor_raw 7 true Memory.fresh)).obj 7).use_count
      = ((intrusive_ptr.ctor_raw 7 true Memory.fresh).obj 7).use_count ∧
    (intrusive_ptr.assign_copy 0 0 (intrusive_ptr.ctor_raw 7 true Memory.fresh)).get 0 = 7 ∧
    (intrusive_ptr.assign_copy 0 0 (intrusive_ptr.ctor_raw 7 true Memory.fresh)).deleted
      = (intrusive_ptr.ctor_raw 7 true Memory.fresh).deleted :=
  have h := C6_copy_assign_alias (intrusive_ptr.ctor_raw 7 true Memory.fresh) 0 0 7
    (by decide) (by decide) (by decide) (by decide) (by decide) (by decide) (by decide)
  ⟨h.2.2.2.2.2.2.1, h.2.2.2.1, h.2.2.2.2.2.2.2.1⟩


theorem Memory.ext_ptrs {m m' : Memory} (h1 : m'.obj = m.obj) (h2 : m'.deleted = m.deleted)
    (h3 : m'.ptrs = m.ptrs) (h4 : m'.ub = m.ub) : m' = m := by
  cases m
  cases m'
  simp only [Memory.mk.injEq]
  exact ⟨h1, h2, h3, h4⟩

theorem set_set_ptrs (l : List (Option intrusive_ptr)) (a b : Nat) (x y : Option intrusive_ptr)
    (ha : l[a]? = some x) (hb : l[b]? = some y) (u v : Option intrusive_ptr) :
    (((l.set a u).set b v).set a x).set b y = l := by
  apply List.ext_getElem?
  intro i
  simp only [List.getElem?_set, List.length_set]
  have hal : a < l.length := by
    rcases Nat.lt_or_ge a l.length with h | h
    · exact h
    · rw [List.getElem?_eq_none h] at ha; exact absurd ha (by simp)
  have hbl : b < l.length := by
    rcases Nat.lt_or_ge b l.length with h | h
    · exact h
    · rw [List.getElem?_eq_none h] at hb; exact absurd hb (by simp)
  by_cases h1 : b = i
  · subst h1; simp [hbl, hb]
  · by_cases h2 : a = i
    · subst h2; simp [h1, hal, ha]
    · simp [h1, h2]

/-- C9: `a.swap(b)`, and the free `swap(a, b)` alike, leaves in `a` the address `b` held and in
`b` the address `a` held, changes no other instance, no count and destroys nothing; swapping
twice restores the memory. -/
theorem C9_swap (m : Memory) (a b : Nat) (ha : m.live a = true) (hb : m.live b = true) :
    (intrusive_ptr.swap a b m).get a = m.get b ∧
    (intrusive_ptr.swap a b m).get b = m.get a ∧
    (intrusive_ptr.swap a b m).live a = true ∧
    (intrusive_ptr.swap a b m).live b = true ∧
    (∀ r, r ≠ a → r ≠ b → (intrusive_ptr.swap a b m).inst r = m.inst r) ∧
    (intrusive_ptr.swap a b m).obj = m.obj ∧
    (intrusive_ptr.swap a b m).deleted = m.deleted ∧
    intrusive_ptr.swap a b (intrusive_ptr.swap a b m) = m ∧
    swap a b m = intrusive_ptr.swap a b m := by
  have hg := fun r => swap_get a b m r ha hb
  have hl := fun r => swap_live a b m r ha hb
  refine ⟨?_, ?_, ?_, ?_, ?_, rfl, rfl, ?_, rfl⟩
  · rw [hg]
    by_cases h : a = b
    · rw [if_pos h, h]
    · rw [if_neg h, if_pos rfl]
  · rw [hg, if_pos rfl]
  · rw [hl]; exact ha
  · rw [hl]; exact hb
  · intro r h1 h2
    simp only [intrusive_ptr.swap, inst_set, set_length]
    simp [h1, h2]
  · have ha' : (intrusive_ptr.swap a b m).live a = true := by rw [hl]; exact ha
    have hb' : (intrusive_ptr.swap a b m).live b = true := by rw [hl]; exact hb
    refine Memory.ext_ptrs rfl rfl ?_ rfl
    have h1 : (intrusive_ptr.swap a b (intrusive_ptr.swap a b m)).ptrs
        = (((m.ptrs.set a (some ⟨m.get b⟩)).set b (some ⟨m.get a⟩)).set a
            (some ⟨(intrusive_ptr.swap a b m).get b⟩)).set b
            (some ⟨(intrusive_ptr.swap a b m).get a⟩) := rfl
    rw [h1, hg b, if_pos rfl, hg a]
    have h2 : (if a = b then m.get a else if a = a then m.get b else m.get a) = m.get b := by
      by_cases h : a = b
      · rw [if_pos h, h]
      · rw [if_neg h, if_pos rfl]
    rw [h2]
    exact set_set_ptrs m.ptrs a b _ _ (inst_eq_some (live_iff.1 ha))
      (inst_eq_some (live_iff.1 hb)) _ _

theorem C9_swap_witness :
    (intrusive_ptr.swap 0 1
      (intrusive_ptr.ctor_raw 8 true (intrusive_ptr.ctor_raw 7 true Memory.fresh))).get 0 = 8 ∧
    (intrusive_ptr.swap 0 1
      (intrusive_ptr.ctor_raw 8 true (intrusive_ptr.ctor_raw 7 true Memory.fresh))).get 1 = 7 ∧
    (intrusive_ptr.swap 0 1
      (intrusive_ptr.ctor_raw 8 true (intrusive_ptr.ctor_raw 7 true Memory.fresh))).obj
      = (intrusive_ptr.ctor_raw 8 true (intrusive_ptr.ctor_raw 7 true Memory.fresh)).obj :=
  have h := C9_swap (intrusive_ptr.ctor_raw 8 true (intrusive_ptr.ctor_raw 7 true Memory.fresh))
    0 1 (by decide) (by decide)
  ⟨by rw [h.1]; decide, by rw [h.2.1]; decide, h.2.2.2.2.2.1⟩

/-- C10: `p.detach()` returns the address `p` held (the null address if `p` was empty), leaves
`p` empty and every other instance as it was, changes no count and destroys nothing; the
destruction of `p` afterwards changes no count and destroys nothing either. -/
theorem C10_detach (m : Memory) (p : Nat) (hp : m.live p = true) :
    (intrusive_ptr.detach p m).1 = m.get p ∧
    (m.get p = 0 → (intrusive_ptr.detach p m).1 = 0) ∧
    (intrusive_ptr.detach p m).2.live p = true ∧
    (intrusive_ptr.detach p m).2.get p = 0 ∧
    (∀ r, r ≠ p → (intrusive_ptr.detach p m).2.inst r = m.inst r) ∧
    (intrusive_ptr.detach p m).2.obj = m.obj ∧
    (intrusive_ptr.detach p m).2.deleted = m.deleted ∧
    (intrusive_ptr.dtor p (intrusive_ptr.detach p m).2).obj = m.obj ∧
    (intrusive_ptr.dtor p (intrusive_ptr.detach p m).2).deleted = m.deleted := by
  have hg : (intrusive_ptr.detach p m).2.get p = 0 := by
    show (m.set p 0).get p = 0
    rw [get_set, if_pos ⟨rfl, live_lt hp⟩]
  refine ⟨rfl, fun h => h, ?_, hg, ?_, rfl, rfl, ?_, ?_⟩
  · show (m.set p 0).live p = true
    rw [live_set _ _ _ _ hp]; exact hp
  · intro r hr
    show (m.set p 0).inst r = m.inst r
    rw [inst_set]; simp [hr]
  · exact (dtor_empty p _ hg).1
  · exact (dtor_empty p _ hg).2

theorem C10_detach_witness :
    (intrusive_ptr.detach 0 (intrusive_ptr.ctor_raw 7 true Memory.fresh)).1 = 7 ∧
    (intrusive_ptr.detach 0 (intrusive_ptr.ctor_raw 7 true Memory.fresh)).2.get 0 = 0 ∧
    (intrusive_ptr.detach 0 (intrusive_ptr.ctor_raw 7 true Memory.fresh)).2.obj
      = (intrusive_ptr.ctor_raw 7 true Memory.fresh).obj :=
  have h := C10_detach (intrusive_ptr.ctor_raw 7 true Memory.fresh) 0 (by decide)
  ⟨by rw [h.1]; decide, h.2.2.2.1, h.2.2.2.2.2.1⟩


/-! ## More than 2^32 holders -/

theorem inst_append_left (m : Memory) (x : Option intrusive_ptr) (r : Nat)
    (hr : r < m.ptrs.length) :
    ({ m with ptrs := m.ptrs ++ [x] } : Memory).inst r = m.inst r := by
  unfold Memory.inst
  simp [List.getElem?_append_left hr]

theorem live_of_inst {m : Memory} {r : Nat} {x : intrusive_ptr} (h : m.inst r = some x) :
    m.live r = true ∧ m.get r = x.p := by
  unfold Memory.live Memory.get
  rw [h]
  exact ⟨rfl, rfl⟩

theorem ctor_copy_inst (rhs : Nat) (m : Memory) (r : Nat) (hr : r < m.ptrs.length) :
    (intrusive_ptr.ctor_copy rhs m).inst r = m.inst r := by
  unfold Memory.inst
  rw [ctor_copy_ptrs]
  simp [List.getElem?_append_left hr]

theorem ctor_copy_holders (rhs : Nat) (m : Memory) (a : Nat) :
    (intrusive_ptr.ctor_copy rhs m).holders a
      = m.holders a + if m.get rhs = a then 1 else 0 := by
  rw [ctor_copy_eq_ctor_raw, ctor_raw_holders]

theorem run_replicate_ctor_copy (isT : Nat → Bool) (r p n : Nat) (m : Memory)
    (hr : m.inst r = some ⟨p⟩) :
    (run isT (List.replicate n (Op.ctor_copy false r)) m).deleted p = m.deleted p ∧
    (run isT (List.replicate n (Op.ctor_copy false r)) m).holders p = m.holders p + n ∧
    (run isT (List.replicate n (Op.ctor_copy false r)) m).ptrs
      = m.ptrs ++ List.replicate n (some ⟨p⟩) := by
  induction n generalizing m with
  | zero => exact ⟨rfl, rfl, by simp [run]⟩
  | succ n ih =>
    have hl := live_of_inst hr
    have hs : step isT (Op.ctor_copy false r) m = intrusive_ptr.ctor_copy r m := by
      simp [step, hl.1]
    have hr' : (intrusive_ptr.ctor_copy r m).inst r = some ⟨p⟩ := by
      rw [ctor_copy_inst r m r (live_lt hl.1)]; exact hr
    rw [List.replicate_succ, run_cons, hs]
    obtain ⟨h1, h2, h3⟩ := ih (intrusive_ptr.ctor_copy r m) hr'
    rw [h1, h2, h3, ctor_copy_deleted, ctor_copy_holders, ctor_copy_ptrs, hl.2, if_pos rfl,
      List.append_assoc, List.singleton_append]
    exact ⟨rfl, by omega, rfl⟩

/-- With `n >= 1` copies of the one pointer that wrapped the object at 1, where `1 + n` is 1
modulo 2^32: the destruction of the first pointer destroys the object, and a copy of one of
the remaining pointers, destroyed in turn, destroys it again. -/
theorem destroyed_twice (isT : Nat → Bool) (n k : Nat) (hn : 1 ≤ n)
    (hmod : (1 + n) % UINT_MOD = 1) (hk : k = n + 1) :
    (run isT (Op.ctor_raw 1 :: (List.replicate n (Op.ctor_copy false 0)
      ++ [Op.dtor 0, Op.ctor_copy false 1, Op.dtor k])) Memory.fresh).deleted 1 = 2 := by
  subst hk
  have hw := wrapped_once 1 (Nat.succ_ne_zero 0)
  have hi0 : (intrusive_ptr.ctor_raw 1 true Memory.fresh).inst 0 = some ⟨1⟩ := by decide
  obtain ⟨h1, h2, h3⟩ := run_replicate_ctor_copy isT 0 1 n _ hi0
  rw [hw.1] at h1
  rw [hw.2.2] at h2
  have hp0 : (intrusive_ptr.ctor_raw 1 true Memory.fresh).ptrs = [some ⟨1⟩] := by decide
  rw [hp0] at h3
  -- the memory after the copies
  have hc := run_count isT 1 (Nat.succ_ne_zero 0) (List.replicate n (Op.ctor_copy false 0))
    (intrusive_ptr.ctor_raw 1 true Memory.fresh)
    (fun _ => by rw [hw.2.1, hw.2.2]; rfl) h1
  rw [h2, hmod] at hc
  rw [run_cons, run_append]
  have hstep : step isT (Op.ctor_raw 1) Memory.fresh
      = intrusive_ptr.ctor_raw 1 true Memory.fresh := rfl
  rw [hstep]
  generalize run isT (List.replicate n (Op.ctor_copy false 0))
    (intrusive_ptr.ctor_raw 1 true Memory.fresh) = s2 at h1 h2 h3 hc ⊢
  rw [run_cons, run_cons, run_cons, run_nil]
  have hlen : s2.ptrs.length = n + 1 := by
    rw [h3, List.length_append, List.length_replicate, List.length_singleton, Nat.add_comm]
  have hs0 : s2.inst 0 = some ⟨1⟩ := by
    unfold Memory.inst; rw [h3]; rfl
  have hs1 : s2.inst 1 = some ⟨1⟩ := by
    unfold Memory.inst
    rw [h3, List.getD_eq_getElem?_getD]
    obtain ⟨k, rfl⟩ : ∃ k, n = k + 1 := ⟨n - 1, by omega⟩
    simp [List.replicate_succ]
  -- the destruction of the first pointer
  have hl0 := live_of_inst hs0
  have hd0 : step isT (Op.dtor 0) s2 = (intrusive_ptr_release 1 s2).free 0 := by
    have : s2.get 0 ≠ 0 := by rw [hl0.2]; exact Nat.succ_ne_zero 0
    simp only [step, hl0.1, if_true]
    rw [dtor_owning 0 s2 this, hl0.2]
  have hc3 : (((intrusive_ptr_release 1 s2).free 0).obj 1).c = 0 := by
    rw [free_obj, release_obj, if_pos rfl, hc, UINT_MOD_eq]
  have hdel3 : ((intrusive_ptr_release 1 s2).free 0).deleted 1 = 1 := by
    rw [free_deleted, release_deleted, hc, h1, if_pos ⟨rfl, by rw [UINT_MOD_eq]⟩]
  have hi3 : ((intrusive_ptr_release 1 s2).free 0).inst 1 = some ⟨1⟩ := by
    rw [inst_free, if_neg (Nat.succ_ne_zero 0), release_inst]; exact hs1
  have hlen3 : ((intrusive_ptr_release 1 s2).free 0).ptrs.length = n + 1 := by
    rw [free_length, release_length]; exact hlen
  rw [hd0]
  generalize (intrusive_ptr_release 1 s2).free 0 = s3 at hc3 hdel3 hi3 hlen3 ⊢
  -- the copy of the second pointer
  have hl3 := live_of_inst hi3
  have hd3 : step isT (Op.ctor_copy false 1) s3
      = intrusive_ptr_add_ref 1 (s3.alloc 1) := by
    have : s3.get 1 ≠ 0 := by rw [hl3.2]; exact Nat.succ_ne_zero 0
    simp only [step, hl3.1, if_true, Bool.false_eq_true, if_false]
    rw [ctor_copy_owning 1 s3 this, hl3.2]
  have hc4 : ((intrusive_ptr_add_ref 1 (s3.alloc 1)).obj 1).c = 1 := by
    rw [add_ref_obj, if_pos rfl, alloc_obj, hc3, UINT_MOD_eq]
  have hdel4 : (intrusive_ptr_add_ref 1 (s3.alloc 1)).deleted 1 = 1 := hdel3
  have hi4 : (intrusive_ptr_add_ref 1 (s3.alloc 1)).inst (n + 1) = some ⟨1⟩ := by
    rw [add_ref_inst, inst_alloc, if_pos hlen3.symm]
  rw [hd3]
  generalize intrusive_ptr_add_ref 1 (s3.alloc 1) = s4 at hc4 hdel4 hi4 ⊢
  -- its destruction
  have hl4 := live_of_inst hi4
  have hd4 : step isT (Op.dtor (n + 1)) s4 = (intrusive_ptr_release 1 s4).free (n + 1) := by
    have : s4.get (n + 1) ≠ 0 := by rw [hl4.2]; exact Nat.succ_ne_zero 0
    simp only [step, hl4.1, if_true]
    rw [dtor_owning (n + 1) s4 this, hl4.2]
  have hdel5 : ((intrusive_ptr_release 1 s4).free (n + 1)).deleted 1 = 2 := by
    rw [free_deleted, release_deleted, hc4, hdel4, if_pos ⟨rfl, by rw [UINT_MOD_eq]⟩]
  rw [hd4]
  exact hdel5

/-- C2, as stated, fails: the object at 1 is wrapped once and the pointer copied 2^32 times,
which takes the count back to 1; the destruction of the first pointer destroys the object
while 2^32 pointers still hold it, and a copy of one of them, destroyed in turn, destroys the
object a second time. -/
theorem C2_counterexample :
    (run (fun _ => true) (Op.ctor_raw 1 :: (List.replicate 4294967296 (Op.ctor_copy false 0)
      ++ [Op.dtor 0, Op.ctor_copy false 1, Op.dtor 4294967297])) Memory.fresh).deleted 1 = 2 :=
  destroyed_twice (fun _ => true) 4294967296 4294967297 (by decide) (by decide) (by decide)


/-! ## Assignments and `reset` -/

theorem inst_eq_ite (m : Memory) (r : Nat) :
    m.inst r = if m.live r = true then some ⟨m.get r⟩ else none := by
  unfold Memory.live Memory.get
  cases h : m.inst r <;> simp

theorem inst_ext {m m' : Memory} {r r' : Nat} (h1 : m'.live r' = m.live r)
    (h2 : m'.get r' = m.get r) : m'.inst r' = m.inst r := by
  rw [inst_eq_ite m' r', inst_eq_ite m r, h1, h2]

/-- What the destructor does to the objects: one `intrusive_ptr_release` of the address the
instance holds, if it is not null. -/
theorem dtor_objects (x : Nat) (m : Memory) :
    (intrusive_ptr.dtor x m).obj
      = (if m.get x ≠ 0 then intrusive_ptr_release (m.get x) m else m).obj ∧
    (intrusive_ptr.dtor x m).deleted
      = (if m.get x ≠ 0 then intrusive_ptr_release (m.get x) m else m).deleted ∧
    (intrusive_ptr.dtor x m).ub
      = (if m.get x ≠ 0 then intrusive_ptr_release (m.get x) m else m).ub := by
  by_cases h : m.get x = 0
  · rw [dtor_null x m h, if_neg (not_not.2 h)]
    exact ⟨rfl, rfl, rfl⟩
  · rw [dtor_owning x m h, if_pos h]
    exact ⟨rfl, rfl, rfl⟩

/-- The scheme of every assignment and `reset`, in full: the objects are those the constructor
of the temporary leaves, after one `intrusive_ptr_release` of the address `*this` held if it
is not null; `*this` holds the address of the temporary, the temporary is gone, and every other
instance is as the constructor leaves it. -/
theorem assign_scheme (mk : Memory → Memory) (this : Nat) (m : Memory)
    (hlive : ∀ r, (mk m).live r = (decide (r = m.ptrs.length) || m.live r))
    (hthis : m.live this = true) :
    (intrusive_ptr.dtor m.ptrs.length (intrusive_ptr.swap m.ptrs.length this (mk m))).obj
      = (if (mk m).get this ≠ 0 then intrusive_ptr_release ((mk m).get this) (mk m)
          else mk m).obj ∧
    (intrusive_ptr.dtor m.ptrs.length (intrusive_ptr.swap m.ptrs.length this (mk m))).deleted
      = (if (mk m).get this ≠ 0 then intrusive_ptr_release ((mk m).get this) (mk m)
          else mk m).deleted ∧
    (intrusive_ptr.dtor m.ptrs.length (intrusive_ptr.swap m.ptrs.length this (mk m))).ub
      = (if (mk m).get this ≠ 0 then intrusive_ptr_release ((mk m).get this) (mk m)
          else mk m).ub ∧
    (∀ r,
      (intrusive_ptr.dtor m.ptrs.length (intrusive_ptr.swap m.ptrs.length this (mk m))).live r
        = (!decide (r = m.ptrs.length) && (mk m).live r)) ∧
    (∀ r,
      (intrusive_ptr.dtor m.ptrs.length (intrusive_ptr.swap m.ptrs.length this (mk m))).get r
        = if r = m.ptrs.length then 0 else if r = this then (mk m).get m.ptrs.length
          else (mk m).get r) := by
  have ht : (mk m).live m.ptrs.length = true := by rw [hlive]; simp
  have hthis1 : (mk m).live this = true := by rw [hlive]; simp [hthis]
  have hne : m.ptrs.length ≠ this := Nat.ne_of_gt (live_lt hthis)
  have hg := fun r => swap_get m.ptrs.length this (mk m) r ht hthis1
  have hl := fun r => swap_live m.ptrs.length this (mk m) r ht hthis1
  have hgt : (intrusive_ptr.swap m.ptrs.length this (mk m)).get m.ptrs.length
      = (mk m).get this := by
    rw [hg, if_neg hne, if_pos rfl]
  obtain ⟨h1, h2, h3⟩ := dtor_objects m.ptrs.length
    (intrusive_ptr.swap m.ptrs.length this (mk m))
  rw [hgt] at h1 h2 h3
  refine ⟨?_, ?_, ?_, ?_, ?_⟩
  · rw [h1]; split_ifs <;> rfl
  · rw [h2]; split_ifs <;> rfl
  · rw [h3]; split_ifs <;> rfl
  · intro r
    rw [dtor_live, hl]
  · intro r
    rw [dtor_get, hg]
    by_cases h4 : r = m.ptrs.length
    · simp only [if_pos h4]
    · by_cases h5 : r = this
      · simp only [if_neg h4, if_pos h5]
      · simp only [if_neg h4, if_neg h5]


theorem get_dead {m : Memory} {r : Nat} (h : m.live r = false) : m.get r = 0 := by
  unfold Memory.live at h
  unfold Memory.get
  cases h1 : m.inst r with
  | none => rfl
  | some x => rw [h1] at h; cases h

theorem live_length (m : Memory) : m.live m.ptrs.length = false := by
  cases h : m.live m.ptrs.length with
  | false => rfl
  | true => exact absurd (live_lt h) (Nat.lt_irrefl _)

theorem reset_raw_flag_eq (this a : Nat) (f : Bool) (m : Memory) :
    intrusive_ptr.reset_raw_flag this a f m
      = intrusive_ptr.dtor m.ptrs.length
          (intrusive_ptr.swap m.ptrs.length this (intrusive_ptr.ctor_raw a f m)) := rfl

theorem reset_raw_eq (this a : Nat) (m : Memory) :
    intrusive_ptr.reset_raw this a m = intrusive_ptr.reset_raw_flag this a true m := rfl

theorem reset_eq (this : Nat) (m : Memory) :
    intrusive_ptr.reset this m = intrusive_ptr.reset_raw_flag this 0 true m := by
  rw [reset_raw_flag_eq, ctor_raw_null]
  rfl

theorem assign_from_fresh_eq (this : Nat) (m : Memory) :
    assign_from_fresh this m = assign_from_fresh_raw this 0 true m := by
  unfold assign_from_fresh assign_from_fresh_raw
  rw [ctor_raw_null]
  rfl

theorem assign_move_eq (this rhs : Nat) (m : Memory) :
    intrusive_ptr.assign_move this rhs m
      = intrusive_ptr.dtor m.ptrs.length
          (intrusive_ptr.swap m.ptrs.length this (intrusive_ptr.ctor_move rhs m)) := rfl

/-- The state after `this->reset(a, f)`, in full. -/
theorem reset_raw_flag_spec (this a : Nat) (f : Bool) (m : Memory)
    (hthis : m.live this = true) :
    (intrusive_ptr.reset_raw_flag this a f m).obj
      = (if m.get this ≠ 0
          then intrusive_ptr_release (m.get this) (intrusive_ptr.ctor_raw a f m)
          else intrusive_ptr.ctor_raw a f m).obj ∧
    (intrusive_ptr.reset_raw_flag this a f m).deleted
      = (if m.get this ≠ 0
          then intrusive_ptr_release (m.get this) (intrusive_ptr.ctor_raw a f m)
          else intrusive_ptr.ctor_raw a f m).deleted ∧
    (intrusive_ptr.reset_raw_flag this a f m).ub
      = (if m.get this ≠ 0
          then intrusive_ptr_release (m.get this) (intrusive_ptr.ctor_raw a f m)
          else intrusive_ptr.ctor_raw a f m).ub ∧
    (∀ r, (intrusive_ptr.reset_raw_flag this a f m).live r = m.live r) ∧
    (∀ r, (intrusive_ptr.reset_raw_flag this a f m).get r
        = if r = this then a else m.get r) := by
  have hne : this ≠ m.ptrs.length := Nat.ne_of_lt (live_lt hthis)
  obtain ⟨h1, h2, h3, h4, h5⟩ :=
    assign_scheme (intrusive_ptr.ctor_raw a f) this m (ctor_raw_live a f m) hthis
  have hg : (intrusive_ptr.ctor_raw a f m).get this = m.get this := by
    rw [ctor_raw_get, if_neg hne]
  rw [hg] at h1 h2 h3
  rw [reset_raw_flag_eq]
  refine ⟨h1, h2, h3, ?_, ?_⟩
  · intro r
    rw [h4, ctor_raw_live]
    by_cases hr : r = m.ptrs.length
    · rw [hr, live_length]; simp
    · simp [hr]
  · intro r
    rw [h5, ctor_raw_get, ctor_raw_get, if_pos rfl]
    by_cases hr : r = m.ptrs.length
    · rw [if_pos hr, if_neg (by rw [hr]; exact fun h => hne h.symm), hr,
        get_dead (live_length m)]
    · rw [if_neg hr, if_neg hr]

/-- The state after `*this = intrusive_ptr(a, f);`, in full. -/
theorem assign_from_fresh_raw_spec (this a : Nat) (f : Bool) (m : Memory)
    (hthis : m.live this = true) :
    (assign_from_fresh_raw this a f m).obj
      = (if m.get this ≠ 0
          then intrusive_ptr_release (m.get this) (intrusive_ptr.ctor_raw a f m)
          else intrusive_ptr.ctor_raw a f m).obj ∧
    (assign_from_fresh_raw this a f m).deleted
      = (if m.get this ≠ 0
          then intrusive_ptr_release (m.get this) (intrusive_ptr.ctor_raw a f m)
          else intrusive_ptr.ctor_raw a f m).deleted ∧
    (assign_from_fresh_raw this a f m).ub
      = (if m.get this ≠ 0
          then intrusive_ptr_release (m.get this) (intrusive_ptr.ctor_raw a f m)
          else intrusive_ptr.ctor_raw a f m).ub ∧
    (∀ r, (assign_from_fresh_raw this a f m).live r = m.live r) ∧
    (∀ r, (assign_from_fresh_raw this a f m).get r
        = if r = this then a else m.get r) := by
  have hlt : this < m.ptrs.length := live_lt hthis
  have hne : this ≠ m.ptrs.length := Nat.ne_of_lt hlt
  have hL : (intrusive_ptr.ctor_raw a f m).live m.ptrs.length = true := by
    rw [ctor_raw_live]; simp
  have hthis1 : (intrusive_ptr.ctor_raw a f m).live this = true := by
    rw [ctor_raw_live, hthis]; simp
  have hlen := ctor_raw_length a f m
  obtain ⟨h1, h2, h3, h4, h5⟩ :=
    assign_scheme (intrusive_ptr.ctor_move m.ptrs.length) this (intrusive_ptr.ctor_raw a f m)
      (fun r => ctor_move_live m.ptrs.length (intrusive_ptr.ctor_raw a f m) r hL) hthis1
  have hg : (intrusive_ptr.ctor_move m.ptrs.length (intrusive_ptr.ctor_raw a f m)).get this
      = m.get this := by
    rw [ctor_move_get _ _ _ hL, hlen, if_neg (by omega), if_neg hne, ctor_raw_get, if_neg hne]
  rw [hg] at h1 h2 h3
  rw [← assign_move_eq] at h1 h2 h3 h4 h5
  have hgL : (intrusive_ptr.assign_move this m.ptrs.length
      (intrusive_ptr.ctor_raw a f m)).get m.ptrs.length = 0 := by
    rw [h5, hlen, if_neg (by omega), if_neg (fun h => hne h.symm), ctor_move_get _ _ _ hL,
      hlen, if_neg (by omega), if_pos rfl]
  have hd := dtor_null m.ptrs.length
    (intrusive_ptr.assign_move this m.ptrs.length (intrusive_ptr.ctor_raw a f m)) hgL
  have he : assign_from_fresh_raw this a f m
      = (intrusive_ptr.assign_move this m.ptrs.length (intrusive_ptr.ctor_raw a f m)).free
          m.ptrs.length := by
    rw [← hd]; rfl
  rw [he]
  refine ⟨?_, ?_, ?_, ?_, ?_⟩
  · rw [free_obj, h1]; split_ifs <;> rfl
  · rw [free_deleted, h2]; split_ifs <;> rfl
  · rw [free_ub, h3]; split_ifs <;> rfl
  · intro r
    rw [live_free, h4, ctor_move_live _ _ _ hL, ctor_raw_live, hlen]
    by_cases hr : r = m.ptrs.length
    · rw [hr, live_length]; simp
    · by_cases hr1 : r = m.ptrs.length + 1
      · have hdead : m.live r = false := by
          cases h : m.live r with
          | false => rfl
          | true => have := live_lt h; omega
        rw [hdead]; simp [hr1]
      · simp [hr, hr1]
  · intro r
    rw [get_free, h5, hlen, ctor_move_get _ _ _ hL, ctor_move_get _ _ _ hL, hlen, if_pos rfl,
      ctor_raw_get, ctor_raw_get, if_pos rfl]
    by_cases hr : r = m.ptrs.length
    · rw [if_pos hr, if_neg (by rw [hr]; exact fun h => hne h.symm), hr,
        get_dead (live_length m)]
    · rw [if_neg hr]
      by_cases hr1 : r = m.ptrs.length + 1
      · have hdead : m.live r = false := by
          cases h : m.live r with
          | false => rfl
          | true => have := live_lt h; omega
        rw [if_pos hr1, if_neg (by omega), get_dead hdead]
      · rw [if_neg hr1]
        by_cases hr2 : r = this
        · rw [if_pos hr2, if_pos hr2]
        · rw [if_neg hr2, if_neg hr2, if_neg hr1, if_neg hr, if_neg hr]


theorem reset_same_state (this a : Nat) (f : Bool) (m : Memory) (hthis : m.live this = true) :
    (intrusive_ptr.reset_raw_flag this a f m).same_state (assign_from_fresh_raw this a f m) := by
  obtain ⟨h1, h2, h3, h4, h5⟩ := reset_raw_flag_spec this a f m hthis
  obtain ⟨k1, k2, k3, k4, k5⟩ := assign_from_fresh_raw_spec this a f m hthis
  refine ⟨h1.trans k1.symm, h2.trans k2.symm, h3.trans k3.symm, fun r => ?_⟩
  exact inst_ext ((h4 r).trans (k4 r).symm) ((h5 r).trans (k5 r).symm)

/-- C11: `reset` is assignment from a fresh pointer. For every instance `this`, address `a` and
flag `f`, `this->reset()` leaves the same pointer and heap state as `*this = intrusive_ptr()`,
`this->reset(a)` the same as `*this = intrusive_ptr(a)`, and `this->reset(a, f)` the same as
`*this = intrusive_ptr(a, f)`: the same counters, the same deletions, and every instance holds
the same address. In particular `this->reset()` on an instance holding a non-null address
leaves it empty and every other instance as it was, and its only effect on the objects is one
`intrusive_ptr_release` of the address held: with a count `c ≥ 1` the count becomes `c - 1`,
and no other object changes. -/
theorem C11_reset_is_assignment_from_fresh (this a : Nat) (f : Bool) (m : Memory)
    (hthis : m.live this = true) :
    (intrusive_ptr.reset this m).same_state (assign_from_fresh this m) ∧
    (intrusive_ptr.reset_raw this a m).same_state (assign_from_fresh_raw this a true m) ∧
    (intrusive_ptr.reset_raw_flag this a f m).same_state (assign_from_fresh_raw this a f m) ∧
    (m.get this ≠ 0 →
      (intrusive_ptr.reset this m).live this = true ∧
      (intrusive_ptr.reset this m).get this = 0 ∧
      (∀ r, r ≠ this → (intrusive_ptr.reset this m).inst r = m.inst r) ∧
      (intrusive_ptr.reset this m).obj = (intrusive_ptr_release (m.get this) m).obj ∧
      (intrusive_ptr.reset this m).deleted = (intrusive_ptr_release (m.get this) m).deleted ∧
      (1 ≤ (m.obj (m.get this)).use_count → (m.obj (m.get this)).use_count < UINT_MOD →
        ((intrusive_ptr.reset this m).obj (m.get this)).use_count
          = (m.obj (m.get this)).use_count - 1) ∧
      (∀ b, b ≠ m.get this → (intrusive_ptr.reset this m).obj b = m.obj b)) := by
  refine ⟨?_, ?_, reset_same_state this a f m hthis, ?_⟩
  · rw [reset_eq, assign_from_fresh_eq]
    exact reset_same_state this 0 true m hthis
  · rw [reset_raw_eq]
    exact reset_same_state this a true m hthis
  · intro h0
    obtain ⟨h1, h2, _, h4, h5⟩ := reset_raw_flag_spec this 0 true m hthis
    rw [← reset_eq] at h1 h2 h4 h5
    rw [if_pos h0, ctor_raw_null] at h1 h2
    have hobj : (intrusive_ptr.reset this m).obj = (intrusive_ptr_release (m.get this) m).obj :=
      h1
    have hdel : (intrusive_ptr.reset this m).deleted
        = (intrusive_ptr_release (m.get this) m).deleted := h2
    refine ⟨by rw [h4, hthis], by rw [h5, if_pos rfl], ?_, hobj, hdel, ?_, ?_⟩
    · intro r hr
      refine inst_ext (h4 r) ?_
      rw [h5, if_neg hr]
    · intro hc1 hc2
      rw [hobj, release_count]
      rw [UINT_MOD_eq] at hc2 ⊢
      omega
    · intro b hb
      rw [hobj, release_obj_ne _ _ _ hb]

theorem C11_reset_is_assignment_from_fresh_witness :
    (intrusive_ptr.reset_raw_flag 0 8 false
        (intrusive_ptr.ctor_raw 7 true Memory.fresh)).same_state
      (assign_from_fresh_raw 0 8 false (intrusive_ptr.ctor_raw 7 true Memory.fresh)) ∧
    (intrusive_ptr.reset 0 (intrusive_ptr.ctor_raw 7 true Memory.fresh)).get 0 = 0 ∧
    ((intrusive_ptr.reset 0 (intrusive_ptr.ctor_raw 7 true Memory.fresh)).obj 7).use_count
      = 0 :=
  have h := C11_reset_is_assignment_from_fresh 0 8 false
    (intrusive_ptr.ctor_raw 7 true Memory.fresh) (by decide)
  have h7 : (intrusive_ptr.ctor_raw 7 true Memory.fresh).get 0 = 7 := by decide
  have hc : ((intrusive_ptr.ctor_raw 7 true Memory.fresh).obj 7).use_count = 1 := by decide
  ⟨h.2.2.1, (h.2.2.2 (by decide)).2.1, by
    have h2 := (h.2.2.2 (by decide)).2.2.2.2.2.1
    rw [h7, hc] at h2
    exact h2 (Nat.le_refl 1) (by decide)⟩


/-! ## Destruction, `intrusive_ptr_add_ref` and `intrusive_ptr_release` -/

theorem release_deleted_ne (p : Nat) (m : Memory) (b : Nat) (h : b ≠ p) :
    (intrusive_ptr_release p m).deleted b = m.deleted b := by
  rw [release_deleted, if_neg (fun h1 => h h1.1)]

theorem dtor_inst_ne (x : Nat) (m : Memory) (r : Nat) (h : r ≠ x) :
    (intrusive_ptr.dtor x m).inst r = m.inst r := by
  refine inst_ext ?_ ?_
  · rw [dtor_live]; simp [h]
  · rw [dtor_get, if_neg h]

/-- C12, as stated, fails: with 2^32 - 1 holders the object at 1 has count 2^32 - 1 and is not
destroyed, and `intrusive_ptr_add_ref` leaves its count at 0: the count is not raised by 1. -/
theorem C12_counterexample :
    Memory.saturated.deleted 1 = 0 ∧ (Memory.saturated.obj 1).use_count = 4294967295 ∧
    ((intrusive_ptr_add_ref 1 Memory.saturated).obj 1).use_count = 0 ∧
    ((intrusive_ptr_add_ref 1 Memory.saturated).obj 1).use_count
      ≠ (Memory.saturated.obj 1).use_count + 1 := by
  obtain ⟨h1, h2, _⟩ := saturated_facts
  have h3 : ((intrusive_ptr_add_ref 1 Memory.saturated).obj 1).use_count = 0 := by
    rw [add_ref_count, h2, UINT_MOD_eq]
  refine ⟨h1, h2, h3, ?_⟩
  rw [h3, h2]
  exact (Nat.succ_ne_zero 4294967295).symm

/-- C12 (amended): the destruction of an instance holding the null address changes no counter,
destroys nothing and leaves every other instance as it was.  The destruction of an instance
holding `a ≠ 0`, whose object has count `c` with `1 ≤ c` (and `c < 2^32`, the range of the
counter), sets the count to `c - 1`, destroys the object if and only if `c = 1`, and changes
the counter and the deletions of no other object.  `intrusive_ptr_add_ref(p)` sets the count to
`(c + 1) mod 2^32`, which is `c + 1` unless `c = 2^32 - 1`, destroys nothing and changes no
other counter. -/
theorem C12_destroy_and_release (m : Memory) (x p : Nat) :
    (m.get x = 0 →
      (intrusive_ptr.dtor x m).obj = m.obj ∧ (intrusive_ptr.dtor x m).deleted = m.deleted ∧
      ∀ r, r ≠ x → (intrusive_ptr.dtor x m).inst r = m.inst r) ∧
    (m.get x ≠ 0 → 1 ≤ (m.obj (m.get x)).use_count → (m.obj (m.get x)).use_count < UINT_MOD →
      ((intrusive_ptr.dtor x m).obj (m.get x)).use_count = (m.obj (m.get x)).use_count - 1 ∧
      ((intrusive_ptr.dtor x m).deleted (m.get x) = m.deleted (m.get x) + 1
        ↔ (m.obj (m.get x)).use_count = 1) ∧
      ((m.obj (m.get x)).use_count ≠ 1 →
        (intrusive_ptr.dtor x m).deleted (m.get x) = m.deleted (m.get x)) ∧
      (∀ b, b ≠ m.get x →
        (intrusive_ptr.dtor x m).obj b = m.obj b ∧
        (intrusive_ptr.dtor x m).deleted b = m.deleted b) ∧
      ∀ r, r ≠ x → (intrusive_ptr.dtor x m).inst r = m.inst r) ∧
    ((intrusive_ptr_add_ref p m).obj p).use_count = ((m.obj p).use_count + 1) % UINT_MOD ∧
    ((m.obj p).use_count + 1 < UINT_MOD →
      ((intrusive_ptr_add_ref p m).obj p).use_count = (m.obj p).use_count + 1) ∧
    (intrusive_ptr_add_ref p m).deleted = m.deleted ∧
    (∀ b, b ≠ p → (intrusive_ptr_add_ref p m).obj b = m.obj b) ∧
    (∀ r, (intrusive_ptr_add_ref p m).inst r = m.inst r) := by
  refine ⟨?_, ?_, add_ref_count p m, ?_, add_ref_deleted p m, ?_, add_ref_inst p m⟩
  · intro h0
    exact ⟨(dtor_empty x m h0).1, (dtor_empty x m h0).2, fun r hr => dtor_inst_ne x m r hr⟩
  · intro h0 hc1 hc2
    have hc : ((intrusive_ptr.dtor x m).obj (m.get x)).use_count
        = (m.obj (m.get x)).use_count - 1 := by
      rw [dtor_owning x m h0, free_obj, release_count]
      rw [UINT_MOD_eq] at hc2 ⊢
      omega
    have hd : (intrusive_ptr.dtor x m).deleted (m.get x)
        = if (m.obj (m.get x)).use_count = 1 then m.deleted (m.get x) + 1
          else m.deleted (m.get x) := by
      rw [dtor_owning x m h0, free_deleted, release_deleted]
      unfold intrusive_ref_counter.use_count at hc1 hc2 ⊢
      rw [UINT_MOD_eq] at hc2 ⊢
      by_cases h1 : (m.obj (m.get x)).c = 1
      · rw [if_pos h1, if_pos ⟨rfl, by rw [h1]⟩]
      · rw [if_neg h1, if_neg (fun h => h1 (by omega))]
    refine ⟨hc, ?_, ?_, ?_, fun r hr => dtor_inst_ne x m r hr⟩
    · rw [hd]
      by_cases h1 : (m.obj (m.get x)).use_count = 1
      · rw [if_pos h1]; exact ⟨fun _ => h1, fun _ => rfl⟩
      · rw [if_neg h1]
        exact ⟨fun h => absurd h (by omega), fun h => absurd h h1⟩
    · intro h1
      rw [hd, if_neg h1]
    · intro b hb
      rw [dtor_owning x m h0, free_obj, free_deleted]
      exact ⟨release_obj_ne _ _ _ hb, release_deleted_ne _ _ _ hb⟩
  · intro h
    rw [add_ref_count, Nat.mod_eq_of_lt h]
  · intro b hb
    exact add_ref_obj_ne p m b hb

theorem C12_destroy_and_release_witness :
    ((intrusive_ptr.dtor 0 (intrusive_ptr.ctor_raw 7 true Memory.fresh)).obj 7).use_count = 0 ∧
    (intrusive_ptr.dtor 0 (intrusive_ptr.ctor_raw 7 true Memory.fresh)).deleted 7 = 1 ∧
    (intrusive_ptr.dtor 0 (intrusive_ptr.ctor Memory.fresh)).obj
      = (intrusive_ptr.ctor Memory.fresh).obj ∧
    ((intrusive_ptr_add_ref 7 Memory.fresh).obj 7).use_count = 1 :=
  have h := C12_destroy_and_release (intrusive_ptr.ctor_raw 7 true Memory.fresh) 0 7
  have h7 : (intrusive_ptr.ctor_raw 7 true Memory.fresh).get 0 = 7 := by decide
  have hc : ((intrusive_ptr.ctor_raw 7 true Memory.fresh).obj 7).use_count = 1 := by decide
  have hd : (intrusive_ptr.ctor_raw 7 true Memory.fresh).deleted 7 = 0 := by decide
  have h2 := h.2.1 (by decide) (by rw [h7, hc]) (by rw [h7, hc]; decide)
  ⟨by
    have h3 := h2.1
    rw [h7, hc] at h3
    exact h3,
   by
    have h3 := h2.2.1.2
    rw [h7, hc, hd] at h3
    exact h3 rfl,
   ((C12_destroy_and_release (intrusive_ptr.ctor Memory.fresh) 0 7).1 (by decide)).1,
   ((C12_destroy_and_release Memory.fresh 0 7).2.2.2.1 (by decide))⟩


/-! ## The counter of a copied object, `shared_from_this`, comparisons -/

/-- C13: copying the managed object never copies ownership.  A copy-constructed
`intrusive_ref_counter` has `use_count` 0 whatever the count of its source; when the object at
`dst` is copy-constructed from the object at `src ≠ dst`, the new object has count 0, the
source and every other object keep their counters, nothing is destroyed and no instance
changes.  The assignment operator returns the target unchanged: after `dst = src` every object,
the two included, has the count it had, nothing is destroyed and no instance changes. -/
theorem C13_copy_object (x y : intrusive_ref_counter) (m : Memory) (dst src : Nat) :
    (intrusive_ref_counter.ctor_copy x).use_count = 0 ∧
    (x.assign y).use_count = x.use_count ∧
    x.assign y = x ∧
    ((m.copy_construct_object dst src).obj dst).use_count = 0 ∧
    (src ≠ dst →
      ((m.copy_construct_object dst src).obj src).use_count = (m.obj src).use_count) ∧
    (∀ b, b ≠ dst → (m.copy_construct_object dst src).obj b = m.obj b) ∧
    (m.copy_construct_object dst src).deleted = m.deleted ∧
    (m.copy_construct_object dst src).ptrs = m.ptrs ∧
    ((m.assign_object dst src).obj dst).use_count = (m.obj dst).use_count ∧
    ((m.assign_object dst src).obj src).use_count = (m.obj src).use_count ∧
    (m.assign_object dst src).obj = m.obj ∧
    (m.assign_object dst src).deleted = m.deleted ∧
    (m.assign_object dst src).ptrs = m.ptrs := by
  have h1 : ∀ b, b ≠ dst → (m.copy_construct_object dst src).obj b = m.obj b := by
    intro b hb
    unfold Memory.copy_construct_object
    exact Function.update_noteq hb _ _
  have h2 : (m.assign_object dst src).obj = m.obj := by
    unfold Memory.assign_object intrusive_ref_counter.assign
    exact Function.update_eq_self dst m.obj
  refine ⟨rfl, rfl, rfl, ?_, fun h => by rw [h1 src h], h1, rfl, rfl, by rw [h2], by rw [h2],
    h2, rfl, rfl⟩
  unfold Memory.copy_construct_object
  simp [intrusive_ref_counter.ctor_copy, intrusive_ref_counter.use_count]

theorem C13_copy_object_witness :
    (((intrusive_ptr.ctor_raw 7 true Memory.fresh).copy_construct_object 8 7).obj 8).use_count
      = 0 ∧
    (((intrusive_ptr.ctor_raw 7 true Memory.fresh).copy_construct_object 8 7).obj 7).use_count
      = 1 ∧
    (((intrusive_ptr.ctor_raw 7 true Memory.fresh).assign_object 8 7).obj 8).use_count = 0 :=
  have h := C13_copy_object ⟨1⟩ ⟨0⟩ (intrusive_ptr.ctor_raw 7 true Memory.fresh) 8 7
  have hc : ((intrusive_ptr.ctor_raw 7 true Memory.fresh).obj 7).use_count = 1 := by decide
  have hc8 : ((intrusive_ptr.ctor_raw 7 true Memory.fresh).obj 8).use_count = 0 := by decide
  ⟨h.2.2.2.1, (h.2.2.2.2.1 (by decide)).trans hc, h.2.2.2.2.2.2.2.2.1.trans hc8⟩

/-- C14, as stated, fails: with 2^32 - 1 holders the object at 1 is owned (count 2^32 - 1, not
destroyed), and `shared_from_this()` leaves its count at 0, not at `c + 1`. -/
theorem C14_counterexample :
    Memory.saturated.deleted 1 = 0 ∧ 1 ≤ (Memory.saturated.obj 1).use_count ∧
    (Memory.saturated.obj 1).use_count = 4294967295 ∧
    ((intrusive_ref_counter.shared_from_this 1 Memory.saturated).obj 1).use_count = 0 ∧
    ((intrusive_ref_counter.shared_from_this 1 Memory.saturated).obj 1).use_count
      ≠ (Memory.saturated.obj 1).use_count + 1 := by
  obtain ⟨h1, h2, _⟩ := saturated_facts
  have h3 : ((intrusive_ref_counter.shared_from_this 1 Memory.saturated).obj 1).use_count
      = 0 := by
    rw [shared_from_this_eq, ctor_raw_add_ref 1 Memory.saturated (Nat.succ_ne_zero 0),
      add_ref_count, alloc_obj, h2, UINT_MOD_eq]
  refine ⟨h1, by rw [h2]; exact Nat.succ_pos _, h2, h3, ?_⟩
  rw [h3, h2]
  exact (Nat.succ_ne_zero 4294967295).symm

/-- C14 (amended): for an object at the non-null address `this` with count `c`,
`shared_from_this()` constructs a new instance, which is non-empty and holds `this`; the count
of the object becomes `(c + 1) mod 2^32`, which is `c + 1` unless `c = 2^32 - 1`; no other
object's counter changes, nothing is destroyed, and every existing instance is as it was. -/
theorem C14_shared_from_this (m : Memory) (this : Nat) (h0 : this ≠ 0) :
    (intrusive_ref_counter.shared_from_this this m).live m.ptrs.length = true ∧
    intrusive_ptr.get m.ptrs.length (intrusive_ref_counter.shared_from_this this m) = this ∧
    intrusive_ptr.toBool m.ptrs.length (intrusive_ref_counter.shared_from_this this m)
      = true ∧
    ((intrusive_ref_counter.shared_from_this this m).obj this).use_count
      = ((m.obj this).use_count + 1) % UINT_MOD ∧
    ((m.obj this).use_count + 1 < UINT_MOD →
      ((intrusive_ref_counter.shared_from_this this m).obj this).use_count
        = (m.obj this).use_count + 1) ∧
    (∀ b, b ≠ this → (intrusive_ref_counter.shared_from_this this m).obj b = m.obj b) ∧
    (intrusive_ref_counter.shared_from_this this m).deleted = m.deleted ∧
    (∀ r, r < m.ptrs.length →
      (intrusive_ref_counter.shared_from_this this m).inst r = m.inst r) := by
  obtain ⟨h1, h2, h3, h4, _, h6⟩ := ctor_raw_spec this m
  obtain ⟨h7, h8, h9⟩ := h4 h0
  rw [shared_from_this_eq]
  refine ⟨h1, h2, ?_, h7, h8, h9, h6, h3⟩
  unfold intrusive_ptr.toBool
  rw [h2]
  exact decide_eq_true h0

theorem C14_shared_from_this_witness :
    intrusive_ptr.get 1
      (intrusive_ref_counter.shared_from_this 7 (intrusive_ptr.ctor_raw 7 true Memory.fresh))
      = 7 ∧
    ((intrusive_ref_counter.shared_from_this 7
      (intrusive_ptr.ctor_raw 7 true Memory.fresh)).obj 7).use_count = 2 :=
  have h := C14_shared_from_this (intrusive_ptr.ctor_raw 7 true Memory.fresh) 7 (by decide)
  have hc : ((intrusive_ptr.ctor_raw 7 true Memory.fresh).obj 7).use_count = 1 := by decide
  ⟨h.2.1, by
    have h2 := h.2.2.2.2.1
    rw [hc] at h2
    exact h2 (by decide)⟩


theorem release_congr (x : Nat) (m m' : Memory) (h1 : m'.obj = m.obj)
    (h2 : m'.deleted = m.deleted) :
    (intrusive_ptr_release x m').obj = (intrusive_ptr_release x m).obj ∧
    (intrusive_ptr_release x m').deleted = (intrusive_ptr_release x m).deleted := by
  constructor
  · funext b
    cases hb : (intrusive_ptr_release x m').obj b with
    | mk c =>
      cases hb' : (intrusive_ptr_release x m).obj b with
      | mk c' =>
        have e1 := release_obj x m' b
        have e2 := release_obj x m b
        rw [hb] at e1
        rw [hb'] at e2
        rw [h1] at e1
        have : c = c' := e1.trans e2.symm
        rw [this]
  · funext b
    rw [release_deleted, release_deleted, h1, h2]

/-- A move assignment `q = std::move(p)` between two distinct instances, in full, for the
move constructor `mk` of the temporary, which gives the temporary the address `v`, leaves `p`
empty and touches no object. -/
theorem move_assign_scheme (mk : Memory → Memory) (v : Nat) (m res : Memory) (q p : Nat)
    (hq : m.live q = true) (hp : m.live p = true) (hpq : p ≠ q)
    (hlive : ∀ r, (mk m).live r = (decide (r = m.ptrs.length) || m.live r))
    (hget : ∀ r, (mk m).get r
      = if r = m.ptrs.length then v else if r = p then 0 else m.get r)
    (hobj : (mk m).obj = m.obj) (hdel : (mk m).deleted = m.deleted)
    (hres : res = intrusive_ptr.dtor m.ptrs.length
      (intrusive_ptr.swap m.ptrs.length q (mk m))) :
    res.live q = true ∧
    res.live p = true ∧
    res.get q = v ∧
    res.get p = 0 ∧
    (∀ r, r ≠ p → r ≠ q → res.inst r = m.inst r) ∧
    (m.get q = 0 → res.obj = m.obj ∧ res.deleted = m.deleted) ∧
    (m.get q ≠ 0 →
      res.obj = (intrusive_ptr_release (m.get q) m).obj ∧
      res.deleted = (intrusive_ptr_release (m.get q) m).deleted ∧
      (res.obj (m.get q)).use_count
        = ((m.obj (m.get q)).use_count + UINT_MOD - 1) % UINT_MOD ∧
      (1 ≤ (m.obj (m.get q)).use_count → (m.obj (m.get q)).use_count < UINT_MOD →
        (res.obj (m.get q)).use_count = (m.obj (m.get q)).use_count - 1) ∧
      (res.deleted (m.get q) = m.deleted (m.get q) + 1
        ↔ (res.obj (m.get q)).use_count = 0) ∧
      ((res.obj (m.get q)).use_count ≠ 0 → res.deleted (m.get q) = m.deleted (m.get q)) ∧
      ∀ b, b ≠ m.get q → res.obj b = m.obj b ∧ res.deleted b = m.deleted b) := by
  have hqL : q ≠ m.ptrs.length := Nat.ne_of_lt (live_lt hq)
  have hpL : p ≠ m.ptrs.length := Nat.ne_of_lt (live_lt hp)
  obtain ⟨h1, h2, _, h4, h5⟩ := assign_scheme mk q m hlive hq
  have hg : (mk m).get q = m.get q := by
    rw [hget, if_neg hqL, if_neg (fun h => hpq h.symm)]
  rw [hg, ← hres] at h1 h2
  rw [← hres] at h4 h5
  have hlive' : ∀ r, res.live r = m.live r := by
    intro r
    rw [h4, hlive]
    by_cases hr : r = m.ptrs.length
    · rw [hr, live_length]; simp
    · simp [hr]
  refine ⟨by rw [hlive', hq], by rw [hlive', hp], ?_, ?_, ?_, ?_, ?_⟩
  · rw [h5, if_neg hqL, if_pos rfl, hget, if_pos rfl]
  · rw [h5, if_neg hpL, if_neg hpq, hget, if_neg hpL, if_pos rfl]
  · intro r hrp hrq
    refine inst_ext (hlive' r) ?_
    rw [h5]
    by_cases hr : r = m.ptrs.length
    · rw [if_pos hr, hr, get_dead (live_length m)]
    · rw [if_neg hr, if_neg hrq, hget, if_neg hr, if_neg hrp]
  · intro h0
    rw [if_neg (not_not.2 h0)] at h1 h2
    exact ⟨h1.trans hobj, h2.trans hdel⟩
  · intro h0
    rw [if_pos h0] at h1 h2
    have hro := release_congr (m.get q) m (mk m) hobj hdel
    have hobj' : res.obj = (intrusive_ptr_release (m.get q) m).obj := h1.trans hro.1
    have hdel' : res.deleted = (intrusive_ptr_release (m.get q) m).deleted := h2.trans hro.2
    have hc : (res.obj (m.get q)).use_count
        = ((m.obj (m.get q)).use_count + UINT_MOD - 1) % UINT_MOD := by
      rw [hobj', release_count]
    have hd : res.deleted (m.get q)
        = if (res.obj (m.get q)).use_count = 0
          then m.deleted (m.get q) + 1 else m.deleted (m.get q) := by
      rw [hc, hdel', release_deleted]
      unfold intrusive_ref_counter.use_count
      by_cases hz : ((m.obj (m.get q)).c + UINT_MOD - 1) % UINT_MOD = 0
      · rw [if_pos ⟨rfl, hz⟩, if_pos hz]
      · rw [if_neg (fun h => hz h.2), if_neg hz]
    refine ⟨hobj', hdel', hc, ?_, ?_, ?_, ?_⟩
    · intro hc1 hc2
      rw [hc]
      rw [UINT_MOD_eq] at hc2 ⊢
      omega
    · rw [hd]
      by_cases hz : (res.obj (m.get q)).use_count = 0
      · rw [if_pos hz]; exact ⟨fun _ => hz, fun _ => rfl⟩
      · rw [if_neg hz]
        exact ⟨fun h => absurd h (by omega), fun h => absurd h hz⟩
    · intro hz
      rw [hd, if_neg hz]
    · intro b hb
      rw [hobj', hdel']
      exact ⟨release_obj_ne _ _ _ hb, release_deleted_ne _ _ _ hb⟩

/-- C16, as stated, fails: a converting move assignment does not give `q` the address `p` held
when the conversion `U * → T *` adjusts the pointer.  From an `intrusive_ptr<U>` `p` that
holds 448, where the `T` sub-object lies 16 bytes into the object, `q = std::move(p)` leaves
`q` holding 464. -/
theorem C16_counterexample :
    (intrusive_ptr.ctor_raw 7 true (intrusive_ptr.ctor_raw 448 false Memory.fresh)).live 0
      = true ∧
    (intrusive_ptr.ctor_raw 7 true (intrusive_ptr.ctor_raw 448 false Memory.fresh)).live 1
      = true ∧
    (intrusive_ptr.ctor_raw 7 true (intrusive_ptr.ctor_raw 448 false Memory.fresh)).get 0
      = 448 ∧
    (intrusive_ptr.assign_move_conv (fun a => a + 16) 1 0
      (intrusive_ptr.ctor_raw 7 true (intrusive_ptr.ctor_raw 448 false Memory.fresh))).get 1
      = 464 ∧
    (intrusive_ptr.assign_move_conv (fun a => a + 16) 1 0
      (intrusive_ptr.ctor_raw 7 true (intrusive_ptr.ctor_raw 448 false Memory.fresh))).get 1
      ≠ (intrusive_ptr.ctor_raw 7 true
          (intrusive_ptr.ctor_raw 448 false Memory.fresh)).get 0 := by
  decide

/-- C16 (amended): move assignment between two distinct instances.  After `q = std::move(p)`,
`p` is empty and every other instance is as it was.  After the same-type assignment `q` holds
the address `p` held; after the converting one it holds that address converted to its own
pointer type, `static_cast conv (m.get p)`, which is the same address exactly when the
conversion adjusts nothing (the assignment is then the same-type one).  If `q` was empty no
counter changes and nothing is destroyed; otherwise the objects are exactly as after one
`intrusive_ptr_release` of the address `q` held: its count is one lower (modulo 2^32), it is
destroyed if and only if this new count is 0, and no other object changes. -/
theorem C16_move_assign (m : Memory) (q p : Nat) (conv : Nat → Nat)
    (hq : m.live q = true) (hp : m.live p = true) (hpq : p ≠ q) :
    ((intrusive_ptr.assign_move q p m).live q = true ∧
      (intrusive_ptr.assign_move q p m).live p = true ∧
      (intrusive_ptr.assign_move q p m).get q = m.get p ∧
      (intrusive_ptr.assign_move q p m).get p = 0 ∧
      (∀ r, r ≠ p → r ≠ q → (intrusive_ptr.assign_move q p m).inst r = m.inst r) ∧
      (m.get q = 0 →
        (intrusive_ptr.assign_move q p m).obj = m.obj ∧
        (intrusive_ptr.assign_move q p m).deleted = m.deleted) ∧
      (m.get q ≠ 0 →
        (intrusive_ptr.assign_move q p m).obj = (intrusive_ptr_release (m.get q) m).obj ∧
        (intrusive_ptr.assign_move q p m).deleted
          = (intrusive_ptr_release (m.get q) m).deleted ∧
        ((intrusive_ptr.assign_move q p m).obj (m.get q)).use_count
          = ((m.obj (m.get q)).use_count + UINT_MOD - 1) % UINT_MOD ∧
        (1 ≤ (m.obj (m.get q)).use_count → (m.obj (m.get q)).use_count < UINT_MOD →
          ((intrusive_ptr.assign_move q p m).obj (m.get q)).use_count
            = (m.obj (m.get q)).use_count - 1) ∧
        ((intrusive_ptr.assign_move q p m).deleted (m.get q) = m.deleted (m.get q) + 1
          ↔ ((intrusive_ptr.assign_move q p m).obj (m.get q)).use_count = 0) ∧
        (((intrusive_ptr.assign_move q p m).obj (m.get q)).use_count ≠ 0 →
          (intrusive_ptr.assign_move q p m).deleted (m.get q) = m.deleted (m.get q)) ∧
        ∀ b, b ≠ m.get q →
          (intrusive_ptr.assign_move q p m).obj b = m.obj b ∧
          (intrusive_ptr.assign_move q p m).deleted b = m.deleted b)) ∧
    ((intrusive_ptr.assign_move_conv conv q p m).live q = true ∧
      (intrusive_ptr.assign_move_conv conv q p m).live p = true ∧
      (intrusive_ptr.assign_move_conv conv q p m).get q = static_cast conv (m.get p) ∧
      (intrusive_ptr.assign_move_conv conv q p m).get p = 0 ∧
      (∀ r, r ≠ p → r ≠ q → (intrusive_ptr.assign_move_conv conv q p m).inst r = m.inst r) ∧
      (m.get q = 0 →
        (intrusive_ptr.assign_move_conv conv q p m).obj = m.obj ∧
        (intrusive_ptr.assign_move_conv conv q p m).deleted = m.deleted) ∧
      (m.get q ≠ 0 →
        (intrusive_ptr.assign_move_conv conv q p m).obj
          = (intrusive_ptr_release (m.get q) m).obj ∧
        (intrusive_ptr.assign_move_conv conv q p m).deleted
          = (intrusive_ptr_release (m.get q) m).deleted ∧
        ((intrusive_ptr.assign_move_conv conv q p m).obj (m.get q)).use_count
          = ((m.obj (m.get q)).use_count + UINT_MOD - 1) % UINT_MOD ∧
        (1 ≤ (m.obj (m.get q)).use_count → (m.obj (m.get q)).use_count < UINT_MOD →
          ((intrusive_ptr.assign_move_conv conv q p m).obj (m.get q)).use_count
            = (m.obj (m.get q)).use_count - 1) ∧
        ((intrusive_ptr.assign_move_conv conv q p m).deleted (m.get q)
            = m.deleted (m.get q) + 1
          ↔ ((intrusive_ptr.assign_move_conv conv q p m).obj (m.get q)).use_count = 0) ∧
        (((intrusive_ptr.assign_move_conv conv q p m).obj (m.get q)).use_count ≠ 0 →
          (intrusive_ptr.assign_move_conv conv q p m).deleted (m.get q)
            = m.deleted (m.get q)) ∧
        ∀ b, b ≠ m.get q →
          (intrusive_ptr.assign_move_conv conv q p m).obj b = m.obj b ∧
          (intrusive_ptr.assign_move_conv conv q p m).deleted b = m.deleted b)) ∧
    (m.get p ≠ 0 → (intrusive_ptr.assign_move_conv conv q p m).get q = conv (m.get p)) ∧
    (m.get p = 0 → (intrusive_ptr.assign_move_conv conv q p m).get q = 0) ∧
    ((intrusive_ptr.assign_move_conv conv q p m).get q = m.get p →
      intrusive_ptr.assign_move_conv conv q p m = intrusive_ptr.assign_move q p m) := by
  have h1 := move_assign_scheme (intrusive_ptr.ctor_move p) (m.get p) m
    (intrusive_ptr.assign_move q p m) q p hq hp hpq
    (fun r => ctor_move_live p m r hp) (fun r => ctor_move_get p m r hp) rfl rfl rfl
  have h2 := move_assign_scheme (intrusive_ptr.ctor_move_conv conv p)
    (static_cast conv (m.get p)) m (intrusive_ptr.assign_move_conv conv q p m) q p hq hp hpq
    (fun r => ctor_move_conv_live conv p m r hp) (fun r => ctor_move_conv_get conv p m r hp)
    rfl rfl rfl
  refine ⟨h1, h2, ?_, ?_, ?_⟩
  · intro h0
    rw [h2.2.2.1, static_cast_ne conv _ h0]
  · intro h0
    rw [h2.2.2.1, h0]; rfl
  · intro h
    exact assign_move_conv_same conv q p m (h2.2.2.1.symm.trans h)

theorem C16_move_assign_witness :
    (intrusive_ptr.assign_move 1 0
      (intrusive_ptr.ctor_raw 8 true (intrusive_ptr.ctor_raw 7 true Memory.fresh))).get 1 = 7 ∧
    (intrusive_ptr.assign_move 1 0
      (intrusive_ptr.ctor_raw 8 true (intrusive_ptr.ctor_raw 7 true Memory.fresh))).get 0 = 0 ∧
    ((intrusive_ptr.assign_move 1 0
      (intrusive_ptr.ctor_raw 8 true (intrusive_ptr.ctor_raw 7 true Memory.fresh))).obj
        8).use_count = 0 ∧
    (intrusive_ptr.assign_move_conv (fun a => a + 16) 1 0
      (intrusive_ptr.ctor_raw 8 true (intrusive_ptr.ctor_raw 448 false Memory.fresh))).get 1
      = 464 :=
  have h := C16_move_assign
    (intrusive_ptr.ctor_raw 8 true (intrusive_ptr.ctor_raw 7 true Memory.fresh)) 1 0
    (fun a => a + 16) (by decide) (by decide) (by decide)
  have k := C16_move_assign
    (intrusive_ptr.ctor_raw 8 true (intrusive_ptr.ctor_raw 448 false Memory.fresh)) 1 0
    (fun a => a + 16) (by decide) (by decide) (by decide)
  have h7 : (intrusive_ptr.ctor_raw 8 true (intrusive_ptr.ctor_raw 7 true Memory.fresh)).get 0
      = 7 := by decide
  have h8 : (intrusive_ptr.ctor_raw 8 true (intrusive_ptr.ctor_raw 7 true Memory.fresh)).get 1
      = 8 := by decide
  have hc : ((intrusive_ptr.ctor_raw 8 true (intrusive_ptr.ctor_raw 7 true Memory.fresh)).obj
      8).use_count = 1 := by decide
  ⟨h.1.2.2.1.trans h7, h.1.2.2.2.1, by
    have h2 := (h.1.2.2.2.2.2.2 (by decide)).2.2.2.1
    rw [h8, hc] at h2
    exact h2 (Nat.le_refl 1) (by decide), k.2.2.1 (by decide)⟩

/-- C17: self-move-assignment is a no-op.  After `p = std::move(p)` the state is the one
before: `p` holds the same address and so does every other instance, every object has the
counter it had, and nothing is destroyed. -/
theorem C17_self_move_assign (m : Memory) (p : Nat) (hp : m.live p = true) :
    (intrusive_ptr.assign_move p p m).same_state m ∧
    (intrusive_ptr.assign_move p p m).get p = m.get p ∧
    (intrusive_ptr.assign_move p p m).live p = true ∧
    (∀ b, ((intrusive_ptr.assign_move p p m).obj b).use_count = (m.obj b).use_count) ∧
    (∀ b, (intrusive_ptr.assign_move p p m).deleted b = m.deleted b) ∧
    (∀ conv : Nat → Nat, static_cast conv (m.get p) = m.get p →
      intrusive_ptr.assign_move_conv conv p p m = intrusive_ptr.assign_move p p m) := by
  have hpL : p ≠ m.ptrs.length := Nat.ne_of_lt (live_lt hp)
  obtain ⟨h1, h2, h3, h4, h5⟩ :=
    assign_scheme (intrusive_ptr.ctor_move p) p m (fun r => ctor_move_live p m r hp) hp
  have hg : (intrusive_ptr.ctor_move p m).get p = 0 := by
    rw [ctor_move_get _ _ _ hp, if_neg hpL, if_pos rfl]
  rw [hg, if_neg (fun h => h rfl), ← assign_move_eq] at h1 h2 h3
  rw [← assign_move_eq] at h4 h5
  have hobj : (intrusive_ptr.assign_move p p m).obj = m.obj := h1
  have hdel : (intrusive_ptr.assign_move p p m).deleted = m.deleted := h2
  have hub : (intrusive_ptr.assign_move p p m).ub = m.ub := h3
  have hlive : ∀ r, (intrusive_ptr.assign_move p p m).live r = m.live r := by
    intro r
    rw [h4, ctor_move_live _ _ _ hp]
    by_cases hr : r = m.ptrs.length
    · rw [hr, live_length]; simp
    · simp [hr]
  have hget : ∀ r, (intrusive_ptr.assign_move p p m).get r = m.get r := by
    intro r
    rw [h5]
    by_cases hr : r = m.ptrs.length
    · rw [if_pos hr, hr, get_dead (live_length m)]
    · rw [if_neg hr]
      by_cases hrp : r = p
      · rw [if_pos hrp, ctor_move_get _ _ _ hp, if_pos rfl, hrp]
      · rw [if_neg hrp, ctor_move_get _ _ _ hp, if_neg hr, if_neg hrp]
  exact ⟨⟨hobj, hdel, hub, fun r => inst_ext (hlive r) (hget r)⟩, hget p,
    by rw [hlive, hp], fun b => by rw [hobj], fun b => by rw [hdel],
    fun conv hcv => assign_move_conv_same conv p p m hcv⟩

theorem C17_self_move_assign_witness :
    (intrusive_ptr.assign_move 0 0 (intrusive_ptr.ctor_raw 7 true Memory.fresh)).get 0 = 7 ∧
    ((intrusive_ptr.assign_move 0 0 (intrusive_ptr.ctor_raw 7 true Memory.fresh)).obj
      7).use_count = 1 ∧
    (intrusive_ptr.assign_move 0 0 (intrusive_ptr.ctor_raw 7 true Memory.fresh)).deleted 7
      = 0 :=
  have h := C17_self_move_assign (intrusive_ptr.ctor_raw 7 true Memory.fresh) 0 (by decide)
  ⟨h.2.1.trans (by decide), (h.2.2.2.1 7).trans (by decide),
    (h.2.2.2.2.1 7).trans (by decide)⟩


/-! ## `detach` and adoption, `reset` to the own address -/

theorem detach_adopt_eq (p : Nat) (m : Memory) :
    intrusive_ptr.ctor_raw (intrusive_ptr.detach p m).1 false (intrusive_ptr.detach p m).2
      = (m.set p 0).alloc (m.get p) := by
  rw [ctor_raw_adopt]; rfl

/-- C18: the round trip of `detach` and adoption.  `intrusive_ptr(p.detach(), false)` is a new
instance holding exactly the address `p` held, `p` is empty, every other instance is as it was,
every object has the counter it had before the `detach` and nothing is destroyed.  Destroying
the new instance then has on the objects exactly the effect the destruction of `p` would have
had before the `detach`: one `intrusive_ptr_release` of the address if it is not null, and
nothing otherwise. -/
theorem C18_detach_adopt (m : Memory) (p : Nat) (hp : m.live p = true) :
    (intrusive_ptr.detach p m).2.ptrs.length = m.ptrs.length ∧
    (intrusive_ptr.ctor_raw (intrusive_ptr.detach p m).1 false
      (intrusive_ptr.detach p m).2).live m.ptrs.length = true ∧
    (intrusive_ptr.ctor_raw (intrusive_ptr.detach p m).1 false
      (intrusive_ptr.detach p m).2).get m.ptrs.length = m.get p ∧
    (intrusive_ptr.ctor_raw (intrusive_ptr.detach p m).1 false
      (intrusive_ptr.detach p m).2).get p = 0 ∧
    (∀ r, r ≠ p → r ≠ m.ptrs.length →
      (intrusive_ptr.ctor_raw (intrusive_ptr.detach p m).1 false
        (intrusive_ptr.detach p m).2).inst r = m.inst r) ∧
    (intrusive_ptr.ctor_raw (intrusive_ptr.detach p m).1 false
      (intrusive_ptr.detach p m).2).obj = m.obj ∧
    (intrusive_ptr.ctor_raw (intrusive_ptr.detach p m).1 false
      (intrusive_ptr.detach p m).2).deleted = m.deleted ∧
    (intrusive_ptr.dtor m.ptrs.length
      (intrusive_ptr.ctor_raw (intrusive_ptr.detach p m).1 false
        (intrusive_ptr.detach p m).2)).obj = (intrusive_ptr.dtor p m).obj ∧
    (intrusive_ptr.dtor m.ptrs.length
      (intrusive_ptr.ctor_raw (intrusive_ptr.detach p m).1 false
        (intrusive_ptr.detach p m).2)).deleted = (intrusive_ptr.dtor p m).deleted ∧
    (m.get p ≠ 0 →
      (intrusive_ptr.dtor m.ptrs.length
        (intrusive_ptr.ctor_raw (intrusive_ptr.detach p m).1 false
          (intrusive_ptr.detach p m).2)).obj = (intrusive_ptr_release (m.get p) m).obj ∧
      (intrusive_ptr.dtor m.ptrs.length
        (intrusive_ptr.ctor_raw (intrusive_ptr.detach p m).1 false
          (intrusive_ptr.detach p m).2)).deleted
        = (intrusive_ptr_release (m.get p) m).deleted) ∧
    (m.get p = 0 →
      (intrusive_ptr.dtor m.ptrs.length
        (intrusive_ptr.ctor_raw (intrusive_ptr.detach p m).1 false
          (intrusive_ptr.detach p m).2)).obj = m.obj ∧
      (intrusive_ptr.dtor m.ptrs.length
        (intrusive_ptr.ctor_raw (intrusive_ptr.detach p m).1 false
          (intrusive_ptr.detach p m).2)).deleted = m.deleted) := by
  have hpL : p < m.ptrs.length := live_lt hp
  have hlen : (intrusive_ptr.detach p m).2.ptrs.length = m.ptrs.length := set_length m p 0
  rw [detach_adopt_eq]
  have hgL : ((m.set p 0).alloc (m.get p)).get m.ptrs.length = m.get p := by
    rw [get_alloc, set_length, if_pos rfl]
  have hgp : ((m.set p 0).alloc (m.get p)).get p = 0 := by
    rw [get_alloc, set_length, if_neg (Nat.ne_of_lt hpL), get_set, if_pos ⟨rfl, hpL⟩]
  have hlive : ∀ r, ((m.set p 0).alloc (m.get p)).live r
      = (decide (r = m.ptrs.length) || m.live r) := by
    intro r
    rw [live_alloc, set_length, live_set _ _ _ _ hp]
  obtain ⟨d1, d2, _⟩ := dtor_objects m.ptrs.length ((m.set p 0).alloc (m.get p))
  obtain ⟨e1, e2, _⟩ := dtor_objects p m
  rw [hgL] at d1 d2
  have k1 : (intrusive_ptr.dtor m.ptrs.length ((m.set p 0).alloc (m.get p))).obj
      = (if m.get p ≠ 0 then intrusive_ptr_release (m.get p) m else m).obj := by
    rw [d1]; split_ifs <;> rfl
  have k2 : (intrusive_ptr.dtor m.ptrs.length ((m.set p 0).alloc (m.get p))).deleted
      = (if m.get p ≠ 0 then intrusive_ptr_release (m.get p) m else m).deleted := by
    rw [d2]; split_ifs <;> rfl
  refine ⟨hlen, by rw [hlive]; simp, hgL, hgp, ?_, rfl, rfl, k1.trans e1.symm,
    k2.trans e2.symm, ?_, ?_⟩
  · intro r hr hrL
    refine inst_ext ?_ ?_
    · rw [hlive]; simp [hrL]
    · rw [get_alloc, set_length, if_neg hrL, get_set, if_neg (fun h => hr h.1)]
  · intro h0
    rw [k1, k2, if_pos h0]
    exact ⟨rfl, rfl⟩
  · intro h0
    rw [k1, k2, if_neg (not_not.2 h0)]
    exact ⟨rfl, rfl⟩

theorem C18_detach_adopt_witness :
    (intrusive_ptr.ctor_raw (intrusive_ptr.detach 0 (intrusive_ptr.ctor_raw 7 true
      Memory.fresh)).1 false
      (intrusive_ptr.detach 0 (intrusive_ptr.ctor_raw 7 true Memory.fresh)).2).get 1 = 7 ∧
    ((intrusive_ptr.ctor_raw (intrusive_ptr.detach 0 (intrusive_ptr.ctor_raw 7 true
      Memory.fresh)).1 false
      (intrusive_ptr.detach 0 (intrusive_ptr.ctor_raw 7 true Memory.fresh)).2).obj
        7).use_count = 1 :=
  have h := C18_detach_adopt (intrusive_ptr.ctor_raw 7 true Memory.fresh) 0 (by decide)
  ⟨h.2.2.1.trans (by decide), by rw [h.2.2.2.2.2.1]; decide⟩

/-- C19: `reset` to the own address without `add_ref` drops a unit.  For a live instance `p`
holding `a ≠ 0` whose object has count `n` with `1 ≤ n` (and `n < 2^32`, the range of the
counter), after `p.reset(a, false)` `p` still holds `a`, every other instance is as it was, the
count of the object is `n - 1` and no other object changes; the object is destroyed if and only
if `n = 1`, and then `p` still holds the address of the destroyed object. -/
theorem C19_reset_own_address (m : Memory) (p a : Nat) (hp : m.live p = true)
    (ha : m.get p = a) (h0 : a ≠ 0) (hn1 : 1 ≤ (m.obj a).use_count)
    (hn2 : (m.obj a).use_count < UINT_MOD) :
    (intrusive_ptr.reset_raw_flag p a false m).live p = true ∧
    (intrusive_ptr.reset_raw_flag p a false m).get p = a ∧
    (∀ r, (intrusive_ptr.reset_raw_flag p a false m).inst r = m.inst r) ∧
    ((intrusive_ptr.reset_raw_flag p a false m).obj a).use_count = (m.obj a).use_count - 1 ∧
    (∀ b, b ≠ a →
      (intrusive_ptr.reset_raw_flag p a false m).obj b = m.obj b ∧
      (intrusive_ptr.reset_raw_flag p a false m).deleted b = m.deleted b) ∧
    ((intrusive_ptr.reset_raw_flag p a false m).deleted a = m.deleted a + 1
      ↔ (m.obj a).use_count = 1) ∧
    ((m.obj a).use_count ≠ 1 →
      (intrusive_ptr.reset_raw_flag p a false m).deleted a = m.deleted a) ∧
    ((m.obj a).use_count = 1 →
      (intrusive_ptr.reset_raw_flag p a false m).deleted a = m.deleted a + 1 ∧
      ((intrusive_ptr.reset_raw_flag p a false m).obj a).use_count = 0 ∧
      (intrusive_ptr.reset_raw_flag p a false m).get p = a ∧
      intrusive_ptr.toBool p (intrusive_ptr.reset_raw_flag p a false m) = true) := by
  obtain ⟨h1, h2, _, h4, h5⟩ := reset_raw_flag_spec p a false m hp
  have hpa : m.get p ≠ 0 := by rw [ha]; exact h0
  rw [if_pos hpa, ha, ctor_raw_adopt] at h1 h2
  have hobj : (intrusive_ptr.reset_raw_flag p a false m).obj
      = (intrusive_ptr_release a m).obj := h1
  have hdel : (intrusive_ptr.reset_raw_flag p a false m).deleted
      = (intrusive_ptr_release a m).deleted := h2
  have hget : (intrusive_ptr.reset_raw_flag p a false m).get p = a := by
    rw [h5, if_pos rfl]
  have hc : ((intrusive_ptr.reset_raw_flag p a false m).obj a).use_count
      = (m.obj a).use_count - 1 := by
    rw [hobj, release_count]
    rw [UINT_MOD_eq] at hn2 ⊢
    omega
  have hd : (intrusive_ptr.reset_raw_flag p a false m).deleted a
      = if (m.obj a).use_count = 1 then m.deleted a + 1 else m.deleted a := by
    rw [hdel, release_deleted]
    unfold intrusive_ref_counter.use_count at hn1 hn2 ⊢
    rw [UINT_MOD_eq] at hn2 ⊢
    by_cases h : (m.obj a).c = 1
    · rw [if_pos h, if_pos ⟨rfl, by rw [h]⟩]
    · rw [if_neg h, if_neg (fun k => h (by omega))]
  refine ⟨by rw [h4, hp], hget, ?_, hc, ?_, ?_, ?_, ?_⟩
  · intro r
    refine inst_ext (h4 r) ?_
    rw [h5]
    by_cases hr : r = p
    · rw [if_pos hr, hr, ha]
    · rw [if_neg hr]
  · intro b hb
    rw [hobj, hdel]
    exact ⟨release_obj_ne _ _ _ hb, release_deleted_ne _ _ _ hb⟩
  · rw [hd]
    by_cases h : (m.obj a).use_count = 1
    · rw [if_pos h]; exact ⟨fun _ => h, fun _ => rfl⟩
    · rw [if_neg h]
      exact ⟨fun k => absurd k (by omega), fun k => absurd k h⟩
  · intro h
    rw [hd, if_neg h]
  · intro h
    refine ⟨by rw [hd, if_pos h], by rw [hc, h], hget, ?_⟩
    unfold intrusive_ptr.toBool
    rw [hget]
    exact decide_eq_true h0

theorem C19_reset_own_address_witness :
    (intrusive_ptr.reset_raw_flag 0 7 false (intrusive_ptr.ctor_raw 7 true Memory.fresh)).get 0
      = 7 ∧
    ((intrusive_ptr.reset_raw_flag 0 7 false (intrusive_ptr.ctor_raw 7 true Memory.fresh)).obj
      7).use_count = 0 ∧
    (intrusive_ptr.reset_raw_flag 0 7 false (intrusive_ptr.ctor_raw 7 true
      Memory.fresh)).deleted 7 = 1 :=
  have h := C19_reset_own_address (intrusive_ptr.ctor_raw 7 true Memory.fresh) 0 7
    (by decide) (by decide) (by decide) (by decide) (by decide)
  ⟨h.2.1, (h.2.2.2.2.2.2.2 (by decide)).2.1, (h.2.2.2.2.2.2.2 (by decide)).1⟩


/-! ## Wrap-around of the counter -/

/-- C20: the counter is an `unsigned int` and wraps modulo 2^32.  `intrusive_ptr_release` on an
object whose count is 0 sets the count to 2^32 - 1 and does not destroy the object; so for an
object at `a ≠ 0` with count 0 (a fresh one in particular), `intrusive_ptr(a, false)` leaves the
count at 0 and the destruction of that instance leaves the object undestroyed with count
2^32 - 1; and `intrusive_ptr_add_ref` on an object whose count is 2^32 - 1 sets the count to 0
and destroys nothing. -/
theorem C20_wrap_around (m : Memory) (a : Nat) :
    UINT_MOD = 2 ^ 32 ∧
    ((m.obj a).use_count = 0 →
      ((intrusive_ptr_release a m).obj a).use_count = 4294967295 ∧
      ((intrusive_ptr_release a m).obj a).use_count = 2 ^ 32 - 1 ∧
      (intrusive_ptr_release a m).deleted = m.deleted) ∧
    (a ≠ 0 → (m.obj a).use_count = 0 →
      (intrusive_ptr.ctor_raw a false m).get m.ptrs.length = a ∧
      ((intrusive_ptr.ctor_raw a false m).obj a).use_count = 0 ∧
      ((intrusive_ptr.dtor m.ptrs.length (intrusive_ptr.ctor_raw a false m)).obj a).use_count
        = 4294967295 ∧
      (intrusive_ptr.dtor m.ptrs.length (intrusive_ptr.ctor_raw a false m)).deleted
        = m.deleted) ∧
    (a ≠ 0 →
      ((intrusive_ptr.dtor 0 (intrusive_ptr.ctor_raw a false Memory.fresh)).obj a).use_count
        = 4294967295 ∧
      (intrusive_ptr.dtor 0 (intrusive_ptr.ctor_raw a false Memory.fresh)).deleted a = 0) ∧
    ((m.obj a).use_count = 4294967295 →
      ((intrusive_ptr_add_ref a m).obj a).use_count = 0 ∧
      (intrusive_ptr_add_ref a m).deleted = m.deleted) := by
  have hrel : ∀ m' : Memory, (m'.obj a).use_count = 0 →
      ((intrusive_ptr_release a m').obj a).use_count = 4294967295 ∧
      (intrusive_ptr_release a m').deleted = m'.deleted := by
    intro m' hc
    have h1 : ((intrusive_ptr_release a m').obj a).use_count = 4294967295 := by
      rw [release_count, hc, UINT_MOD_eq]
    refine ⟨h1, ?_⟩
    funext b
    rw [release_deleted]
    unfold intrusive_ref_counter.use_count at hc
    rw [hc, UINT_MOD_eq]
    exact if_neg (fun h => absurd h.2 (by decide))
  have hdt : ∀ m' : Memory, a ≠ 0 → (m'.obj a).use_count = 0 →
      ((intrusive_ptr.dtor m'.ptrs.length (intrusive_ptr.ctor_raw a false m')).obj a).use_count
        = 4294967295 ∧
      (intrusive_ptr.dtor m'.ptrs.length (intrusive_ptr.ctor_raw a false m')).deleted
        = m'.deleted := by
    intro m' h0 hc
    have hg : (m'.alloc a).get m'.ptrs.length = a := by rw [get_alloc, if_pos rfl]
    have hg0 : (m'.alloc a).get m'.ptrs.length ≠ 0 := by rw [hg]; exact h0
    rw [ctor_raw_adopt, dtor_owning _ _ hg0, hg, free_obj, free_deleted]
    exact hrel (m'.alloc a) hc
  refine ⟨by rw [UINT_MOD_eq]; norm_num, ?_, ?_, ?_, ?_⟩
  · intro hc
    exact ⟨(hrel m hc).1, by rw [(hrel m hc).1]; norm_num, (hrel m hc).2⟩
  · intro h0 hc
    refine ⟨by rw [ctor_raw_get, if_pos rfl], ?_, (hdt m h0 hc).1, (hdt m h0 hc).2⟩
    rw [ctor_raw_adopt, alloc_obj, hc]
  · intro h0
    have h := hdt Memory.fresh h0 rfl
    have hl : Memory.fresh.ptrs.length = 0 := rfl
    rw [hl] at h
    exact ⟨h.1, by rw [h.2]; rfl⟩
  · intro hc
    exact ⟨by rw [add_ref_count, hc, UINT_MOD_eq], add_ref_deleted a m⟩

theorem C20_wrap_around_witness :
    ((intrusive_ptr_release 7 Memory.fresh).obj 7).use_count = 4294967295 ∧
    (intrusive_ptr_release 7 Memory.fresh).deleted 7 = 0 ∧
    ((intrusive_ptr.dtor 0 (intrusive_ptr.ctor_raw 7 false Memory.fresh)).obj 7).use_count
      = 4294967295 ∧
    ((intrusive_ptr_add_ref 7 (intrusive_ptr_release 7 Memory.fresh)).obj 7).use_count = 0 :=
  have h := C20_wrap_around Memory.fresh 7
  ⟨(h.2.1 rfl).1, by rw [(h.2.1 rfl).2.2]; rfl, (h.2.2.2.1 (by decide)).1,
    ((C20_wrap_around (intrusive_ptr_release 7 Memory.fresh) 7).2.2.2.2 (h.2.1 rfl).1).1⟩


/-! ## Destruction exactly once -/

theorem get_ne_of_unheld (m : Memory) (a r : Nat) (ha : a ≠ 0) (h0 : m.holders a = 0) :
    m.get r ≠ a := by
  intro h
  cases hl : m.live r with
  | true =>
    have := holders_pos m r a hl h
    omega
  | false =>
    rw [get_dead hl] at h
    exact ha h.symm

theorem up_to_same {a : Nat} {m m' : Memory} (h : Up a m m')
    (hh : m'.holders a = m.holders a) : Same a m m' := by
  rcases h with h | ⟨_, _, _, h4, _⟩
  · exact h
  · omega

theorem down_to_same {a : Nat} {m m' : Memory} (h : Down a m m')
    (h0 : m.holders a = 0) : Same a m m' := by
  rcases h with h | ⟨_, h2, _⟩
  · exact h
  · omega

theorem ctor_raw_unheld (p a : Nat) (m : Memory) (ha : a ≠ 0) (hp : p ≠ a) :
    Same a m (intrusive_ptr.ctor_raw p true m) :=
  up_to_same (ctor_raw_eff p a m ha) (by rw [ctor_raw_holders, if_neg hp]; rfl)

/-- An assignment or `reset` leaves alone an object that no instance holds and that the
constructor of its temporary leaves alone. -/
theorem assign_unheld (mk : Memory → Memory) (this a : Nat) (m : Memory) (ha : a ≠ 0)
    (hmk : Same a m (mk m))
    (hlive : ∀ r, (mk m).live r = (decide (r = m.ptrs.length) || m.live r))
    (hthis : m.live this = true) (h0 : m.holders a = 0) :
    Same a m
      (intrusive_ptr.dtor m.ptrs.length (intrusive_ptr.swap m.ptrs.length this (mk m))) := by
  have ht : (mk m).live m.ptrs.length = true := by rw [hlive]; simp
  have hthis1 : (mk m).live this = true := by rw [hlive]; simp [hthis]
  have hs := swap_eff m.ptrs.length this a (mk m) ht hthis1
  have ht2 : (intrusive_ptr.swap m.ptrs.length this (mk m)).live m.ptrs.length = true := by
    rw [swap_live _ _ _ _ ht hthis1]; exact ht
  have h1 := same_trans hmk hs
  exact same_trans h1 (down_to_same (dtor_eff _ a _ ha ht2) (by rw [h1.2.2.2.1, h0]))

/-- An operation that is not given the raw address `a` leaves alone the object at `a` when no
instance holds it. -/
theorem step_unheld (isT : Nat → Bool) (op : Op) (m : Memory) (a : Nat) (ha : a ≠ 0)
    (hw : op.wraps a = false) (h0 : m.holders a = 0) : Same a m (step isT op m) := by
  have hg := fun r => get_ne_of_unheld m a r ha h0
  cases op with
  | ctor => exact ctor_eff a m ha
  | ctor_raw p =>
    have hp : p ≠ a := by simpa [Op.wraps] using hw
    exact ctor_raw_unheld p a m ha hp
  | ctor_copy conv rhs =>
    simp only [step, ctor_copy_conv_eq, ite_self]
    split_ifs with h
    · rw [ctor_copy_eq_ctor_raw]
      exact ctor_raw_unheld _ a m ha (hg rhs)
    · exact same_refl a m
  | ctor_move conv rhs =>
    simp only [step, ctor_move_conv_eq, ite_self]
    split_ifs with h
    · exact ctor_move_eff rhs a m ha h
    · exact same_refl a m
  | assign_copy conv this rhs =>
    simp only [step, assign_copy_conv_eq, ite_self]
    split_ifs with h
    · refine assign_unheld (intrusive_ptr.ctor_copy rhs) this a m ha ?_
        (ctor_copy_live rhs m) h.1 h0
      rw [ctor_copy_eq_ctor_raw]
      exact ctor_raw_unheld _ a m ha (hg rhs)
    · exact same_refl a m
  | assign_move conv this rhs =>
    simp only [step, assign_move_conv_eq, ite_self]
    split_ifs with h
    · exact assign_unheld (intrusive_ptr.ctor_move rhs) this a m ha
        (ctor_move_eff rhs a m ha h.2) (fun r => ctor_move_live rhs m r h.2) h.1 h0
    · exact same_refl a m
  | assign_raw this p =>
    have hp : p ≠ a := by simpa [Op.wraps] using hw
    simp only [step]
    split_ifs with h
    · exact assign_unheld (intrusive_ptr.ctor_raw p true) this a m ha
        (ctor_raw_unheld p a m ha hp) (ctor_raw_live p true m) h h0
    · exact same_refl a m
  | reset this =>
    simp only [step]
    split_ifs with h
    · exact assign_unheld intrusive_ptr.ctor this a m ha (ctor_eff a m ha) (ctor_live m) h h0
    · exact same_refl a m
  | reset_raw this p =>
    have hp : p ≠ a := by simpa [Op.wraps] using hw
    simp only [step]
    split_ifs with h
    · exact assign_unheld (intrusive_ptr.ctor_raw p true) this a m ha
        (ctor_raw_unheld p a m ha hp) (ctor_raw_live p true m) h h0
    · exact same_refl a m
  | swap this rhs =>
    simp only [step]
    split_ifs with h
    · exact swap_eff this rhs a m h.1 h.2
    · exact same_refl a m
  | static_pointer_cast p =>
    simp only [step]
    split_ifs with h
    · rw [static_pointer_cast_id]
      exact ctor_raw_unheld _ a m ha (hg p)
    · exact same_refl a m
  | const_pointer_cast p =>
    simp only [step]
    split_ifs with h
    · exact ctor_raw_unheld _ a m ha (hg p)
    · exact same_refl a m
  | dynamic_pointer_cast p =>
    simp only [step]
    split_ifs with h
    · refine ctor_raw_unheld _ a m ha ?_
      unfold dynamic_cast intrusive_ptr.get
      split_ifs
      · exact hg p
      · exact fun h => ha h.symm
    · exact same_refl a m
  | shared_from_this p =>
    have hp : p ≠ a := by simpa [Op.wraps] using hw
    simp only [step]
    rw [shared_from_this_eq]
    exact ctor_raw_unheld p a m ha hp
  | dtor this =>
    simp only [step]
    split_ifs with h
    · exact down_to_same (dtor_eff this a m ha h) h0
    · exact same_refl a m

/-- While fewer than 2^32 instances hold it after every operation, an object that is not
wrapped again is either not destroyed, with as many holders as its count says and at least
one, or destroyed once, with no holder and count 0. -/
theorem step_once_bounded (isT : Nat → Bool) (op : Op) (m : Memory) (a : Nat) (ha : a ≠ 0)
    (hw : op.wraps a = false)
    (hi : (m.deleted a = 0 ∧ (m.obj a).c = m.holders a ∧ 1 ≤ m.holders a ∧
        m.holders a < UINT_MOD) ∨ (m.deleted a = 1 ∧ (m.obj a).c = 0 ∧ m.holders a = 0))
    (hb : (step isT op m).holders a < UINT_MOD) :
    ((step isT op m).deleted a = 0 ∧ ((step isT op m).obj a).c = (step isT op m).holders a ∧
        1 ≤ (step isT op m).holders a ∧ (step isT op m).holders a < UINT_MOD) ∨
      ((step isT op m).deleted a = 1 ∧ ((step isT op m).obj a).c = 0 ∧
        (step isT op m).holders a = 0) := by
  rcases hi with ⟨h1, h2, h3, h4⟩ | ⟨h1, h2, h3⟩
  · obtain ⟨m1, hu, hd⟩ := step_opEff isT op m a ha
    have hm1 : m1.deleted a = 0 ∧ (m1.obj a).c = m1.holders a % UINT_MOD ∧
        1 ≤ m1.holders a ∧ m1.holders a ≤ UINT_MOD := by
      rcases hu with ⟨_, u2, u3, u4, _⟩ | ⟨_, u2, u3, u4, _⟩
      · rw [u2, u3, u4]
        rw [UINT_MOD_eq] at h4 ⊢
        omega
      · rw [u2, u3, u4]
        rw [UINT_MOD_eq] at h4 ⊢
        omega
    obtain ⟨k1, k2, k3, k4⟩ := hm1
    rcases hd with ⟨_, d2, d3, d4, _⟩ | ⟨_, d1, d2, d3, _⟩
    · left
      rw [d2, d3, d4]
      rw [d4] at hb
      rw [UINT_MOD_eq] at hb k2 k4 ⊢
      omega
    · by_cases hz : ((step isT op m).obj a).c = 0
      · right
        rw [if_pos hz] at d3
        rw [UINT_MOD_eq] at hb k2 k4 d2
        omega
      · left
        rw [if_neg hz] at d3
        rw [UINT_MOD_eq] at hb k2 k4 d2 ⊢
        omega
  · have hs := step_unheld isT op m a ha hw h3
    right
    rw [hs.2.1, hs.2.2.1, hs.2.2.2.1]
    exact ⟨h1, h2, h3⟩

theorem run_take_cons (isT : Nat → Bool) (op : Op) (ops : List Op) (k : Nat) (m : Memory) :
    run isT ((op :: ops).take (k + 1)) m = run isT (ops.take k) (step isT op m) := rfl

theorem run_once_bounded (isT : Nat → Bool) (a : Nat) (ha : a ≠ 0) (ops : List Op)
    (m : Memory) (hw : ∀ op ∈ ops, op.wraps a = false)
    (hb : ∀ k, (run isT (ops.take k) m).holders a < UINT_MOD)
    (hi : (m.deleted a = 0 ∧ (m.obj a).c = m.holders a ∧ 1 ≤ m.holders a ∧
        m.holders a < UINT_MOD) ∨ (m.deleted a = 1 ∧ (m.obj a).c = 0 ∧ m.holders a = 0)) :
    ((run isT ops m).deleted a = 0 ∧ ((run isT ops m).obj a).c = (run isT ops m).holders a ∧
        1 ≤ (run isT ops m).holders a ∧ (run isT ops m).holders a < UINT_MOD) ∨
      ((run isT ops m).deleted a = 1 ∧ ((run isT ops m).obj a).c = 0 ∧
        (run isT ops m).holders a = 0) := by
  induction ops generalizing m with
  | nil => exact hi
  | cons op ops ih =>
    rw [run_cons]
    have hb1 : (step isT op m).holders a < UINT_MOD := hb 1
    refine ih _ (fun o ho => hw o (List.mem_cons_of_mem _ ho)) (fun k => ?_)
      (step_once_bounded isT op m a ha (hw op (List.mem_cons_self _ _)) hi hb1)
    have := hb (k + 1)
    rw [run_take_cons] at this
    exact this

/-- C2 (amended): an object wrapped once by `intrusive_ptr(X)` and then handled through any
finite sequence of operations on pointers (copies, moves, `reset`, `swap`, casts, destructions,
none of them given the raw address `X` again), such that fewer than 2^32 instances hold it
after each operation, is destroyed at most once: it is destroyed exactly when no instance
holds it any more, and until then its count is the number of its holders.  Every constructor
call, `swap` and destructor call of the program destroys it exactly when that call takes its
count from 1 to 0, an assignment or `reset()` being a constructor call, a `swap` and a
destructor call in a row.  In the scenario of the claim the counts are 0, 1, 2, 1 (with `p1`
empty) and 0, with `X` destroyed once. -/
theorem C2_destroyed_exactly_once (isT : Nat → Bool) (X : Nat) (ops : List Op) (m : Memory)
    (hX : X ≠ 0) (hm : m = run isT (Op.ctor_raw X :: ops) Memory.fresh)
    (hw : ∀ op ∈ ops, op.wraps X = false)
    (hb : ∀ k, (run isT (Op.ctor_raw X :: ops.take k) Memory.fresh).holders X < UINT_MOD) :
    m.deleted X ≤ 1 ∧
    (m.holders X = 0 ↔ m.deleted X = 1) ∧
    (m.deleted X = 0 → (m.obj X).use_count = m.holders X ∧ 1 ≤ (m.obj X).use_count) ∧
    (m.deleted X = 1 → (m.obj X).use_count = 0) ∧
    (∀ op : Op, op.prim = true →
      (step isT op m).deleted X
        = m.deleted X + if (m.obj X).use_count = 1 ∧ ((step isT op m).obj X).use_count = 0
            then 1 else 0) ∧
    (∀ conv this rhs, m.live this = true → m.live rhs = true →
      step isT (.assign_copy conv this rhs) m
        = run isT [.ctor_copy conv rhs, .swap m.ptrs.length this, .dtor m.ptrs.length] m) ∧
    (∀ conv this rhs, m.live this = true → m.live rhs = true →
      step isT (.assign_move conv this rhs) m
        = run isT [.ctor_move conv rhs, .swap m.ptrs.length this, .dtor m.ptrs.length] m) ∧
    (∀ this, m.live this = true →
      step isT (.reset this) m
        = run isT [.ctor, .swap m.ptrs.length this, .dtor m.ptrs.length] m) ∧
    (Memory.fresh.obj 1).use_count = 0 ∧
    ((run (fun _ => true) [.ctor_raw 1] Memory.fresh).obj 1).use_count = 1 ∧
    ((run (fun _ => true) [.ctor_raw 1, .ctor_copy false 0] Memory.fresh).obj 1).use_count
      = 2 ∧
    ((run (fun _ => true) [.ctor_raw 1, .ctor_copy false 0, .reset 0]
      Memory.fresh).obj 1).use_count = 1 ∧
    (run (fun _ => true) [.ctor_raw 1, .ctor_copy false 0, .reset 0] Memory.fresh).get 0 = 0 ∧
    (run (fun _ => true) [.ctor_raw 1, .ctor_copy false 0, .reset 0] Memory.fresh).deleted 1
      = 0 ∧
    ((run (fun _ => true) [.ctor_raw 1, .ctor_copy false 0, .reset 0, .dtor 1]
      Memory.fresh).obj 1).use_count = 0 ∧
    (run (fun _ => true) [.ctor_raw 1, .ctor_copy false 0, .reset 0, .dtor 1]
      Memory.fresh).deleted 1 = 1 := by
  subst hm
  have hw1 := wrapped_once X hX
  have hinv := run_once_bounded isT X hX ops (intrusive_ptr.ctor_raw X true Memory.fresh) hw
    (fun k => hb k)
    (Or.inl ⟨hw1.1, by rw [hw1.2.1, hw1.2.2], by rw [hw1.2.2],
      by rw [hw1.2.2]; decide⟩)
  have hinv' : ((run isT (Op.ctor_raw X :: ops) Memory.fresh).deleted X = 0 ∧
      ((run isT (Op.ctor_raw X :: ops) Memory.fresh).obj X).c
        = (run isT (Op.ctor_raw X :: ops) Memory.fresh).holders X ∧
      1 ≤ (run isT (Op.ctor_raw X :: ops) Memory.fresh).holders X ∧
      (run isT (Op.ctor_raw X :: ops) Memory.fresh).holders X < UINT_MOD) ∨
      ((run isT (Op.ctor_raw X :: ops) Memory.fresh).deleted X = 1 ∧
      ((run isT (Op.ctor_raw X :: ops) Memory.fresh).obj X).c = 0 ∧
      (run isT (Op.ctor_raw X :: ops) Memory.fresh).holders X = 0) := hinv
  have hlt := run_lt isT X hX (Op.ctor_raw X :: ops) Memory.fresh
    (show 0 < UINT_MOD by decide)
  refine ⟨?_, ?_, ?_, ?_, ?_, ?_, ?_, ?_, by decide, by decide, by decide, by decide,
    by decide, by decide, by decide, by decide⟩
  · rcases hinv' with h | h
    · exact le_of_eq_of_le h.1 (Nat.zero_le 1)
    · exact le_of_eq h.1
  · rcases hinv' with h | h
    · constructor
      · intro h0; omega
      · intro h1; omega
    · exact ⟨fun _ => h.1, fun _ => h.2.2⟩
  · intro hd
    rcases hinv' with h | h
    · unfold intrusive_ref_counter.use_count
      exact ⟨h.2.1, by rw [h.2.1]; exact h.2.2.1⟩
    · omega
  · intro hd
    rcases hinv' with h | h
    · omega
    · exact h.2.1
  · intro op hp
    exact prim_step_deleted isT op _ X hX hp hlt
  · intro conv this rhs h1 h2
    exact step_assign_copy isT conv this rhs _ h1 h2
  · intro conv this rhs h1 h2
    exact step_assign_move isT conv this rhs _ h1 h2
  · intro this h1
    exact step_reset isT this _ h1

theorem C2_destroyed_exactly_once_witness :
    (run (fun _ => true) [.ctor_raw 1, .ctor_copy false 0, .reset 0, .dtor 1]
        Memory.fresh).deleted 1 ≤ 1 ∧
    ((run (fun _ => true) [.ctor_raw 1, .ctor_copy false 0, .reset 0, .dtor 1]
        Memory.fresh).holders 1 = 0 ↔
      (run (fun _ => true) [.ctor_raw 1, .ctor_copy false 0, .reset 0, .dtor 1]
        Memory.fresh).deleted 1 = 1) :=
  have h := C2_destroyed_exactly_once (fun _ => true) 1 [.ctor_copy false 0, .reset 0, .dtor 1]
    _ (by decide) rfl (by decide)
    (fun k => match k with
      | 0 => by decide
      | 1 => by decide
      | 2 => by decide
      | (k + 3) => by
        simp only [List.take_succ_cons, List.take_nil]
        decide)
  ⟨h.1, h.2.1⟩

end inet
